import Mathlib

/-!
HVM guest-execution core (xen/arch/x86/hvm/hvm.c).

A shallow embedding of the ioreq channel, the ioreq page lifecycle, the
parameter and interrupt-level operations, the hypercall dispatcher, the
control-register writes and the VMX interrupt assist (vmx/intr.c).  Mutable C state is passed
explicitly; every call that leaves the translated functions (event channels,
page references, mappings, pausing, handlers) is recorded in a trace of
`Event`s carried by the state, in program order.
-/

namespace Xen

/-! ## Observable effects -/

/-- Pointer to one of the two ioreq pages embedded in a domain:
`&d->arch.hvm_domain.ioreq` or `&d->arch.hvm_domain.buf_ioreq`. -/
inductive iorp_sel
  | ioreq
  | buf_ioreq
  deriving DecidableEq, Repr

/-- Selector for the two hypercall tables of hvm.c. -/
inductive hcall_table
  | hvm_hypercall32_table
  | hvm_hypercall64_table
  deriving DecidableEq, Repr

/-- Translation of `enum hvm_intack`: the interrupt sources. -/
inductive hvm_intack
  | hvm_intack_none
  | hvm_intack_pic
  | hvm_intack_lapic
  | hvm_intack_nmi
  deriving DecidableEq, Repr

/-- The VMCS fields read or written by intr.c. -/
inductive vmcs_field
  | GUEST_INTERRUPTIBILITY_INFO
  | VM_ENTRY_INTR_INFO
  | CPU_BASED_VM_EXEC_CONTROL
  | TPR_THRESHOLD
  deriving DecidableEq, Repr

/-- Calls and shared-memory writes made by the translated functions, one
constructor per callee (or per written field), in the order they happen. -/
inductive Event
  | stts
  | pt_thaw_time
  | hvm_io_assist
  | wait_on_xen_event_channel (port : Nat)
  | prepare_wait_on_xen_event_channel (port : Nat)
  | notify_via_xen_event_channel (port : Nat)
  | write_ioreq_state (s : Nat)
  | domain_crash_synchronous
  | domain_pause
  | domain_unpause
  | spin_lock (l : iorp_sel)
  | spin_unlock (l : iorp_sel)
  | get_page_and_type (page : Nat) (ok : Bool)
  | put_page_and_type (page : Nat)
  | map_domain_page_global (mfn : Nat) (va : Nat)
  | unmap_domain_page_global (va : Nat)
  | assert_failed
  | write_vp_eport (vcpu_id : Nat) (port : Nat)
  | hvm_set_callback_via (value : Nat)
  | hvm_latch_shinfo_size
  | copy_to_guest (value : Nat)
  | rcu_unlock_domain
  | vpic_init
  | vioapic_init
  | hvm_store_cpu_guest_regs
  | read_table (t : hcall_table) (nr : Nat)
  | call_handler (t : hcall_table) (nr : Nat) (args : List Nat)
  | hvm_pci_intx_assert (device : Nat) (intx : Nat)
  | hvm_pci_intx_deassert (device : Nat) (intx : Nat)
  | hvm_isa_irq_assert (isa_irq : Nat)
  | hvm_isa_irq_deassert (isa_irq : Nat)
  | hvm_set_pci_link_route (link : Nat) (isa_irq : Nat)
  | hvm_inject_exception (trap : Nat) (error_code : Nat) (cr2 : Nat)
  | domain_crash
  | get_page (mfn : Nat) (ok : Bool)
  | put_page (mfn : Nat)
  | hvm_update_guest_efer
  | hvm_update_guest_cr (cr : Nat)
  | paging_update_paging_modes
  | paging_update_cr3
  | pt_update_irq
  | hvm_set_callback_irq_level
  | vmread (field : vmcs_field)
  | vmwrite (field : vmcs_field) (value : Nat)
  | hvm_vcpu_ack_pending_irq (source : hvm_intack) (vector : Option Nat)
  | vmx_inject_nmi
  | vmx_inject_extint (vector : Nat)
  | pt_intr_post (vector : Nat) (source : hvm_intack)
  | flush_tlb_mask
  deriving DecidableEq, Repr

/-- How control leaves a translated function. -/
inductive Exit
  | returned
  | crashed
  | blocked
  | out_of_fuel
  deriving DecidableEq, Repr

/-! ## Ioreq channel -/

/-- Modelled from the spec: public/hvm/ioreq.h is not among the sources; the
four protocol states are numbered in the order of the cycle
NONE, READY, INPROCESS, RESP_READY. -/
def STATE_IOREQ_NONE : Nat := 0

/-- Modelled from the spec: second state of the cycle (see `STATE_IOREQ_NONE`). -/
def STATE_IOREQ_READY : Nat := 1

/-- Modelled from the spec: third state of the cycle (see `STATE_IOREQ_NONE`). -/
def STATE_IOREQ_INPROCESS : Nat := 2

/-- Modelled from the spec: fourth state of the cycle (see `STATE_IOREQ_NONE`). -/
def STATE_IORESP_READY : Nat := 3

/-- The part of `struct vcpu` and of its slot in the shared ioreq page that
`hvm_do_resume` and `hvm_send_assist_req` touch.  `ioreq_state` is
`get_ioreq(v)->vp_ioreq.state`. -/
structure vcpu where
  fpu_dirtied : Bool
  xen_port : Nat
  ioreq_state : Nat
  trace : List Event
  deriving DecidableEq, Repr

/-- Append one event to the trace of a vCPU. -/
def vcpu.emit (v : vcpu) (e : Event) : vcpu :=
  { v with trace := v.trace ++ [e] }

/-- Modelled from the spec: `domain_crash_synchronous()` is declared outside
the sources; the domain is crashed and control never comes back to the
caller ("fatal to the guest (domain crash)"). -/
def domain_crash_synchronous (v : vcpu) : Exit × vcpu :=
  (Exit.crashed, v.emit Event.domain_crash_synchronous)

/-- The call `prepare_wait_on_xen_event_channel(port)`. -/
def prepare_wait_on_xen_event_channel (port : Nat) (v : vcpu) : vcpu :=
  v.emit (Event.prepare_wait_on_xen_event_channel port)

/-- The call `notify_via_xen_event_channel(port)`. -/
def notify_via_xen_event_channel (port : Nat) (v : vcpu) : vcpu :=
  v.emit (Event.notify_via_xen_event_channel port)

/-- The store `p->state = s` into the shared page. -/
def write_ioreq_state (s : Nat) (v : vcpu) : vcpu :=
  { v with ioreq_state := s, trace := v.trace ++ [Event.write_ioreq_state s] }

/-- Translation of `hvm_send_assist_req` (hvm.c 471-494).  The first argument
is the result of `vcpu_start_shutdown_deferral(v)`.  The diagnostic
`gdprintk` is not recorded. -/
def hvm_send_assist_req (vcpu_start_shutdown_deferral : Bool) (v : vcpu) : Exit × vcpu :=
  if !vcpu_start_shutdown_deferral then
    (Exit.returned, v)
  else if v.ioreq_state ≠ STATE_IOREQ_NONE then
    domain_crash_synchronous v
  else
    let v := prepare_wait_on_xen_event_channel v.xen_port v
    let v := write_ioreq_state STATE_IOREQ_READY v
    let v := notify_via_xen_event_channel v.xen_port v
    (Exit.returned, v)

/-- Modelled from the spec: `hvm_io_assist()` lives in io.c, outside the
sources; it "consumes the response ... and resets to NONE". -/
def hvm_io_assist (v : vcpu) : vcpu :=
  { v with ioreq_state := STATE_IOREQ_NONE, trace := v.trace ++ [Event.hvm_io_assist] }

/-- The device model seen from a parked vCPU: the values it stores into the
state field, oldest first, each store followed by a wake-up.  The state field
changes under the vCPU only while it is parked, so one pass through the loop
of `hvm_do_resume` sees one value. -/
abbrev device_model := List Nat

/-- A parked vCPU: it stays parked, taking the device model's stores one at a
time, until `cond` holds of the state.  The flag is `false` when the device
model stops before that (the vCPU never runs again). -/
def park (cond : Nat → Bool) : device_model → vcpu → Bool × device_model × vcpu
  | [], v => (cond v.ioreq_state, [], v)
  | s :: dm, v =>
    if cond v.ioreq_state then (true, s :: dm, v)
    else park cond dm { v with ioreq_state := s }

/-- Modelled from the spec: the macro `wait_on_xen_event_channel(port, cond)`
comes from xen/event.h, outside the sources; it is "a true parked wait" on
the port that lasts until the condition holds. -/
def wait_on_xen_event_channel (port : Nat) (cond : Nat → Bool)
    (dm : device_model) (v : vcpu) : Bool × device_model × vcpu :=
  park cond dm (v.emit (Event.wait_on_xen_event_channel port))

/-- The condition `(p->state != STATE_IOREQ_READY) && (p->state != STATE_IOREQ_INPROCESS)`
that `hvm_do_resume` passes to `wait_on_xen_event_channel`. -/
def resume_cond (s : Nat) : Bool :=
  decide (s ≠ STATE_IOREQ_READY ∧ s ≠ STATE_IOREQ_INPROCESS)

/-- Result of one pass through the `while` loop of `hvm_do_resume`. -/
inductive Step
  | done (r : Exit × vcpu)
  | again (dm : device_model) (v : vcpu)
  deriving DecidableEq, Repr

/-- One examination of `p->state` by the loop of `hvm_do_resume`
(hvm.c 115-132): the loop test followed by the `switch`. -/
def hvm_do_resume_step (dm : device_model) (v : vcpu) : Step :=
  if v.ioreq_state = STATE_IOREQ_NONE then
    Step.done (Exit.returned, v)
  else if v.ioreq_state = STATE_IORESP_READY then
    Step.again dm (hvm_io_assist v)
  else if v.ioreq_state = STATE_IOREQ_READY ∨ v.ioreq_state = STATE_IOREQ_INPROCESS then
    let r := wait_on_xen_event_channel v.xen_port resume_cond dm v
    if r.1 then Step.again r.2.1 r.2.2 else Step.done (Exit.blocked, r.2.2)
  else
    Step.done (domain_crash_synchronous v)

/-- The `while` loop of `hvm_do_resume`, bounded by `fuel` iterations. -/
def hvm_do_resume_loop : Nat → device_model → vcpu → Exit × vcpu
  | 0, _, v => (Exit.out_of_fuel, v)
  | fuel + 1, dm, v =>
    match hvm_do_resume_step dm v with
    | Step.done r => r
    | Step.again dm' v' => hvm_do_resume_loop fuel dm' v'

/-- Translation of `hvm_do_resume` (hvm.c 104-133). -/
def hvm_do_resume (fuel : Nat) (dm : device_model) (v : vcpu) : Exit × vcpu :=
  let v := if !v.fpu_dirtied then v.emit Event.stts else v
  let v := v.emit Event.pt_thaw_time
  hvm_do_resume_loop fuel dm v

/-! ## Ioreq page lifecycle -/

/-- The null pointer. -/
def NULL : Nat := 0

/-- Modelled from the spec: errno.h is not among the sources; "invalid
argument" has the usual number. -/
def EINVAL : Int := 22

/-- Modelled from the spec: errno.h is not among the sources; "out of
memory" has the usual number. -/
def ENOMEM : Int := 12

/-- Modelled from the spec: errno.h is not among the sources; "permission
denied" has the usual number. -/
def EPERM : Int := 1

/-- Modelled from the spec: errno.h is not among the sources; "no such
domain" has the usual number. -/
def ESRCH : Int := 3

/-- Modelled from the spec: errno.h is not among the sources; "bad address"
has the usual number. -/
def EFAULT : Int := 14

/-- Modelled from the spec: errno.h is not among the sources; "not
implemented" has the usual number. -/
def ENOSYS : Int := 38

/-- Translation of `struct hvm_ioreq_page` without its lock: the global
mapping `va` and the backing `page`, both pointers (`NULL` is 0). -/
structure hvm_ioreq_page where
  va : Nat
  page : Nat
  deriving DecidableEq, Repr

/-- The part of `struct domain` used by the ioreq page functions and by the
parameter operation.  `vcpu_ports` lists `v->arch.hvm_vcpu.xen_port` in
`for_each_vcpu` order. -/
structure domain where
  is_hvm : Bool
  is_dying : Bool
  ioreq : hvm_ioreq_page
  buf_ioreq : hvm_ioreq_page
  params : List Nat
  vcpu_ports : List Nat
  trace : List Event
  deriving DecidableEq, Repr

/-- Append one event to the trace of a domain. -/
def domain.emit (d : domain) (e : Event) : domain :=
  { d with trace := d.trace ++ [e] }

/-- Dereference of an ioreq page pointer. -/
def domain.iorp (d : domain) : iorp_sel → hvm_ioreq_page
  | iorp_sel.ioreq => d.ioreq
  | iorp_sel.buf_ioreq => d.buf_ioreq

/-- Store through an ioreq page pointer. -/
def domain.set_iorp (d : domain) (w : iorp_sel) (p : hvm_ioreq_page) : domain :=
  match w with
  | iorp_sel.ioreq => { d with ioreq := p }
  | iorp_sel.buf_ioreq => { d with buf_ioreq := p }

/-- Memory-management callees of `hvm_set_ioreq_page`, none of them in the
sources: the physical-to-machine lookup, the validity test, the frame-table
lookup, whether `get_page_and_type(page, d, PGT_writable_page)` succeeds, and
the address returned by `map_domain_page_global` (`NULL` on failure). -/
structure host where
  gmfn_to_mfn : Nat → Nat
  mfn_valid : Nat → Bool
  mfn_to_page : Nat → Nat
  get_page_and_type : Nat → Bool
  map_domain_page_global : Nat → Nat

/-- Translation of `hvm_init_ioreq_page` (hvm.c 135-141). -/
def hvm_init_ioreq_page (d : domain) (iorp : iorp_sel) : domain :=
  let d := d.set_iorp iorp { va := 0, page := 0 }
  d.emit Event.domain_pause

/-- Translation of `hvm_destroy_ioreq_page` (hvm.c 143-158).  `ASSERT` is
compiled as in a non-debug build: a failed assertion is recorded and
execution goes on. -/
def hvm_destroy_ioreq_page (d : domain) (iorp : iorp_sel) : domain :=
  let d := d.emit (Event.spin_lock iorp)
  let d := if d.is_dying then d else d.emit Event.assert_failed
  let d :=
    if (d.iorp iorp).va ≠ NULL then
      let d := d.emit (Event.unmap_domain_page_global (d.iorp iorp).va)
      let d := d.emit (Event.put_page_and_type (d.iorp iorp).page)
      d.set_iorp iorp { d.iorp iorp with va := NULL }
    else d
  d.emit (Event.spin_unlock iorp)

/-- Translation of `hvm_set_ioreq_page` (hvm.c 160-200). -/
def hvm_set_ioreq_page (h : host) (d : domain) (iorp : iorp_sel) (gmfn : Nat) : Int × domain :=
  let mfn := h.gmfn_to_mfn gmfn
  if !h.mfn_valid mfn then
    (-EINVAL, d)
  else
    let page := h.mfn_to_page mfn
    let ok := h.get_page_and_type page
    let d := d.emit (Event.get_page_and_type page ok)
    if !ok then
      (-EINVAL, d)
    else
      let va := h.map_domain_page_global mfn
      let d := d.emit (Event.map_domain_page_global mfn va)
      if va = NULL then
        let d := d.emit (Event.put_page_and_type page)
        (-ENOMEM, d)
      else
        let d := d.emit (Event.spin_lock iorp)
        if (d.iorp iorp).va ≠ NULL ∨ d.is_dying then
          let d := d.emit (Event.spin_unlock iorp)
          let d := d.emit (Event.unmap_domain_page_global va)
          let d := d.emit (Event.put_page_and_type (h.mfn_to_page mfn))
          (-EINVAL, d)
        else
          let d := d.set_iorp iorp { va := va, page := page }
          let d := d.emit (Event.spin_unlock iorp)
          let d := d.emit Event.domain_unpause
          (0, d)

/-- Translation of `hvm_domain_initialise` (hvm.c 202-227).  The arguments
are the flag `hvm_enabled` and the results of `paging_enable` and of
`hvm_funcs.domain_initialise`. -/
def hvm_domain_initialise (hvm_enabled : Bool) (paging_enable : Int)
    (domain_initialise : Int) (d : domain) : Int × domain :=
  if !hvm_enabled then
    (-EINVAL, d)
  else if paging_enable ≠ 0 then
    (paging_enable, d)
  else
    let d := d.emit Event.vpic_init
    let d := d.emit Event.vioapic_init
    let d := hvm_init_ioreq_page d iorp_sel.ioreq
    let d := hvm_init_ioreq_page d iorp_sel.buf_ioreq
    (domain_initialise, d)

/-- Number of `domain_pause` calls in a trace. -/
def pauses (t : List Event) : Nat := t.count Event.domain_pause

/-- Number of `domain_unpause` calls in a trace. -/
def unpauses (t : List Event) : Nat := t.count Event.domain_unpause

/-- Number of references successfully taken on `page` in a trace. -/
def refs_taken (t : List Event) (page : Nat) : Nat :=
  t.count (Event.get_page_and_type page true)

/-- Number of references dropped on `page` in a trace. -/
def refs_dropped (t : List Event) (page : Nat) : Nat :=
  t.count (Event.put_page_and_type page)

/-- Recogniser of a successful `map_domain_page_global`. -/
def Event.is_map : Event → Bool
  | Event.map_domain_page_global _ va => va != 0
  | _ => false

/-- Recogniser of an `unmap_domain_page_global`. -/
def Event.is_unmap : Event → Bool
  | Event.unmap_domain_page_global _ => true
  | _ => false

/-- Number of global mappings created in a trace. -/
def maps_made (t : List Event) : Nat := t.countP Event.is_map

/-- Number of global mappings removed in a trace. -/
def maps_undone (t : List Event) : Nat := t.countP Event.is_unmap

/-! ## Interrupt-level operations -/

/-- Translation of `struct xen_hvm_set_pci_intx_level`; the field `domain` is
the PCI segment. -/
structure xen_hvm_set_pci_intx_level where
  domid : Nat
  domain : Nat
  bus : Nat
  device : Nat
  intx : Nat
  level : Nat
  deriving DecidableEq, Repr

/-- Translation of `struct xen_hvm_set_isa_irq_level`. -/
structure xen_hvm_set_isa_irq_level where
  domid : Nat
  isa_irq : Nat
  level : Nat
  deriving DecidableEq, Repr

/-- Translation of `struct xen_hvm_set_pci_link_route`. -/
structure xen_hvm_set_pci_link_route where
  domid : Nat
  link : Nat
  isa_irq : Nat
  deriving DecidableEq, Repr

/-- Surroundings of one interrupt-level operation:
`IS_PRIV(current->domain)`, `rcu_lock_domain_by_id`, and the verdict of the
security hook of the operation. -/
structure irq_op_env where
  is_priv : Bool
  rcu_lock_domain_by_id : Nat → Option domain
  xsm : Int

/-- Translation of `hvmop_set_pci_intx_level` (hvm.c 1048-1093).  The
argument is what `copy_from_guest` reads (`none` when it faults); the result
is the return value and the resolved domain after the call (`none` when no
domain was resolved). -/
def hvmop_set_pci_intx_level (e : irq_op_env) (uop : Option xen_hvm_set_pci_intx_level) :
    Int × Option domain :=
  match uop with
  | none => (-EFAULT, none)
  | some op =>
    if !e.is_priv then (-EPERM, none)
    else if op.domain > 0 ∨ op.bus > 0 ∨ op.device > 31 ∨ op.intx > 3 then (-EINVAL, none)
    else
      match e.rcu_lock_domain_by_id op.domid with
      | none => (-ESRCH, none)
      | some d =>
        if !d.is_hvm then (-EINVAL, some (d.emit Event.rcu_unlock_domain))
        else if e.xsm ≠ 0 then (e.xsm, some (d.emit Event.rcu_unlock_domain))
        else
          let r : Int × domain :=
            if op.level = 0 then (0, d.emit (Event.hvm_pci_intx_deassert op.device op.intx))
            else if op.level = 1 then (0, d.emit (Event.hvm_pci_intx_assert op.device op.intx))
            else (-EINVAL, d)
          (r.1, some (r.2.emit Event.rcu_unlock_domain))

/-- Translation of `hvmop_set_isa_irq_level` (hvm.c 1095-1140). -/
def hvmop_set_isa_irq_level (e : irq_op_env) (uop : Option xen_hvm_set_isa_irq_level) :
    Int × Option domain :=
  match uop with
  | none => (-EFAULT, none)
  | some op =>
    if !e.is_priv then (-EPERM, none)
    else if op.isa_irq > 15 then (-EINVAL, none)
    else
      match e.rcu_lock_domain_by_id op.domid with
      | none => (-ESRCH, none)
      | some d =>
        if !d.is_hvm then (-EINVAL, some (d.emit Event.rcu_unlock_domain))
        else if e.xsm ≠ 0 then (e.xsm, some (d.emit Event.rcu_unlock_domain))
        else
          let r : Int × domain :=
            if op.level = 0 then (0, d.emit (Event.hvm_isa_irq_deassert op.isa_irq))
            else if op.level = 1 then (0, d.emit (Event.hvm_isa_irq_assert op.isa_irq))
            else (-EINVAL, d)
          (r.1, some (r.2.emit Event.rcu_unlock_domain))

/-- Translation of `hvmop_set_pci_link_route` (hvm.c 1142-1176). -/
def hvmop_set_pci_link_route (e : irq_op_env) (uop : Option xen_hvm_set_pci_link_route) :
    Int × Option domain :=
  match uop with
  | none => (-EFAULT, none)
  | some op =>
    if !e.is_priv then (-EPERM, none)
    else if op.link > 3 ∨ op.isa_irq > 15 then (-EINVAL, none)
    else
      match e.rcu_lock_domain_by_id op.domid with
      | none => (-ESRCH, none)
      | some d =>
        if !d.is_hvm then (-EINVAL, some (d.emit Event.rcu_unlock_domain))
        else if e.xsm ≠ 0 then (e.xsm, some (d.emit Event.rcu_unlock_domain))
        else
          let d := d.emit (Event.hvm_set_pci_link_route op.link op.isa_irq)
          (0, some (d.emit Event.rcu_unlock_domain))

/-! ## Parameter get/set operation -/

/-- Modelled from the spec: public/hvm/hvm_op.h is not among the sources;
number of the "parameter set" operation. -/
def HVMOP_set_param : Nat := 0

/-- Modelled from the spec: public/hvm/hvm_op.h is not among the sources;
number of the "parameter get" operation. -/
def HVMOP_get_param : Nat := 1

/-- Modelled from the spec: public/hvm/hvm_op.h is not among the sources;
number of the "set the level of a PCI INTx line" operation. -/
def HVMOP_set_pci_intx_level : Nat := 2

/-- Modelled from the spec: public/hvm/hvm_op.h is not among the sources;
number of the "set the level of an ISA IRQ line" operation. -/
def HVMOP_set_isa_irq_level : Nat := 3

/-- Modelled from the spec: public/hvm/hvm_op.h is not among the sources;
number of the "route a PCI link to an ISA IRQ" operation. -/
def HVMOP_set_pci_link_route : Nat := 4

/-- Modelled from the spec: public/hvm/hvm_op.h is not among the sources;
number of the "flush the TLBs" operation. -/
def HVMOP_flush_tlbs : Nat := 5

/-- Modelled from the spec: public/hvm/params.h is not among the sources;
index of the callback-delivery IRQ configuration. -/
def HVM_PARAM_CALLBACK_IRQ : Nat := 0

/-- Modelled from the spec: public/hvm/params.h is not among the sources;
index of the synchronous ioreq page frame. -/
def HVM_PARAM_IOREQ_PFN : Nat := 5

/-- Modelled from the spec: public/hvm/params.h is not among the sources;
index of the buffered ioreq page frame. -/
def HVM_PARAM_BUFIOREQ_PFN : Nat := 6

/-- Modelled from the spec: public/xen.h is not among the sources; the
domain identifier that stands for the calling domain. -/
def DOMID_SELF : Nat := 0x7FF0

/-- Translation of `struct xen_hvm_param`. -/
structure xen_hvm_param where
  domid : Nat
  index : Nat
  value : Nat
  deriving DecidableEq, Repr

/-- Surroundings of one `do_hvm_op` call: the length `HVM_NR_PARAMS` of the
parameter table (public/hvm/params.h is not among the sources), what
`copy_from_guest` reads through the handle `arg` as a `struct xen_hvm_param`
(`none` when it faults), `IS_PRIV(current->domain)`, the current domain,
`rcu_lock_domain_by_id`, the verdict of `xsm_hvm_param`, whether
`copy_to_guest` faults, and the memory-management callees; then
`guest_handle_is_null(arg)`, what `copy_from_guest` reads through `arg` cast
to the argument type of each interrupt-level operation, and the verdicts of
their security hooks. -/
structure hvm_op_env where
  HVM_NR_PARAMS : Nat
  arg : Option xen_hvm_param
  is_priv : Bool
  current_domain : domain
  rcu_lock_domain_by_id : Nat → Option domain
  xsm_hvm_param : Int
  copy_to_guest_fails : Bool
  mm : host
  arg_is_null : Bool
  arg_pci_intx_level : Option xen_hvm_set_pci_intx_level
  arg_isa_irq_level : Option xen_hvm_set_isa_irq_level
  arg_pci_link_route : Option xen_hvm_set_pci_link_route
  xsm_hvm_set_pci_intx_level : Int
  xsm_hvm_set_isa_irq_level : Int
  xsm_hvm_set_pci_link_route : Int

/-- The stores `get_ioreq(v)->vp_eport = v->arch.hvm_vcpu.xen_port` made by
`for_each_vcpu`, the first vCPU having identifier `i`. -/
def vp_eport_writes : Nat → List Nat → List Event
  | _, [] => []
  | i, port :: ports => Event.write_vp_eport i port :: vp_eport_writes (i + 1) ports

/-- The loop over the vCPUs in the `HVM_PARAM_IOREQ_PFN` case. -/
def write_vp_eports (d : domain) : domain :=
  { d with trace := d.trace ++ vp_eport_writes 0 d.vcpu_ports }

/-- The `switch ( a.index )` of the set branch of `do_hvm_op`
(hvm.c 1225-1245): the updated domain and the value left in `rc`. -/
def do_hvm_op_set_switch (e : hvm_op_env) (d : domain) (a : xen_hvm_param) (rc : Int) :
    Int × domain :=
  if a.index = HVM_PARAM_IOREQ_PFN then
    let r := hvm_set_ioreq_page e.mm d iorp_sel.ioreq a.value
    let d := r.2.emit (Event.spin_lock iorp_sel.ioreq)
    let d := if r.1 = 0 ∧ d.ioreq.va ≠ NULL then write_vp_eports d else d
    (r.1, d.emit (Event.spin_unlock iorp_sel.ioreq))
  else if a.index = HVM_PARAM_BUFIOREQ_PFN then
    hvm_set_ioreq_page e.mm d iorp_sel.buf_ioreq a.value
  else if a.index = HVM_PARAM_CALLBACK_IRQ then
    let d := d.emit (Event.hvm_set_callback_via a.value)
    (rc, d.emit Event.hvm_latch_shinfo_size)
  else
    (rc, d)

/-- Translation of `hvmop_flush_tlb_all` (hvm.c 1178-1182): the flush is
recorded on the current domain, whose `domain_dirty_cpumask` it reads. -/
def hvmop_flush_tlb_all (current_domain : domain) : Int × Option domain :=
  (0, some (current_domain.emit Event.flush_tlb_mask))

/-- Translation of `do_hvm_op` (hvm.c 1184-1292), a `switch ( op )`.  The
result is the return value and the domain the call acted on, after the call
(`none` when no domain was resolved). -/
def do_hvm_op (e : hvm_op_env) (op : Nat) : Int × Option domain :=
  if op = HVMOP_set_param ∨ op = HVMOP_get_param then
    match e.arg with
    | none => (-EFAULT, none)
    | some a =>
      if a.index ≥ e.HVM_NR_PARAMS then (-EINVAL, none)
      else
        let target : Except Int (Option domain) :=
          if a.domid = DOMID_SELF then Except.ok (some e.current_domain)
          else if e.is_priv then Except.ok (e.rcu_lock_domain_by_id a.domid)
          else Except.error (-EPERM)
        match target with
        | Except.error rc => (rc, none)
        | Except.ok none => (-ESRCH, none)
        | Except.ok (some d) =>
          if !d.is_hvm then
            (-EINVAL, some (d.emit Event.rcu_unlock_domain))
          else if e.xsm_hvm_param ≠ 0 then
            (e.xsm_hvm_param, some (d.emit Event.rcu_unlock_domain))
          else if op = HVMOP_set_param then
            let r := do_hvm_op_set_switch e d a e.xsm_hvm_param
            let d := r.2
            let d := { d with params := d.params.set a.index a.value }
            let rc : Int := 0
            (rc, some (d.emit Event.rcu_unlock_domain))
          else
            let value := d.params.getD a.index 0
            let d := d.emit (Event.copy_to_guest value)
            let rc : Int := if e.copy_to_guest_fails then -EFAULT else 0
            (rc, some (d.emit Event.rcu_unlock_domain))
  else if op = HVMOP_set_pci_intx_level then
    hvmop_set_pci_intx_level
      ⟨e.is_priv, e.rcu_lock_domain_by_id, e.xsm_hvm_set_pci_intx_level⟩ e.arg_pci_intx_level
  else if op = HVMOP_set_isa_irq_level then
    hvmop_set_isa_irq_level
      ⟨e.is_priv, e.rcu_lock_domain_by_id, e.xsm_hvm_set_isa_irq_level⟩ e.arg_isa_irq_level
  else if op = HVMOP_set_pci_link_route then
    hvmop_set_pci_link_route
      ⟨e.is_priv, e.rcu_lock_domain_by_id, e.xsm_hvm_set_pci_link_route⟩ e.arg_pci_link_route
  else if op = HVMOP_flush_tlbs then
    if e.arg_is_null then hvmop_flush_tlb_all e.current_domain else (-ENOSYS, none)
  else
    (-ENOSYS, none)

/-! ## Hypercall dispatcher -/

/-- The two builds selected by `__i386__` / `__x86_64__`. -/
inductive Arch
  | i386
  | x86_64
  deriving DecidableEq, Repr

/-- Width in bits of `unsigned long` and of the saved registers. -/
def Arch.bits : Arch → Nat
  | Arch.i386 => 32
  | Arch.x86_64 => 64

/-- The functions the hypercall tables of hvm.c point to. -/
inductive handler
  | do_memory_op
  | do_memory_op_compat32
  | hvm_grant_table_op
  | do_xen_version
  | do_grant_table_op
  | do_event_channel_op
  | do_sched_op
  | do_hvm_op
  deriving DecidableEq, Repr

/-- Constants of public/xen.h, which is not among the sources: the table
length and the call numbers used as designators. -/
structure xen_h where
  NR_hypercalls : Nat
  __HYPERVISOR_memory_op : Nat
  __HYPERVISOR_grant_table_op : Nat
  __HYPERVISOR_xen_version : Nat
  __HYPERVISOR_event_channel_op : Nat
  __HYPERVISOR_sched_op : Nat
  __HYPERVISOR_hvm_op : Nat
  deriving DecidableEq, Repr

/-- An array given by designated initialisers `[ nr ] = f`, in source order:
an element named more than once takes the last initialiser, an element not
named is null. -/
def designated (inits : List (Nat × handler)) (nr : Nat) : Option handler :=
  (inits.reverse.find? (fun p => p.1 = nr)).map Prod.snd

/-- Translation of `hvm_hypercall32_table` (hvm.c 827-835 for i386 and
890-898 for x86_64). -/
def hvm_hypercall32_table (arch : Arch) (k : xen_h) : Nat → Option handler :=
  designated [
    (k.__HYPERVISOR_memory_op,
      match arch with
      | Arch.i386 => handler.do_memory_op
      | Arch.x86_64 => handler.do_memory_op_compat32),
    (k.__HYPERVISOR_grant_table_op, handler.hvm_grant_table_op),
    (k.__HYPERVISOR_xen_version, handler.do_xen_version),
    (k.__HYPERVISOR_grant_table_op, handler.do_grant_table_op),
    (k.__HYPERVISOR_event_channel_op, handler.do_event_channel_op),
    (k.__HYPERVISOR_sched_op, handler.do_sched_op),
    (k.__HYPERVISOR_hvm_op, handler.do_hvm_op)]

/-- Translation of `hvm_hypercall64_table` (hvm.c 880-888). -/
def hvm_hypercall64_table (k : xen_h) : Nat → Option handler :=
  designated [
    (k.__HYPERVISOR_memory_op, handler.do_memory_op),
    (k.__HYPERVISOR_grant_table_op, handler.hvm_grant_table_op),
    (k.__HYPERVISOR_xen_version, handler.do_xen_version),
    (k.__HYPERVISOR_grant_table_op, handler.do_grant_table_op),
    (k.__HYPERVISOR_event_channel_op, handler.do_event_channel_op),
    (k.__HYPERVISOR_sched_op, handler.do_sched_op),
    (k.__HYPERVISOR_hvm_op, handler.do_hvm_op)]

/-- Modelled from the spec: the header defining it is not among the sources;
disposition "completed". -/
def HVM_HCALL_completed : Nat := 0

/-- Modelled from the spec: the header defining it is not among the sources;
disposition "preempted". -/
def HVM_HCALL_preempted : Nat := 1

/-- Modelled from the spec: the header defining it is not among the sources;
disposition "completed-with-invalidate". -/
def HVM_HCALL_invalidate : Nat := 2

/-- The fields of `struct cpu_user_regs` read or written by
`hvm_do_hypercall`.  On x86_64 the names `rax`, `rdi`, ... denote the same
fields as `eax`, `edi`, .... -/
structure cpu_user_regs where
  eax : Nat
  ebx : Nat
  ecx : Nat
  edx : Nat
  esi : Nat
  edi : Nat
  r8 : Nat
  r10 : Nat
  cs : Nat
  deriving DecidableEq, Repr

/-- Conversion of a C integer to an unsigned register of the given width. -/
def to_reg (bits : Nat) (x : Int) : Nat := (x % (2 : Int) ^ bits).toNat

/-- Surroundings of one `hvm_do_hypercall` call: the build, the constants of
public/xen.h, the result of `hvm_guest_x86_mode(current)`, the register
update made by `hvm_store_cpu_guest_regs`, the macro `ring_3`, and what a
handler does with its arguments: its return value and whether it sets
`this_cpu(hc_preempted)`. -/
structure hcall_env where
  arch : Arch
  k : xen_h
  hvm_guest_x86_mode : Int
  hvm_store_cpu_guest_regs : cpu_user_regs → cpu_user_regs
  ring_3 : cpu_user_regs → Bool
  run : handler → List Nat → Nat × Bool

/-- The state `hvm_do_hypercall` works on: the saved registers, the per-CPU
flag `hc_preempted`, and the trace. -/
structure pcpu where
  regs : cpu_user_regs
  hc_preempted : Bool
  trace : List Event
  deriving DecidableEq, Repr

/-- Append one event to the trace. -/
def pcpu.emit (s : pcpu) (ev : Event) : pcpu :=
  { s with trace := s.trace ++ [ev] }

/-- The statements `regs->eax = -errno; return HVM_HCALL_completed;`. -/
def hcall_fail (e : hcall_env) (errno : Int) (s : pcpu) : Option (Nat × pcpu) :=
  some (HVM_HCALL_completed,
    { s with regs := { s.regs with eax := to_reg e.arch.bits (-errno) } })

/-- The call through a table entry and the store of its result
(hvm.c 946-950 and 960-964); `none` is a call through a null entry. -/
def hcall_invoke (e : hcall_env) (t : hcall_table) (entry : Option handler)
    (eax : Nat) (args : List Nat) (s : pcpu) : Option pcpu :=
  let s := s.emit (Event.read_table t eax)
  match entry with
  | none => none
  | some f =>
    let s := s.emit (Event.call_handler t eax args)
    let r := e.run f args
    some { s with
      hc_preempted := s.hc_preempted || r.2,
      regs := { s.regs with eax := r.1 % 2 ^ e.arch.bits } }

/-- Second half of `hvm_do_hypercall` (hvm.c 925-972), `eax` being the local
variable latched on entry. -/
def hvm_do_hypercall_body (e : hcall_env) (eax : Nat) (s : pcpu) : Option (Nat × pcpu) :=
  if eax ≥ e.k.NR_hypercalls then
    hcall_fail e ENOSYS s
  else
    let s := s.emit (Event.read_table hcall_table.hvm_hypercall32_table eax)
    if (hvm_hypercall32_table e.arch e.k eax).isNone then
      hcall_fail e ENOSYS s
    else
      let flush : Bool :=
        eax = e.k.__HYPERVISOR_memory_op || eax = e.k.__HYPERVISOR_grant_table_op
      let s := { s with hc_preempted := false }
      let r :=
        if e.arch = Arch.x86_64 ∧ e.hvm_guest_x86_mode = 8 then
          hcall_invoke e hcall_table.hvm_hypercall64_table (hvm_hypercall64_table e.k eax) eax
            [s.regs.edi, s.regs.esi, s.regs.edx, s.regs.r10, s.regs.r8] s
        else
          hcall_invoke e hcall_table.hvm_hypercall32_table
            (hvm_hypercall32_table e.arch e.k eax) eax
            [s.regs.ebx % 2 ^ 32, s.regs.ecx % 2 ^ 32, s.regs.edx % 2 ^ 32,
             s.regs.esi % 2 ^ 32, s.regs.edi % 2 ^ 32] s
      match r with
      | none => none
      | some s =>
        some (if s.hc_preempted then HVM_HCALL_preempted
              else if flush then HVM_HCALL_invalidate else HVM_HCALL_completed, s)

/-- Translation of `hvm_do_hypercall` (hvm.c 902-972).  The `case 8` label
exists on x86_64 only; the `default` label sits inside the `ring_3` branch. -/
def hvm_do_hypercall (e : hcall_env) (s : pcpu) : Option (Nat × pcpu) :=
  let mode := e.hvm_guest_x86_mode
  let eax := s.regs.eax % 2 ^ 32
  if (mode = 8 ∧ e.arch = Arch.x86_64) ∨ mode = 4 ∨ mode = 2 then
    let s := { s with regs := e.hvm_store_cpu_guest_regs s.regs }
    let s := s.emit Event.hvm_store_cpu_guest_regs
    if e.ring_3 s.regs then
      hcall_fail e EPERM s
    else
      hvm_do_hypercall_body e eax s
  else if mode = 0 then
    hvm_do_hypercall_body e eax s
  else
    hcall_fail e EPERM s

/-- Modelled from the spec: public/grant_table.h is not among the sources;
command number of the size query (value of the public interface). -/
def GNTTABOP_query_size : Nat := 6

/-- Translation of `hvm_grant_table_op` (hvm.c 811-817); the first argument
is the callee `do_grant_table_op`. -/
def hvm_grant_table_op (do_grant_table_op : Nat → Nat → Nat → Int)
    (cmd uop count : Nat) : Int :=
  if cmd ≠ GNTTABOP_query_size then -ENOSYS
  else do_grant_table_op cmd uop count

/-! ## Control registers -/

/-- Modelled from the spec: asm/processor.h is not among the sources;
protected-mode enable bit of CR0 (architectural value). -/
def X86_CR0_PE : Nat := 0x00000001

/-- Modelled from the spec: asm/processor.h is not among the sources;
"extension type" bit of CR0 (architectural value). -/
def X86_CR0_ET : Nat := 0x00000010

/-- Modelled from the spec: asm/processor.h is not among the sources;
paging enable bit of CR0 (architectural value). -/
def X86_CR0_PG : Nat := 0x80000000

/-- Modelled from the spec: asm/processor.h is not among the sources;
page-size-extension bit of CR4 (architectural value). -/
def X86_CR4_PSE : Nat := 0x0010

/-- Modelled from the spec: asm/processor.h is not among the sources;
physical-address-extension bit of CR4 (architectural value). -/
def X86_CR4_PAE : Nat := 0x0020

/-- Modelled from the spec: asm/processor.h is not among the sources;
global-page bit of CR4 (architectural value). -/
def X86_CR4_PGE : Nat := 0x0080

/-- Modelled from the spec: asm/msr.h is not among the sources; long-mode
enable ("requested") bit of EFER (architectural value). -/
def EFER_LME : Nat := 0x100

/-- Modelled from the spec: asm/msr.h is not among the sources; long-mode
active bit of EFER (architectural value). -/
def EFER_LMA : Nat := 0x400

/-- Modelled from the spec: asm/page.h is not among the sources; a frame
number is an address shifted right by the page shift. -/
def PAGE_SHIFT : Nat := 12

/-- Modelled from the spec: asm/processor.h is not among the sources; vector
of the general-protection fault (architectural value). -/
def TRAP_gp_fault : Nat := 13

/-- The C expression `a & ~b` on an unsigned integer wide enough for `a`. -/
def and_not (a b : Nat) : Nat := a ^^^ (a &&& b)

/-- The part of `struct vcpu` used by the control-register functions:
`arch.hvm_vcpu.guest_cr[0]`, `[3]`, `[4]`, `arch.hvm_vcpu.guest_efer`, and
the frame held by `arch.guest_table` (0 for `pagetable_null()`). -/
structure hvm_vcpu where
  guest_cr0 : Nat
  guest_cr3 : Nat
  guest_cr4 : Nat
  guest_efer : Nat
  guest_table : Nat
  trace : List Event
  deriving DecidableEq, Repr

/-- Append one event to the trace. -/
def hvm_vcpu.emit (v : hvm_vcpu) (ev : Event) : hvm_vcpu :=
  { v with trace := v.trace ++ [ev] }

/-- Surroundings of a control-register write: the two reserved-bit masks of
asm/hvm/hvm.h (not among the sources), `paging_mode_hap(v->domain)`, and the
memory-management callees `get_mfn_from_gpfn`, `mfn_valid` and whether
`get_page(mfn_to_page(mfn), v->domain)` succeeds. -/
structure cr_env where
  HVM_CR0_GUEST_RESERVED_BITS : Nat
  HVM_CR4_GUEST_RESERVED_BITS : Nat
  paging_mode_hap : Bool
  get_mfn_from_gpfn : Nat → Nat
  mfn_valid : Nat → Bool
  get_page : Nat → Bool

/-- Modelled from the spec: the macro `hvm_long_mode_enabled(v)` is defined
outside the sources; "long mode is active" is the long-mode-active bit of the
guest EFER. -/
def hvm_long_mode_enabled (v : hvm_vcpu) : Bool :=
  v.guest_efer &&& EFER_LMA != 0

/-- Modelled from the spec: the macro `hvm_paging_enabled(v)` is defined
outside the sources; "guest paging" is the paging bit of the mirrored CR0. -/
def hvm_paging_enabled (v : hvm_vcpu) : Bool :=
  v.guest_cr0 &&& X86_CR0_PG != 0

/-- The statements `hvm_inject_exception(TRAP_gp_fault, 0, 0); return 0;`. -/
def inject_gp (v : hvm_vcpu) : Int × hvm_vcpu :=
  (0, v.emit (Event.hvm_inject_exception TRAP_gp_fault 0 0))

/-- The statements `domain_crash(v->domain); return 0;`. -/
def crash_domain (v : hvm_vcpu) : Int × hvm_vcpu :=
  (0, v.emit Event.domain_crash)

/-- The two transition branches of `hvm_set_cr0` (hvm.c 544-593), `value`
being the masked value; `Except.error` is an early `return`. -/
def hvm_set_cr0_transition (e : cr_env) (value old_value : Nat) (v : hvm_vcpu) :
    Except (Int × hvm_vcpu) hvm_vcpu :=
  if value &&& X86_CR0_PG ≠ 0 ∧ old_value &&& X86_CR0_PG = 0 then
    let long_mode : Except (Int × hvm_vcpu) hvm_vcpu :=
      if v.guest_efer &&& EFER_LME ≠ 0 then
        if v.guest_cr4 &&& X86_CR4_PAE = 0 then
          Except.error (inject_gp v)
        else
          let v := { v with guest_efer := v.guest_efer ||| EFER_LMA }
          Except.ok (v.emit Event.hvm_update_guest_efer)
      else Except.ok v
    match long_mode with
    | Except.error r => Except.error r
    | Except.ok v =>
      if !e.paging_mode_hap then
        let mfn := e.get_mfn_from_gpfn (v.guest_cr3 >>> PAGE_SHIFT)
        if !e.mfn_valid mfn then
          Except.error (crash_domain v)
        else
          let ok := e.get_page mfn
          let v := v.emit (Event.get_page mfn ok)
          if !ok then
            Except.error (crash_domain v)
          else
            Except.ok { v with guest_table := mfn }
      else Except.ok v
  else if value &&& X86_CR0_PG = 0 ∧ old_value &&& X86_CR0_PG ≠ 0 then
    let v :=
      if hvm_long_mode_enabled v then
        let v := { v with guest_efer := and_not v.guest_efer EFER_LMA }
        v.emit Event.hvm_update_guest_efer
      else v
    let v :=
      if !e.paging_mode_hap then
        let v := v.emit (Event.put_page (e.get_mfn_from_gpfn (v.guest_cr3 >>> PAGE_SHIFT)))
        { v with guest_table := 0 }
      else v
    Except.ok v
  else Except.ok v

/-- The value `hvm_set_cr0` works with after masking the reserved bits and
forcing the extension-type bit (hvm.c 533-536). -/
def cr0_masked (e : cr_env) (value : Nat) : Nat :=
  and_not value e.HVM_CR0_GUEST_RESERVED_BITS ||| X86_CR0_ET

/-- Translation of `hvm_set_cr0` (hvm.c 517-602). -/
def hvm_set_cr0 (e : cr_env) (value : Nat) (v : hvm_vcpu) : Int × hvm_vcpu :=
  let old_value := v.guest_cr0
  if value % 2 ^ 32 ≠ value then
    inject_gp v
  else
    let value := cr0_masked e value
    if value &&& (X86_CR0_PE ||| X86_CR0_PG) = X86_CR0_PG then
      inject_gp v
    else
      match hvm_set_cr0_transition e value old_value v with
      | Except.error r => r
      | Except.ok v =>
        let v := { v with guest_cr0 := value }
        let v := v.emit (Event.hvm_update_guest_cr 0)
        let v :=
          if (value ^^^ old_value) &&& X86_CR0_PG ≠ 0 then
            v.emit Event.paging_update_paging_modes
          else v
        (1, v)

/-- The tail of `hvm_set_cr3` (hvm.c 637-639): record the value, call
`paging_update_cr3`, return 1. -/
def hvm_set_cr3_done (value : Nat) (v : hvm_vcpu) : Int × hvm_vcpu :=
  let v := { v with guest_cr3 := value }
  (1, v.emit Event.paging_update_cr3)

/-- Translation of `hvm_set_cr3` (hvm.c 604-645); `crash_domain` is the
label `bad_cr3`. -/
def hvm_set_cr3 (e : cr_env) (value : Nat) (v : hvm_vcpu) : Int × hvm_vcpu :=
  if e.paging_mode_hap ∨ !hvm_paging_enabled v then
    hvm_set_cr3_done value v
  else if value = v.guest_cr3 then
    let mfn := e.get_mfn_from_gpfn (value >>> PAGE_SHIFT)
    if mfn ≠ v.guest_table then crash_domain v
    else hvm_set_cr3_done value v
  else
    let mfn := e.get_mfn_from_gpfn (value >>> PAGE_SHIFT)
    if !e.mfn_valid mfn then
      crash_domain v
    else
      let ok := e.get_page mfn
      let v := v.emit (Event.get_page mfn ok)
      if !ok then
        crash_domain v
      else
        let old_base_mfn := v.guest_table
        let v := { v with guest_table := mfn }
        let v := if old_base_mfn ≠ 0 then v.emit (Event.put_page old_base_mfn) else v
        hvm_set_cr3_done value v

/-- Translation of `hvm_set_cr4` (hvm.c 647-680); `inject_gp` is the label
`gpf`. -/
def hvm_set_cr4 (e : cr_env) (value : Nat) (v : hvm_vcpu) : Int × hvm_vcpu :=
  if value &&& e.HVM_CR4_GUEST_RESERVED_BITS ≠ 0 then
    inject_gp v
  else if value &&& X86_CR4_PAE = 0 ∧ hvm_long_mode_enabled v then
    inject_gp v
  else
    let old_cr := v.guest_cr4
    let v := { v with guest_cr4 := value }
    let v := v.emit (Event.hvm_update_guest_cr 4)
    let v :=
      if (old_cr ^^^ value) &&& (X86_CR4_PSE ||| X86_CR4_PGE ||| X86_CR4_PAE) ≠ 0 then
        v.emit Event.paging_update_paging_modes
      else v
    (1, v)

/-- Recogniser of an injected exception. -/
def Event.is_fault : Event → Bool
  | Event.hvm_inject_exception _ _ _ => true
  | _ => false

/-- Number of exceptions injected in a trace. -/
def faults (t : List Event) : Nat := t.countP Event.is_fault

/-- Number of `domain_crash` calls in a trace. -/
def crashes (t : List Event) : Nat := t.count Event.domain_crash

/-- Recogniser of a successful `get_page` or of a `put_page`. -/
def Event.is_ref_change : Event → Bool
  | Event.get_page _ ok => ok
  | Event.put_page _ => true
  | _ => false

/-! ## VMX interrupt assist (vmx/intr.c) -/

/-- Modelled from the spec: asm/hvm/vmx/vmcs.h is not among the sources;
"virtual-interrupt-pending" bit of the execution control (architectural
value). -/
def CPU_BASED_VIRTUAL_INTR_PENDING : Nat := 0x00000004

/-- Modelled from the spec: asm/hvm/vmx/vmcs.h is not among the sources;
"virtual-NMI-pending" bit of the execution control (architectural value). -/
def CPU_BASED_VIRTUAL_NMI_PENDING : Nat := 0x00400000

/-- Modelled from the spec: asm/hvm/vmx/vmcs.h is not among the sources;
blocking-by-STI flag of the interruptibility word (architectural value). -/
def VMX_INTR_SHADOW_STI : Nat := 0x00000001

/-- Modelled from the spec: asm/hvm/vmx/vmcs.h is not among the sources;
blocking-by-MOV-SS flag of the interruptibility word (architectural value). -/
def VMX_INTR_SHADOW_MOV_SS : Nat := 0x00000002

/-- Modelled from the spec: asm/hvm/vmx/vmcs.h is not among the sources;
valid bit of the VM-entry interruption information (architectural value). -/
def INTR_INFO_VALID_MASK : Nat := 0x80000000

/-- The part of `struct vcpu` and of its VMCS used by intr.c:
`arch.hvm_vmx.exec_control`, the four VMCS fields, and the set bits of the
domain's `dirq_mask` in ascending order. -/
structure vmx_vcpu where
  vcpu_id : Nat
  exec_control : Nat
  GUEST_INTERRUPTIBILITY_INFO : Nat
  VM_ENTRY_INTR_INFO : Nat
  CPU_BASED_VM_EXEC_CONTROL : Nat
  TPR_THRESHOLD : Nat
  dirq_mask : List Nat
  trace : List Event
  deriving DecidableEq, Repr

/-- Append one event to the trace. -/
def vmx_vcpu.emit (v : vmx_vcpu) (ev : Event) : vmx_vcpu :=
  { v with trace := v.trace ++ [ev] }

/-- The call `__vmread(field)`: the value read and the vCPU with the read
recorded. -/
def __vmread (field : vmcs_field) (v : vmx_vcpu) : Nat × vmx_vcpu :=
  (match field with
    | vmcs_field.GUEST_INTERRUPTIBILITY_INFO => v.GUEST_INTERRUPTIBILITY_INFO
    | vmcs_field.VM_ENTRY_INTR_INFO => v.VM_ENTRY_INTR_INFO
    | vmcs_field.CPU_BASED_VM_EXEC_CONTROL => v.CPU_BASED_VM_EXEC_CONTROL
    | vmcs_field.TPR_THRESHOLD => v.TPR_THRESHOLD,
   v.emit (Event.vmread field))

/-- The call `__vmwrite(field, value)`. -/
def __vmwrite (field : vmcs_field) (value : Nat) (v : vmx_vcpu) : vmx_vcpu :=
  let v := v.emit (Event.vmwrite field value)
  match field with
  | vmcs_field.GUEST_INTERRUPTIBILITY_INFO => { v with GUEST_INTERRUPTIBILITY_INFO := value }
  | vmcs_field.VM_ENTRY_INTR_INFO => { v with VM_ENTRY_INTR_INFO := value }
  | vmcs_field.CPU_BASED_VM_EXEC_CONTROL => { v with CPU_BASED_VM_EXEC_CONTROL := value }
  | vmcs_field.TPR_THRESHOLD => { v with TPR_THRESHOLD := value }

/-- Surroundings of one `vmx_intr_assist` call: the CPU features, the flag
`vtd_enabled`, the table `hvm_irq->mirq` (device and intx of a machine irq),
`hvm_interrupts_enabled(v, source)`, and the state of the virtual LAPIC:
`vlapic_enabled`, `vlapic_find_highest_irr` (-1 when nothing is pending) and
the task-priority register. -/
structure vmx_env where
  cpu_has_vmx_vnmi : Bool
  cpu_has_vmx_tpr_shadow : Bool
  vtd_enabled : Bool
  mirq : Nat → Nat × Nat
  hvm_interrupts_enabled : hvm_intack → Bool
  vlapic_enabled : Bool
  vlapic_find_highest_irr : Int
  vlapic_taskpri : Nat

/-- What one pass through the `do ... while` loop of `vmx_intr_assist`
observes: the result of `hvm_vcpu_has_pending_irq`, and the result of
`hvm_vcpu_ack_pending_irq` should the pass reach it (`some vector` on
success, `none` when it returns 0).  After the last observation no source is
pending. -/
abbrev intr_obs := hvm_intack × Option Nat

/-- Translation of `enable_intr_window` (intr.c 74-108).  `ASSERT` is
compiled as in a non-debug build. -/
def enable_intr_window (e : vmx_env) (intr_source : hvm_intack) (v : vmx_vcpu) : vmx_vcpu :=
  let ctl := CPU_BASED_VIRTUAL_INTR_PENDING
  let v := if intr_source ≠ hvm_intack.hvm_intack_none then v else v.emit Event.assert_failed
  let r : Nat × vmx_vcpu :=
    if intr_source = hvm_intack.hvm_intack_nmi ∧ e.cpu_has_vmx_vnmi then
      let rd := __vmread vmcs_field.GUEST_INTERRUPTIBILITY_INFO v
      let intr_shadow := rd.1
      let v := rd.2
      let v :=
        if intr_shadow &&& VMX_INTR_SHADOW_STI ≠ 0 then
          let intr_shadow := and_not intr_shadow VMX_INTR_SHADOW_STI
          let intr_shadow := intr_shadow ||| VMX_INTR_SHADOW_MOV_SS
          __vmwrite vmcs_field.GUEST_INTERRUPTIBILITY_INFO intr_shadow v
        else v
      (CPU_BASED_VIRTUAL_NMI_PENDING, v)
    else (ctl, v)
  let ctl := r.1
  let v := r.2
  if v.exec_control &&& ctl = 0 then
    let v := { v with exec_control := v.exec_control ||| ctl }
    __vmwrite vmcs_field.CPU_BASED_VM_EXEC_CONTROL v.exec_control v
  else v

/-- Translation of `update_tpr_threshold` (intr.c 110-139). -/
def update_tpr_threshold (e : vmx_env) (masked_intr_source : hvm_intack) (v : vmx_vcpu) :
    vmx_vcpu :=
  if !e.cpu_has_vmx_tpr_shadow then v
  else
    let threshold : Nat :=
      if masked_intr_source = hvm_intack.hvm_intack_lapic ∨
          masked_intr_source = hvm_intack.hvm_intack_pic then 0
      else if !e.vlapic_enabled ∨ e.vlapic_find_highest_irr = -1 then 0
      else
        let max_irr := e.vlapic_find_highest_irr
        let tpr := e.vlapic_taskpri &&& 0xF0
        if (tpr >>> 4 : Int) ≥ max_irr >>> 4 then (max_irr >>> 4).toNat else 0
    __vmwrite vmcs_field.TPR_THRESHOLD threshold v

/-- Translation of `vmx_dirq_assist` (intr.c 141-156): every pending machine
irq is cleared from the mask and asserted on its (device, intx). -/
def vmx_dirq_assist (e : vmx_env) (v : vmx_vcpu) : vmx_vcpu :=
  { v with
    dirq_mask := [],
    trace := v.trace ++
      v.dirq_mask.map (fun irq => Event.hvm_pci_intx_assert (e.mirq irq).1 (e.mirq irq).2) }

/-- How the `do ... while` loop of `vmx_intr_assist` is left: by `goto out`
with the current source, or by a successful acknowledgement. -/
inductive intr_loop_exit
  | out (intr_source : hvm_intack) (v : vmx_vcpu)
  | acked (intr_source : hvm_intack) (intr_vector : Nat) (rest : List intr_obs) (v : vmx_vcpu)

/-- The `do ... while` loop of `vmx_intr_assist` (intr.c 173-189). -/
def vmx_intr_assist_loop (e : vmx_env) : List intr_obs → vmx_vcpu → intr_loop_exit
  | [], v => intr_loop_exit.out hvm_intack.hvm_intack_none v
  | (intr_source, ack) :: rest, v =>
    if intr_source = hvm_intack.hvm_intack_none then
      intr_loop_exit.out intr_source v
    else
      let rd := __vmread vmcs_field.VM_ENTRY_INTR_INFO v
      let intr_info := rd.1
      let v := rd.2
      if intr_info &&& INTR_INFO_VALID_MASK ≠ 0 ∨ !e.hvm_interrupts_enabled intr_source then
        intr_loop_exit.out intr_source (enable_intr_window e intr_source v)
      else
        let v := v.emit (Event.hvm_vcpu_ack_pending_irq intr_source ack)
        match ack with
        | some intr_vector => intr_loop_exit.acked intr_source intr_vector rest v
        | none => vmx_intr_assist_loop e rest v

/-- The result of `hvm_vcpu_has_pending_irq` at the next observation. -/
def next_source : List intr_obs → hvm_intack
  | [] => hvm_intack.hvm_intack_none
  | (intr_source, _) :: _ => intr_source

/-- The statements of `vmx_intr_assist` before the loop (intr.c 165-171). -/
def vmx_intr_assist_prologue (e : vmx_env) (v : vmx_vcpu) : vmx_vcpu :=
  let v := v.emit Event.pt_update_irq
  let v := if e.vtd_enabled ∧ v.vcpu_id = 0 then vmx_dirq_assist e v else v
  v.emit Event.hvm_set_callback_irq_level

/-- Translation of `vmx_intr_assist` (intr.c 158-209); the trace record
`HVMTRACE_2D` is left out. -/
def vmx_intr_assist (e : vmx_env) (obs : List intr_obs) (v : vmx_vcpu) : vmx_vcpu :=
  let v := vmx_intr_assist_prologue e v
  match vmx_intr_assist_loop e obs v with
  | intr_loop_exit.out intr_source v => update_tpr_threshold e intr_source v
  | intr_loop_exit.acked intr_source intr_vector rest v =>
    let v :=
      if intr_source = hvm_intack.hvm_intack_nmi then
        v.emit Event.vmx_inject_nmi
      else
        let v := v.emit (Event.vmx_inject_extint intr_vector)
        v.emit (Event.pt_intr_post intr_vector intr_source)
    let intr_source := next_source rest
    let v :=
      if intr_source ≠ hvm_intack.hvm_intack_none then enable_intr_window e intr_source v
      else v
    update_tpr_threshold e intr_source v

/-- Recogniser of an injection into the guest. -/
def Event.is_inject : Event → Bool
  | Event.vmx_inject_nmi => true
  | Event.vmx_inject_extint _ => true
  | _ => false

/-- Number of injections in a trace. -/
def injections (t : List Event) : Nat := t.countP Event.is_inject

/-- Recogniser of an acknowledgement that handed back a vector. -/
def Event.is_acked : Event → Bool
  | Event.hvm_vcpu_ack_pending_irq _ (some _) => true
  | _ => false

/-- Recogniser of any call of `hvm_vcpu_ack_pending_irq`. -/
def Event.is_ack_call : Event → Bool
  | Event.hvm_vcpu_ack_pending_irq _ _ => true
  | _ => false

/-- The execution-control bit `enable_intr_window` requests for a source. -/
def window_bit (e : vmx_env) (intr_source : hvm_intack) : Nat :=
  if intr_source = hvm_intack.hvm_intack_nmi ∧ e.cpu_has_vmx_vnmi then
    CPU_BASED_VIRTUAL_NMI_PENDING
  else CPU_BASED_VIRTUAL_INTR_PENDING

/-- Injection of a source is blocked: an event is already queued for VM
entry, or interrupts are not enabled for the source. -/
def intr_blocked (e : vmx_env) (v : vmx_vcpu) (intr_source : hvm_intack) : Prop :=
  v.VM_ENTRY_INTR_INFO &&& INTR_INFO_VALID_MASK ≠ 0 ∨
  e.hvm_interrupts_enabled intr_source = false

/-! ## Restore of the CPU state -/

/-- Modelled from the spec: public/arch-x86/xen.h is not among the sources;
flag "online" of a guest context (value of the public interface). -/
def VGCF_online : Nat := 0x20

/-- The fields of the saved record `struct hvm_hw_cpu` that
`hvm_load_cpu_ctxt` copies. -/
structure hvm_hw_cpu where
  fpu_regs : List Nat
  rax : Nat
  rbx : Nat
  rcx : Nat
  rdx : Nat
  rbp : Nat
  rsi : Nat
  rdi : Nat
  rsp : Nat
  r8_r15 : List Nat
  dr0 : Nat
  dr1 : Nat
  dr2 : Nat
  dr3 : Nat
  dr6 : Nat
  dr7 : Nat
  deriving DecidableEq, Repr

/-- The fields of `struct vcpu_guest_context` written by
`hvm_load_cpu_ctxt`; `r8_r15` stands for the eight fields `user_regs.r8` to
`user_regs.r15`, `debugreg` for the array of that name. -/
structure vcpu_guest_context where
  fpu_ctxt : List Nat
  eax : Nat
  ebx : Nat
  ecx : Nat
  edx : Nat
  ebp : Nat
  esi : Nat
  edi : Nat
  esp : Nat
  r8_r15 : List Nat
  debugreg : List Nat
  flags : Nat
  deriving DecidableEq, Repr

/-- The part of `struct vcpu` used by `hvm_load_cpu_ctxt`; `VPF_down` is the
bit `_VPF_down` of `pause_flags`. -/
structure restore_vcpu where
  is_initialised : Bool
  fpu_initialised : Bool
  VPF_down : Bool
  guest_context : vcpu_guest_context
  deriving DecidableEq, Repr

/-- Calls and array reads made by `hvm_load_cpu_ctxt`, in the order they
happen; `read_vcpu_slot index` is the read of `d->vcpu[index]`, and
`load_cpu_ctxt` the call through `hvm_funcs`. -/
inductive restore_event
  | read_vcpu_slot (index : Int)
  | LOCK_BIGLOCK
  | UNLOCK_BIGLOCK
  | boot_vcpu (vcpuid : Int)
  | hvm_load_entry
  | load_cpu_ctxt
  | vcpu_wake (vcpu_id : Int)
  deriving DecidableEq, Repr

/-- The part of `struct domain` used by `hvm_load_cpu_ctxt`: the array
`d->vcpu` of `MAX_VIRT_CPUS` pointers (`none` is a null pointer). -/
structure restore_domain where
  vcpu : List (Option restore_vcpu)
  trace : List restore_event
  deriving DecidableEq, Repr

/-- Append one event to the trace. -/
def restore_domain.emit (d : restore_domain) (ev : restore_event) : restore_domain :=
  { d with trace := d.trace ++ [ev] }

/-- Surroundings of one `hvm_load_cpu_ctxt` call: the build, the constant
`MAX_VIRT_CPUS` (its header is not among the sources), the instance id that
`hvm_load_instance(h)` reads from the restore record, the result of
`boot_vcpu`, the record `hvm_load_entry` yields (`none` when it fails) and the
result of `hvm_funcs.load_cpu_ctxt`. -/
structure load_env where
  arch : Arch
  MAX_VIRT_CPUS : Nat
  hvm_load_instance : Int
  boot_vcpu : Int
  hvm_load_entry : Option hvm_hw_cpu
  load_cpu_ctxt : Int

/-- The assignments of hvm.c 328-353 to the guest context; the registers
`r8` to `r15` are copied on x86_64 only. -/
def load_guest_context (arch : Arch) (ctxt : hvm_hw_cpu) (vc : vcpu_guest_context) :
    vcpu_guest_context :=
  { fpu_ctxt := ctxt.fpu_regs,
    eax := ctxt.rax, ebx := ctxt.rbx, ecx := ctxt.rcx, edx := ctxt.rdx,
    ebp := ctxt.rbp, esi := ctxt.rsi, edi := ctxt.rdi, esp := ctxt.rsp,
    r8_r15 := if arch = Arch.x86_64 then ctxt.r8_r15 else vc.r8_r15,
    debugreg := (((((vc.debugreg.set 0 ctxt.dr0).set 1 ctxt.dr1).set 2 ctxt.dr2).set 3
      ctxt.dr3).set 6 ctxt.dr6).set 7 ctxt.dr7,
    flags := VGCF_online }

/-- Translation of `hvm_load_cpu_ctxt` (hvm.c 298-361).  `Except.error` is a
read of `d->vcpu[index]` outside the array, with the index and the state at
that point; the diagnostic `gdprintk` is not recorded. -/
def hvm_load_cpu_ctxt (e : load_env) (d : restore_domain) :
    Except (Int × restore_domain) (Int × restore_domain) :=
  let vcpuid := e.hvm_load_instance
  if vcpuid > e.MAX_VIRT_CPUS then
    Except.ok (-EINVAL, d)
  else
    let d := d.emit (restore_event.read_vcpu_slot vcpuid)
    if vcpuid < 0 ∨ vcpuid ≥ e.MAX_VIRT_CPUS then
      Except.error (vcpuid, d)
    else
      match d.vcpu.getD vcpuid.toNat none with
      | none => Except.ok (-EINVAL, d)
      | some v =>
        let d := d.emit restore_event.LOCK_BIGLOCK
        let booted : Int × restore_domain :=
          if !v.is_initialised then (e.boot_vcpu, d.emit (restore_event.boot_vcpu vcpuid))
          else (0, d)
        if booted.1 ≠ 0 then
          Except.ok (booted.1, booted.2)
        else
          let d := booted.2.emit restore_event.UNLOCK_BIGLOCK
          let d := d.emit restore_event.hvm_load_entry
          match e.hvm_load_entry with
          | none => Except.ok (-EINVAL, d)
          | some ctxt =>
            let d := d.emit restore_event.load_cpu_ctxt
            if e.load_cpu_ctxt < 0 then
              Except.ok (-EINVAL, d)
            else
              let v := { v with
                guest_context := load_guest_context e.arch ctxt v.guest_context,
                fpu_initialised := true }
              let woken : restore_vcpu × restore_domain :=
                if v.VPF_down then
                  ({ v with VPF_down := false }, d.emit (restore_event.vcpu_wake vcpuid))
                else (v, d)
              Except.ok (0, { woken.2 with vcpu := woken.2.vcpu.set vcpuid.toNat (some woken.1) })

/-! ## Guest memory copy -/

/-- Modelled from the spec: asm/page.h is not among the sources; the size of
a page, `1 << PAGE_SHIFT`.  The expression `addr & ~PAGE_MASK`, the offset
of `addr` in its page, is `addr & (PAGE_SIZE - 1)`. -/
def PAGE_SIZE : Nat := 4096

/-- Calls made by `__hvm_copy`, in the order they happen.  `memcpy` records
the direction (`true`: to the guest), the frame mapped, the offset in it, the
hypervisor buffer pointer and the byte count. -/
inductive copy_event
  | map_domain_page (mfn : Nat)
  | memcpy (to_guest : Bool) (mfn : Nat) (offset : Nat) (buf : Nat) (count : Nat)
  | paging_mark_dirty (mfn : Nat)
  | unmap_domain_page (mfn : Nat)
  deriving DecidableEq, Repr

/-- Surroundings of one `__hvm_copy` call: the widths of `paddr_t` and of
`unsigned long`, the constant `INVALID_MFN`, and the translations
`paging_gva_to_gfn(current, .)` and `get_mfn_from_gpfn`. -/
structure copy_env where
  paddr_bits : Nat
  long_bits : Nat
  INVALID_MFN : Nat
  paging_gva_to_gfn : Nat → Nat
  get_mfn_from_gpfn : Nat → Nat

/-- The frame `__hvm_copy` looks up for a chunk that starts at `addr`
(hvm.c 702-707); `gfn` is an `unsigned long`. -/
def hvm_copy_mfn (e : copy_env) (virt : Bool) (addr : Nat) : Nat :=
  let gfn := (if virt then e.paging_gva_to_gfn addr else addr >>> PAGE_SHIFT) % 2 ^ e.long_bits
  e.get_mfn_from_gpfn gfn

/-- The `while` loop of `__hvm_copy` (hvm.c 698-727), bounded by `fuel`
passes; `none` is a loop that has not ended when the fuel is used up. -/
def hvm_copy_loop (e : copy_env) (dir virt : Bool) :
    Nat → Nat → Nat → Int → List copy_event → Option (Int × List copy_event)
  | 0, _, _, todo, t => if todo > 0 then none else some (0, t)
  | fuel + 1, buf, addr, todo, t =>
    if todo > 0 then
      let count : Int := min ((PAGE_SIZE - (addr &&& (PAGE_SIZE - 1)) : Nat) : Int) todo
      let mfn := hvm_copy_mfn e virt addr
      if mfn = e.INVALID_MFN then
        some (todo, t)
      else
        let t := t ++ [copy_event.map_domain_page mfn,
          copy_event.memcpy dir mfn (addr &&& (PAGE_SIZE - 1)) buf count.toNat]
        let t := if dir then t ++ [copy_event.paging_mark_dirty mfn] else t
        let t := t ++ [copy_event.unmap_domain_page mfn]
        hvm_copy_loop e dir virt fuel (buf + count.toNat)
          ((addr + count.toNat) % 2 ^ e.paddr_bits) (todo - count) t
    else some (0, t)

/-- Translation of `__hvm_copy` (hvm.c 691-730).  Every pass of the loop
copies at least one byte, so `size` passes are allowed for. -/
def __hvm_copy (e : copy_env) (buf addr : Nat) (size : Int) (dir virt : Bool)
    (t : List copy_event) : Option (Int × List copy_event) :=
  hvm_copy_loop e dir virt size.toNat buf addr size t

/-- Translation of `hvm_copy_to_guest_phys` (hvm.c 732-735). -/
def hvm_copy_to_guest_phys (e : copy_env) (paddr buf : Nat) (size : Int)
    (t : List copy_event) : Option (Int × List copy_event) :=
  __hvm_copy e buf paddr size true false t

/-- Translation of `hvm_copy_from_guest_phys` (hvm.c 737-740). -/
def hvm_copy_from_guest_phys (e : copy_env) (buf paddr : Nat) (size : Int)
    (t : List copy_event) : Option (Int × List copy_event) :=
  __hvm_copy e buf paddr size false false t

/-- Translation of `hvm_copy_to_guest_virt` (hvm.c 742-745). -/
def hvm_copy_to_guest_virt (e : copy_env) (vaddr buf : Nat) (size : Int)
    (t : List copy_event) : Option (Int × List copy_event) :=
  __hvm_copy e buf vaddr size true true t

/-- Translation of `hvm_copy_from_guest_virt` (hvm.c 747-750). -/
def hvm_copy_from_guest_virt (e : copy_env) (buf vaddr : Nat) (size : Int)
    (t : List copy_event) : Option (Int × List copy_event) :=
  __hvm_copy e buf vaddr size false true t

/-- Number of bytes a call copies: the count of a `memcpy`, 0 otherwise. -/
def copy_event.bytes : copy_event → Nat
  | copy_event.memcpy _ _ _ _ count => count
  | _ => 0

/-- Number of bytes copied in a trace. -/
def bytes_copied (t : List copy_event) : Nat := (t.map copy_event.bytes).sum

/-- Recogniser of a `memcpy`. -/
def copy_event.is_memcpy : copy_event → Bool
  | copy_event.memcpy _ _ _ _ _ => true
  | _ => false

/-- The `memcpy` calls in `t` copy consecutive bytes in order: the first
starts at hypervisor pointer `buf` and guest address `addr`, each goes in the
direction `dir` through the frame `mfn_of` gives for its start address,
copies at least one byte, stays inside one page, and the next starts where
it ends (guest addresses wrap at `2 ^ bits`). -/
def chunks_in_order (bits : Nat) (mfn_of : Nat → Nat) (dir : Bool) :
    Nat → Nat → List copy_event → Bool
  | _, _, [] => true
  | buf, addr, copy_event.memcpy d mfn offset b count :: rest =>
    d == dir && mfn == mfn_of addr && offset == addr % PAGE_SIZE && b == buf &&
    decide (1 ≤ count) && decide (offset + count ≤ PAGE_SIZE) &&
    chunks_in_order bits mfn_of dir (buf + count) ((addr + count) % 2 ^ bits) rest
  | _, _, _ :: _ => false

/-- The byte at offset `j` of a range that starts at guest address `addr` is
the first byte of the range in its page: a chunk of the copy starts there. -/
def chunk_start (addr j : Nat) : Prop := j = 0 ∨ (addr + j) % PAGE_SIZE = 0

/-! ## Print buffer -/

/-- Calls made by `hvm_print_line`, in the order they happen: the lock and
unlock of `pbuf_lock`, and `printk` with the contents of the buffer it is
handed. -/
inductive print_event
  | spin_lock
  | spin_unlock
  | printk (pbuf : List Nat)
  deriving DecidableEq, Repr

/-- The part of `struct hvm_domain` used by `hvm_print_line`: the character
array `pbuf` (its length is `sizeof(pbuf)`, each element a byte value) and
the index `pbuf_idx`. -/
structure hvm_domain where
  pbuf : List Nat
  pbuf_idx : Nat
  trace : List print_event
  deriving DecidableEq, Repr

/-- Append one event to the trace. -/
def hvm_domain.emit (hd : hvm_domain) (ev : print_event) : hvm_domain :=
  { hd with trace := hd.trace ++ [ev] }

/-- The store `hd->pbuf[i] = c`; `Except.error` is a store outside the
array. -/
def pbuf_store (i c : Nat) (hd : hvm_domain) : Except hvm_domain hvm_domain :=
  if i < hd.pbuf.length then Except.ok { hd with pbuf := hd.pbuf.set i c }
  else Except.error hd

/-- The body of the `if` in `hvm_print_line` (hvm.c 762-766); 10 is the
character `'\n'` and 0 is `'\0'`.  `printk` is handed the buffer. -/
def hvm_print_line_flush (c : Nat) (hd : hvm_domain) : Except hvm_domain hvm_domain :=
  let newline : Except hvm_domain hvm_domain :=
    if c ≠ 10 then
      match pbuf_store hd.pbuf_idx 10 hd with
      | Except.error x => Except.error x
      | Except.ok hd => Except.ok { hd with pbuf_idx := hd.pbuf_idx + 1 }
    else Except.ok hd
  match newline with
  | Except.error x => Except.error x
  | Except.ok hd =>
    match pbuf_store hd.pbuf_idx 0 hd with
    | Except.error x => Except.error x
    | Except.ok hd =>
      let hd := hd.emit (print_event.printk hd.pbuf)
      Except.ok { hd with pbuf_idx := 0 }

/-- Translation of `hvm_print_line` (hvm.c 754-769) for the character `c`.
The array has at least two elements, so that `sizeof(hd->pbuf) - 2` does not
wrap. -/
def hvm_print_line (c : Nat) (hd : hvm_domain) : Except hvm_domain hvm_domain :=
  let hd := hd.emit print_event.spin_lock
  match pbuf_store hd.pbuf_idx c hd with
  | Except.error x => Except.error x
  | Except.ok hd =>
    let hd := { hd with pbuf_idx := hd.pbuf_idx + 1 }
    let flushed : Except hvm_domain hvm_domain :=
      if hd.pbuf_idx = hd.pbuf.length - 2 ∨ c = 10 then hvm_print_line_flush c hd
      else Except.ok hd
    match flushed with
    | Except.error x => Except.error x
    | Except.ok hd => Except.ok (hd.emit print_event.spin_unlock)

/-- A sequence of `hvm_print_line` calls, one per character. -/
def hvm_print_lines : List Nat → hvm_domain → Except hvm_domain hvm_domain
  | [], hd => Except.ok hd
  | c :: cs, hd =>
    match hvm_print_line c hd with
    | Except.error x => Except.error x
    | Except.ok hd => hvm_print_lines cs hd

/-- The string `printk` prints for a `%s` argument: the bytes before the
first NUL. -/
def c_string (buf : List Nat) : List Nat := buf.takeWhile (fun b => b != 0)

/-! ## Call sequences on ioreq pages -/

/-- A call made on one ioreq page after its initialisation. -/
inductive iorp_call
  | set (mm : host) (gmfn : Nat)
  | destroy

/-- One step of a call sequence: the value of `d->is_dying` when the call is
made, and the call. -/
structure iorp_step where
  is_dying : Bool
  call : iorp_call

/-- Run one step on the page `iorp`: the return value of
`hvm_set_ioreq_page` (`none` for a destroy, which returns nothing) and the
domain afterwards. -/
def iorp_apply (iorp : iorp_sel) (d : domain) (s : iorp_step) : Option Int × domain :=
  let d := { d with is_dying := s.is_dying }
  match s.call with
  | iorp_call.set mm gmfn =>
    let r := hvm_set_ioreq_page mm d iorp gmfn
    (some r.1, r.2)
  | iorp_call.destroy => (none, hvm_destroy_ioreq_page d iorp)

/-- Run a sequence of steps on the page `iorp`, keeping the outcome of every
step. -/
def iorp_history (iorp : iorp_sel) : domain → List iorp_step → List (Option Int × domain)
  | _, [] => []
  | d, s :: ss => iorp_apply iorp d s :: iorp_history iorp (iorp_apply iorp d s).2 ss

/-- A bind request on either page of a domain: the value of `d->is_dying`
when it is made, the page, the memory-management callees and the frame. -/
structure bind_call where
  is_dying : Bool
  iorp : iorp_sel
  mm : host
  gmfn : Nat

/-- Run one bind request. -/
def bind_apply (d : domain) (c : bind_call) : Int × domain :=
  hvm_set_ioreq_page c.mm { d with is_dying := c.is_dying } c.iorp c.gmfn

/-- Run a sequence of bind requests, keeping the outcome of every request. -/
def bind_history : domain → List bind_call → List (Int × domain)
  | _, [] => []
  | d, c :: cs => bind_apply d c :: bind_history (bind_apply d c).2 cs

/-- The domain after a sequence of bind requests. -/
def bind_run : domain → List bind_call → domain
  | d, [] => d
  | d, c :: cs => bind_run (bind_apply d c).2 cs

/-- Number of ioreq pages of a domain whose mapping is null. -/
def unbound_pages (d : domain) : Nat :=
  (if d.ioreq.va = NULL then 1 else 0) + (if d.buf_ioreq.va = NULL then 1 else 0)

/-! ## Measures on traces and histories -/

/-- Recogniser of a `put_page_and_type`. -/
def Event.is_put : Event → Bool
  | Event.put_page_and_type _ => true
  | _ => false

/-- Number of page references dropped in a trace, whatever the page. -/
def puts (t : List Event) : Nat := t.countP Event.is_put

/-- Recogniser of the destroy call. -/
def iorp_call.is_destroy : iorp_call → Bool
  | iorp_call.destroy => true
  | iorp_call.set _ _ => false

/-- Whether a step of a history is a bind that returned 0. -/
def bound_ok (r : Option Int × domain) : Bool := decide (r.1 = some 0)

/-- Recogniser of a call through a hypercall table. -/
def Event.is_call : Event → Bool
  | Event.call_handler _ _ _ => true
  | _ => false

/-- Number of handler invocations in a trace. -/
def handler_calls (t : List Event) : Nat := t.countP Event.is_call

/-- Recogniser of a read of a hypercall table entry. -/
def Event.is_read_table : Event → Bool
  | Event.read_table _ _ => true
  | _ => false

/-- Number of hypercall table look-ups in a trace. -/
def table_reads (t : List Event) : Nat := t.countP Event.is_read_table

/-- The saved registers as `hvm_do_hypercall` sees them after its `switch`:
refreshed by `hvm_store_cpu_guest_regs` unless the mode is 0. -/
def hcall_regs (e : hcall_env) (s : pcpu) : cpu_user_regs :=
  if e.hvm_guest_x86_mode = 0 then s.regs else e.hvm_store_cpu_guest_regs s.regs

/-- The disposition computed by the last statement of `hvm_do_hypercall`
from the preemption flag and the call number. -/
def hcall_disposition (k : xen_h) (preempted : Bool) (eax : Nat) : Nat :=
  if preempted then HVM_HCALL_preempted
  else if eax = k.__HYPERVISOR_memory_op ∨ eax = k.__HYPERVISOR_grant_table_op then
    HVM_HCALL_invalidate
  else HVM_HCALL_completed

/-- The third fault condition of a CR0 write: the masked value turns paging
on while long mode is requested and PAE is off. -/
def cr0_long_mode_without_pae (e : cr_env) (value : Nat) (v : hvm_vcpu) : Prop :=
  cr0_masked e value &&& X86_CR0_PG ≠ 0 ∧ v.guest_cr0 &&& X86_CR0_PG = 0 ∧
  v.guest_efer &&& EFER_LME ≠ 0 ∧ v.guest_cr4 &&& X86_CR4_PAE = 0

/-- The three fault conditions of a CR0 write: a bit above bit 31; paging
without protected mode in the masked value; paging turned on with long mode
requested and PAE off. -/
def cr0_faults (e : cr_env) (value : Nat) (v : hvm_vcpu) : Prop :=
  value % 2 ^ 32 ≠ value ∨
  cr0_masked e value &&& (X86_CR0_PE ||| X86_CR0_PG) = X86_CR0_PG ∨
  cr0_long_mode_without_pae e value v

/-- The calls made by passes of the loop of `vmx_intr_assist` whose
acknowledgement handed back no vector: a read of the entry interruption
information and the failed acknowledgement, per pass. -/
def failed_passes : List intr_obs → List Event
  | [] => []
  | o :: os =>
    Event.vmread vmcs_field.VM_ENTRY_INTR_INFO ::
      Event.hvm_vcpu_ack_pending_irq o.1 none :: failed_passes os

/-! ## Sample inputs -/

/-- A domain whose synchronous ioreq page is already bound. -/
def bound_domain : domain :=
  { is_hvm := true, is_dying := false, ioreq := ⟨5100, 1100⟩, buf_ioreq := ⟨0, 0⟩,
    params := List.replicate 9 0, vcpu_ports := [3], trace := [] }

/-- Memory management in which every frame is valid, can be pinned and can be
mapped. -/
def generous_host : host :=
  { gmfn_to_mfn := fun g => g, mfn_valid := fun _ => true,
    mfn_to_page := fun m => m + 1000, get_page_and_type := fun _ => true,
    map_domain_page_global := fun m => m + 5000 }

/-- A privileged `HVMOP_set_param` of the synchronous ioreq frame on
`bound_domain`. -/
def rebind_env : hvm_op_env :=
  { HVM_NR_PARAMS := 9, arg := some ⟨1, HVM_PARAM_IOREQ_PFN, 42⟩, is_priv := true,
    current_domain := bound_domain, rcu_lock_domain_by_id := fun _ => some bound_domain,
    xsm_hvm_param := 0, copy_to_guest_fails := false, mm := generous_host,
    arg_is_null := false, arg_pci_intx_level := none, arg_isa_irq_level := none,
    arg_pci_link_route := none, xsm_hvm_set_pci_intx_level := 0,
    xsm_hvm_set_isa_irq_level := 0, xsm_hvm_set_pci_link_route := 0 }

/-- A domain whose ioreq pages are both unbound. -/
def fresh_domain : domain :=
  { is_hvm := true, is_dying := false, ioreq := ⟨0, 0⟩, buf_ioreq := ⟨0, 0⟩,
    params := List.replicate 9 0, vcpu_ports := [3], trace := [] }

/-- A bound domain that is being torn down. -/
def dying_domain : domain := { bound_domain with is_dying := true }

/-- Bind, bind again, tear down, bind once more. -/
def sample_steps : List iorp_step :=
  [⟨false, iorp_call.set generous_host 42⟩, ⟨false, iorp_call.set generous_host 43⟩,
   ⟨true, iorp_call.destroy⟩, ⟨true, iorp_call.set generous_host 44⟩]

/-- The call numbers of public/xen.h in the Xen ABI. -/
def xen_abi : xen_h :=
  { NR_hypercalls := 64, __HYPERVISOR_memory_op := 12, __HYPERVISOR_grant_table_op := 20,
    __HYPERVISOR_xen_version := 17, __HYPERVISOR_event_channel_op := 32,
    __HYPERVISOR_sched_op := 29, __HYPERVISOR_hvm_op := 34 }

/-- A numbering whose last table entry is bound. -/
def tight_abi : xen_h := { xen_abi with NR_hypercalls := 35 }

/-- Registers with call number `nr` and code segment selector `cs`. -/
def sample_regs (nr cs : Nat) : cpu_user_regs :=
  { eax := nr, ebx := 1, ecx := 2, edx := 3, esi := 4, edi := 5, r8 := 6, r10 := 7, cs := cs }

/-- A 64-bit build in which the guest runs in mode `mode`, the register
refresh changes nothing, `ring_3` tests the low two selector bits, and every
handler returns 0 without asking for preemption. -/
def sample_env (k : xen_h) (mode : Int) : hcall_env :=
  { arch := Arch.x86_64, k := k, hvm_guest_x86_mode := mode,
    hvm_store_cpu_guest_regs := fun r => r,
    ring_3 := fun r => r.cs % 4 == 3,
    run := fun _ _ => (0, false) }

/-- Shadow paging in which no guest frame translates to a valid machine
frame; the reserved-bit masks leave the architectural CR0 and CR4 bits free. -/
def broken_shadow_env : cr_env :=
  { HVM_CR0_GUEST_RESERVED_BITS := 0x7ffaffc0, HVM_CR4_GUEST_RESERVED_BITS := 0xfffff800,
    paging_mode_hap := false, get_mfn_from_gpfn := fun g => g,
    mfn_valid := fun _ => false, get_page := fun _ => false }

/-- Hardware-assisted paging, with the same masks. -/
def hap_env : cr_env := { broken_shadow_env with paging_mode_hap := true }

/-- A vCPU in protected mode without paging that has requested long mode and
enabled PAE. -/
def long_mode_request_vcpu : hvm_vcpu :=
  { guest_cr0 := 0x11, guest_cr3 := 0x1000, guest_cr4 := 0x20, guest_efer := 0x100,
    guest_table := 0, trace := [] }

/-- A vCPU running in long mode with paging on. -/
def long_mode_vcpu : hvm_vcpu :=
  { guest_cr0 := 0x80000011, guest_cr3 := 0x1000, guest_cr4 := 0x20, guest_efer := 0x500,
    guest_table := 1, trace := [] }

/-- A vCPU in whose execution control an interrupt window (the
virtual-interrupt-pending bit) has been requested earlier. -/
def window_open_vcpu : vmx_vcpu :=
  { vcpu_id := 0, exec_control := 0x4, GUEST_INTERRUPTIBILITY_INFO := 0,
    VM_ENTRY_INTR_INFO := 0, CPU_BASED_VM_EXEC_CONTROL := 0x4, TPR_THRESHOLD := 0,
    dirq_mask := [], trace := [] }

/-- A vCPU with no window requested and blocking by STI. -/
def sti_blocked_vcpu : vmx_vcpu :=
  { vcpu_id := 1, exec_control := 0, GUEST_INTERRUPTIBILITY_INFO := 0x1,
    VM_ENTRY_INTR_INFO := 0, CPU_BASED_VM_EXEC_CONTROL := 0, TPR_THRESHOLD := 0,
    dirq_mask := [], trace := [] }

/-- A CPU with virtual NMIs and a TPR shadow, no VT-d, an enabled LAPIC with
nothing pending; interrupts are enabled for the LAPIC and the PIC but not
for NMIs. -/
def sample_vmx_env : vmx_env :=
  { cpu_has_vmx_vnmi := true, cpu_has_vmx_tpr_shadow := true, vtd_enabled := false,
    mirq := fun _ => (0, 0),
    hvm_interrupts_enabled := fun s => s != hvm_intack.hvm_intack_nmi,
    vlapic_enabled := true, vlapic_find_highest_irr := -1, vlapic_taskpri := 0 }

/-- A vCPU with no window requested, no blocking and no event queued for
VM entry. -/
def idle_vmx_vcpu : vmx_vcpu :=
  { vcpu_id := 1, exec_control := 0, GUEST_INTERRUPTIBILITY_INFO := 0,
    VM_ENTRY_INTR_INFO := 0, CPU_BASED_VM_EXEC_CONTROL := 0, TPR_THRESHOLD := 0,
    dirq_mask := [], trace := [] }

/-- A CPU as in `sample_vmx_env` on which interrupts are enabled for NMIs
only: external interrupts (PIC, LAPIC) are masked. -/
def extint_masked_vmx_env : vmx_env :=
  { sample_vmx_env with
    hvm_interrupts_enabled := fun s => s == hvm_intack.hvm_intack_nmi }

/-- A CPU as in `sample_vmx_env` whose LAPIC has vector 0x31 pending while
the task priority is 0. -/
def pending_vmx_env : vmx_env :=
  { sample_vmx_env with vlapic_find_highest_irr := 0x31, vlapic_taskpri := 0 }

/-- A CPU as in `sample_vmx_env` whose LAPIC has vector 0x31 pending while
the task priority is 0x40. -/
def masked_vmx_env : vmx_env :=
  { sample_vmx_env with vlapic_find_highest_irr := 0x31, vlapic_taskpri := 0x40 }


/-- Shadow paging in which every guest frame translates to itself, is valid
and can be referenced; the masks are those of `broken_shadow_env`. -/
def shadow_env : cr_env :=
  { broken_shadow_env with mfn_valid := fun _ => true, get_page := fun _ => true }


/-- A guest in mode `mode` on the build `arch` with the numbering `xen_abi`,
in which `do_grant_table_op` returns 0 for every command, the wrapper
`hvm_grant_table_op` runs around it as in hvm.c, and the other handlers
return 0. -/
def grant_env (arch : Arch) (mode : Int) : hcall_env :=
  { arch := arch, k := xen_abi, hvm_guest_x86_mode := mode,
    hvm_store_cpu_guest_regs := fun r => r,
    ring_3 := fun r => r.cs % 4 == 3,
    run := fun f args =>
      match f with
      | handler.hvm_grant_table_op =>
        (to_reg arch.bits
          (hvm_grant_table_op (fun _ _ _ => 0) (args.getD 0 0) (args.getD 1 0) (args.getD 2 0)),
         false)
      | _ => (0, false) }

/-- Registers of a `grant_table_op` hypercall made from ring 0 whose command
is 0, which is not `GNTTABOP_query_size`. -/
def grant_regs : cpu_user_regs :=
  { eax := 20, ebx := 0, ecx := 0x1000, edx := 1, esi := 0, edi := 0, r8 := 0, r10 := 0,
    cs := 0 }


/-- A saved CPU record with every register 0. -/
def zero_hw_cpu : hvm_hw_cpu :=
  { fpu_regs := [], rax := 0, rbx := 0, rcx := 0, rdx := 0, rbp := 0, rsi := 0, rdi := 0,
    rsp := 0, r8_r15 := [], dr0 := 0, dr1 := 0, dr2 := 0, dr3 := 0, dr6 := 0, dr7 := 0 }

/-- A restore on a 64-bit build with room for 4 vCPUs in which every callee
succeeds; the record names instance `id`. -/
def sample_load_env (id : Int) : load_env :=
  { arch := Arch.x86_64, MAX_VIRT_CPUS := 4, hvm_load_instance := id, boot_vcpu := 0,
    hvm_load_entry := some zero_hw_cpu, load_cpu_ctxt := 0 }

/-- A domain with 4 vCPU slots of which none is populated. -/
def empty_restore_domain : restore_domain :=
  { vcpu := [none, none, none, none], trace := [] }


/-- A 64-bit build with a 64-bit physical address space in which guest
frames below 4 translate to themselves and no other frame translates;
virtual addresses are identity-mapped. -/
def sample_copy_env : copy_env :=
  { paddr_bits := 64, long_bits := 64, INVALID_MFN := 0xffffffff,
    paging_gva_to_gfn := fun a => a >>> PAGE_SHIFT,
    get_mfn_from_gpfn := fun g => if g < 4 then g else 0xffffffff }


/-- An empty print buffer of 6 bytes. -/
def small_pbuf : hvm_domain := { pbuf := [0, 0, 0, 0, 0, 0], pbuf_idx := 0, trace := [] }

/-! ## Theorems: ioreq channel -/

theorem park_trace (cond : Nat → Bool) (dm : device_model) (v : vcpu) :
    (park cond dm v).2.2.trace = v.trace ∧ (park cond dm v).2.2.xen_port = v.xen_port := by
  induction dm generalizing v with
  | nil => simp [park]
  | cons s dm ih =>
    unfold park
    split
    · simp
    · simpa using ih { v with ioreq_state := s }

theorem park_woken (cond : Nat → Bool) (dm : device_model) (v : vcpu) :
    (park cond dm v).1 = cond (park cond dm v).2.2.ioreq_state := by
  induction dm generalizing v with
  | nil => simp [park]
  | cons s dm ih =>
    unfold park
    split
    · next h => simp [h]
    · exact ih { v with ioreq_state := s }

theorem park_rest (cond : Nat → Bool) (dm : device_model) (v : vcpu) :
    (∃ used, dm = used ++ (park cond dm v).2.1) ∧
    ((park cond dm v).1 = false → (park cond dm v).2.1 = []) := by
  induction dm generalizing v with
  | nil => simp [park]
  | cons s dm ih =>
    unfold park
    split
    · exact ⟨⟨[], rfl⟩, by simp⟩
    · obtain ⟨⟨used, hu⟩, h2⟩ := ih { v with ioreq_state := s }
      exact ⟨⟨s :: used, by rw [List.cons_append, ← hu]⟩, h2⟩

/-- C1: when the shutdown deferral starts and the shared ioreq state is not
STATE_IOREQ_NONE, `hvm_send_assist_req` crashes the domain and does nothing
else: the state field keeps its value and the only event added to the trace
is the crash, so the wait is not armed and no notification is sent. -/
theorem hvm_send_assist_req_in_flight (v : vcpu) (h : v.ioreq_state ≠ STATE_IOREQ_NONE) :
    (hvm_send_assist_req true v).1 = Exit.crashed ∧
    (hvm_send_assist_req true v).2.ioreq_state = v.ioreq_state ∧
    (hvm_send_assist_req true v).2.trace = v.trace ++ [Event.domain_crash_synchronous] ∧
    (∀ s, Event.write_ioreq_state s ∉ [Event.domain_crash_synchronous]) ∧
    (∀ port, Event.prepare_wait_on_xen_event_channel port ∉ [Event.domain_crash_synchronous]) ∧
    (∀ port, Event.notify_via_xen_event_channel port ∉ [Event.domain_crash_synchronous]) := by
  simp [hvm_send_assist_req, h, domain_crash_synchronous, vcpu.emit]

theorem hvm_send_assist_req_in_flight_witness :
    (hvm_send_assist_req true ⟨false, 7, STATE_IOREQ_INPROCESS, []⟩).1 = Exit.crashed ∧
    (hvm_send_assist_req true ⟨false, 7, STATE_IOREQ_INPROCESS, []⟩).2.ioreq_state
      = STATE_IOREQ_INPROCESS ∧
    (hvm_send_assist_req true ⟨false, 7, STATE_IOREQ_INPROCESS, []⟩).2.trace
      = [Event.domain_crash_synchronous] :=
  have h := hvm_send_assist_req_in_flight ⟨false, 7, STATE_IOREQ_INPROCESS, []⟩ (by decide)
  ⟨h.1, h.2.1, h.2.2.1⟩

/-- C2: when the shutdown deferral starts and the ioreq state is
STATE_IOREQ_NONE, `hvm_send_assist_req` returns after exactly three effects,
in this order: arm the wait on the vCPU's port, store STATE_IOREQ_READY in
the state field, notify the port. -/
theorem hvm_send_assist_req_order (v : vcpu) (h : v.ioreq_state = STATE_IOREQ_NONE) :
    hvm_send_assist_req true v =
      (Exit.returned,
       { v with
         ioreq_state := STATE_IOREQ_READY,
         trace := v.trace ++
           [Event.prepare_wait_on_xen_event_channel v.xen_port,
            Event.write_ioreq_state STATE_IOREQ_READY,
            Event.notify_via_xen_event_channel v.xen_port] }) := by
  simp [hvm_send_assist_req, h, prepare_wait_on_xen_event_channel, write_ioreq_state,
    notify_via_xen_event_channel, vcpu.emit]

theorem hvm_send_assist_req_order_witness :
    hvm_send_assist_req true ⟨true, 7, STATE_IOREQ_NONE, []⟩ =
      (Exit.returned, ⟨true, 7, STATE_IOREQ_READY,
        [Event.prepare_wait_on_xen_event_channel 7,
         Event.write_ioreq_state STATE_IOREQ_READY,
         Event.notify_via_xen_event_channel 7]⟩) :=
  hvm_send_assist_req_order ⟨true, 7, STATE_IOREQ_NONE, []⟩ rfl

theorem hvm_do_resume_loop_fuel (dm : device_model) (v : vcpu) (fuel : Nat) :
    (hvm_do_resume_loop (fuel + 3) dm v).1 ≠ Exit.out_of_fuel := by
  have none_done : ∀ (n : Nat) (dm : device_model) (w : vcpu),
      w.ioreq_state = STATE_IOREQ_NONE →
      hvm_do_resume_loop (n + 1) dm w = (Exit.returned, w) := by
    intro n dm w hw
    simp [hvm_do_resume_loop, hvm_do_resume_step, hw]
  have resp_done : ∀ (n : Nat) (dm : device_model) (w : vcpu),
      w.ioreq_state = STATE_IORESP_READY →
      (hvm_do_resume_loop (n + 2) dm w).1 = Exit.returned := by
    intro n dm w hw
    have d30 : STATE_IORESP_READY ≠ STATE_IOREQ_NONE := by decide
    rw [hvm_do_resume_loop]
    simp only [hvm_do_resume_step, hw, d30, if_false, if_true]
    rw [none_done n dm (hvm_io_assist w) rfl]
  by_cases h0 : v.ioreq_state = STATE_IOREQ_NONE
  · rw [none_done (fuel + 2) dm v h0]; simp
  by_cases h3 : v.ioreq_state = STATE_IORESP_READY
  · rw [resp_done (fuel + 1) dm v h3]; simp
  by_cases h12 : v.ioreq_state = STATE_IOREQ_READY ∨ v.ioreq_state = STATE_IOREQ_INPROCESS
  · rw [hvm_do_resume_loop]
    simp only [hvm_do_resume_step, h0, h3, h12, if_false, if_true]
    have hw := park_woken resume_cond dm (v.emit (Event.wait_on_xen_event_channel v.xen_port))
    simp only [wait_on_xen_event_channel]
    generalize park resume_cond dm (v.emit (Event.wait_on_xen_event_channel v.xen_port)) = r at hw
    obtain ⟨woken, dm', v'⟩ := r
    simp only at hw
    cases woken with
    | false => simp
    | true =>
      simp only [if_true]
      have hc : v'.ioreq_state ≠ STATE_IOREQ_READY ∧ v'.ioreq_state ≠ STATE_IOREQ_INPROCESS := by
        simpa [resume_cond] using hw.symm
      by_cases g0 : v'.ioreq_state = STATE_IOREQ_NONE
      · rw [none_done (fuel + 1) dm' v' g0]; simp
      by_cases g3 : v'.ioreq_state = STATE_IORESP_READY
      · rw [resp_done fuel dm' v' g3]; simp
      · rw [hvm_do_resume_loop]
        simp [hvm_do_resume_step, g0, g3, hc.1, hc.2, domain_crash_synchronous]
  · rw [hvm_do_resume_loop]
    simp [hvm_do_resume_step, h0, h3, h12, domain_crash_synchronous]

/-- C3: one examination of the ioreq state by `hvm_do_resume`.
STATE_IOREQ_NONE: the loop is left with the vCPU untouched, so the whole
function only runs its prologue (no hvm_io_assist, no wait, no crash).
STATE_IORESP_READY: `hvm_io_assist` is called and the loop goes on.
STATE_IOREQ_READY or STATE_IOREQ_INPROCESS: the vCPU waits on its own event
channel, and when the wait ends the state is neither READY nor INPROCESS
(if the device model stops first the vCPU stays blocked).  Any other value:
the domain is crashed, with no hvm_io_assist and no wait.  Three passes
through the loop always suffice. -/
theorem hvm_do_resume_examines (dm : device_model) (v : vcpu) :
    (v.ioreq_state = STATE_IOREQ_NONE →
      hvm_do_resume_step dm v = Step.done (Exit.returned, v) ∧
      ∀ fuel, hvm_do_resume (fuel + 1) dm v =
        (Exit.returned,
         { v with trace := v.trace ++ (if v.fpu_dirtied then [] else [Event.stts])
             ++ [Event.pt_thaw_time] })) ∧
    (v.ioreq_state = STATE_IORESP_READY →
      hvm_do_resume_step dm v =
        Step.again dm { v with ioreq_state := STATE_IOREQ_NONE,
                               trace := v.trace ++ [Event.hvm_io_assist] }) ∧
    (v.ioreq_state = STATE_IOREQ_READY ∨ v.ioreq_state = STATE_IOREQ_INPROCESS →
      ∃ (woken : Bool) (dm' : device_model) (v' : vcpu),
        hvm_do_resume_step dm v =
          (if woken then Step.again dm' v' else Step.done (Exit.blocked, v')) ∧
        v'.trace = v.trace ++ [Event.wait_on_xen_event_channel v.xen_port] ∧
        (woken = true ↔ (v'.ioreq_state ≠ STATE_IOREQ_READY ∧
                          v'.ioreq_state ≠ STATE_IOREQ_INPROCESS)) ∧
        (∃ used, dm = used ++ dm') ∧ (woken = false → dm' = [])) ∧
    (v.ioreq_state ≠ STATE_IOREQ_NONE → v.ioreq_state ≠ STATE_IORESP_READY →
      v.ioreq_state ≠ STATE_IOREQ_READY → v.ioreq_state ≠ STATE_IOREQ_INPROCESS →
      hvm_do_resume_step dm v =
        Step.done (Exit.crashed,
          { v with trace := v.trace ++ [Event.domain_crash_synchronous] })) ∧
    (∀ fuel, (hvm_do_resume (fuel + 3) dm v).1 ≠ Exit.out_of_fuel) := by
  refine ⟨?_, ?_, ?_, ?_, ?_⟩
  · intro h
    refine ⟨by simp [hvm_do_resume_step, h], ?_⟩
    intro fuel
    cases hf : v.fpu_dirtied <;>
      simp [hvm_do_resume, hvm_do_resume_loop, hvm_do_resume_step, h, hf, vcpu.emit]
  · intro h
    have d30 : STATE_IORESP_READY ≠ STATE_IOREQ_NONE := by decide
    simp [hvm_do_resume_step, h, d30, hvm_io_assist]
  · intro h
    have h0 : v.ioreq_state ≠ STATE_IOREQ_NONE := by
      rcases h with h | h <;> rw [h] <;> decide
    have h3 : v.ioreq_state ≠ STATE_IORESP_READY := by
      rcases h with h | h <;> rw [h] <;> decide
    have ht := park_trace resume_cond dm (v.emit (Event.wait_on_xen_event_channel v.xen_port))
    have hw := park_woken resume_cond dm (v.emit (Event.wait_on_xen_event_channel v.xen_port))
    have hr := park_rest resume_cond dm (v.emit (Event.wait_on_xen_event_channel v.xen_port))
    refine ⟨(park resume_cond dm (v.emit (Event.wait_on_xen_event_channel v.xen_port))).1,
      (park resume_cond dm (v.emit (Event.wait_on_xen_event_channel v.xen_port))).2.1,
      (park resume_cond dm (v.emit (Event.wait_on_xen_event_channel v.xen_port))).2.2,
      ?_, ?_, ?_, hr.1, hr.2⟩
    · simp [hvm_do_resume_step, h0, h3, h, wait_on_xen_event_channel]
    · simpa [vcpu.emit] using ht.1
    · rw [hw]; simp [resume_cond]
  · intro h0 h3 h1 h2
    simp [hvm_do_resume_step, h0, h3, h1, h2, domain_crash_synchronous, vcpu.emit]
  · intro fuel
    exact hvm_do_resume_loop_fuel dm _ fuel

theorem hvm_do_resume_examines_witness :
    hvm_do_resume_step [STATE_IOREQ_READY] ⟨true, 4, STATE_IOREQ_NONE, []⟩
      = Step.done (Exit.returned, ⟨true, 4, STATE_IOREQ_NONE, []⟩) ∧
    hvm_do_resume_step [] ⟨true, 4, STATE_IORESP_READY, []⟩
      = Step.again [] ⟨true, 4, STATE_IOREQ_NONE, [Event.hvm_io_assist]⟩ ∧
    hvm_do_resume_step [] ⟨true, 4, 9, []⟩
      = Step.done (Exit.crashed, ⟨true, 4, 9, [Event.domain_crash_synchronous]⟩) ∧
    (∃ (woken : Bool) (dm' : device_model) (v' : vcpu),
      hvm_do_resume_step [STATE_IOREQ_INPROCESS, STATE_IORESP_READY, 5]
          ⟨true, 4, STATE_IOREQ_READY, []⟩
        = (if woken then Step.again dm' v' else Step.done (Exit.blocked, v')) ∧
      v'.trace = [Event.wait_on_xen_event_channel 4]) :=
  ⟨((hvm_do_resume_examines [STATE_IOREQ_READY] ⟨true, 4, STATE_IOREQ_NONE, []⟩).1 rfl).1,
   (hvm_do_resume_examines [] ⟨true, 4, STATE_IORESP_READY, []⟩).2.1 rfl,
   (hvm_do_resume_examines [] ⟨true, 4, 9, []⟩).2.2.2.1
     (by decide) (by decide) (by decide) (by decide),
   by
     obtain ⟨w, dm', v', h1, h2, _⟩ :=
       (hvm_do_resume_examines [STATE_IOREQ_INPROCESS, STATE_IORESP_READY, 5]
         ⟨true, 4, STATE_IOREQ_READY, []⟩).2.2.1 (Or.inl rfl)
     exact ⟨w, dm', v', h1, h2⟩⟩

example :
    hvm_do_resume 3 [STATE_IOREQ_INPROCESS, STATE_IORESP_READY, 5]
        ⟨false, 4, STATE_IOREQ_READY, []⟩
      = (Exit.returned, ⟨false, 4, STATE_IOREQ_NONE,
          [Event.stts, Event.pt_thaw_time, Event.wait_on_xen_event_channel 4,
           Event.hvm_io_assist]⟩) := by
  decide

example :
    hvm_do_resume 3 [STATE_IOREQ_INPROCESS] ⟨true, 4, STATE_IOREQ_READY, []⟩
      = (Exit.blocked, ⟨true, 4, STATE_IOREQ_INPROCESS,
          [Event.pt_thaw_time, Event.wait_on_xen_event_channel 4]⟩) := by
  decide

/-! ## Theorems: ioreq pages and parameters -/

/-- C4: on `bound_domain` the bind of frame 42 fails with -EINVAL (page
already bound), yet `do_hvm_op` returns 0 and stores 42 in
`params[HVM_PARAM_IOREQ_PFN]`, which held 0. -/
theorem do_hvm_op_set_param_ignores_bind_failure :
    (hvm_set_ioreq_page generous_host bound_domain iorp_sel.ioreq 42).1 = -EINVAL ∧
    bound_domain.params.getD HVM_PARAM_IOREQ_PFN 0 = 0 ∧
    (do_hvm_op rebind_env HVMOP_set_param).1 = 0 ∧
    (do_hvm_op rebind_env HVMOP_set_param).2.map
      (fun d => d.params.getD HVM_PARAM_IOREQ_PFN 0) = some 42 := by
  decide

/-- The `switch ( op )` of `do_hvm_op` outside the parameter and
interrupt-level operations: an operation number that is none of the six
known ones, and `HVMOP_flush_tlbs` with a handle that is not null, return
-ENOSYS and act on no domain; `HVMOP_flush_tlbs` with a null handle flushes
and returns 0. -/
theorem do_hvm_op_default (e : hvm_op_env) :
    (∀ op, 5 < op → do_hvm_op e op = (-ENOSYS, none)) ∧
    (e.arg_is_null = false → do_hvm_op e HVMOP_flush_tlbs = (-ENOSYS, none)) ∧
    (e.arg_is_null = true → do_hvm_op e HVMOP_flush_tlbs =
      (0, some (e.current_domain.emit Event.flush_tlb_mask))) := by
  refine ⟨fun op h => ?_, fun h => ?_, fun h => ?_⟩
  · have h0 : ¬ (op = HVMOP_set_param ∨ op = HVMOP_get_param) := by
      simp only [HVMOP_set_param, HVMOP_get_param]; omega
    have h2 : ¬ op = HVMOP_set_pci_intx_level := by
      simp only [HVMOP_set_pci_intx_level]; omega
    have h3 : ¬ op = HVMOP_set_isa_irq_level := by
      simp only [HVMOP_set_isa_irq_level]; omega
    have h4 : ¬ op = HVMOP_set_pci_link_route := by
      simp only [HVMOP_set_pci_link_route]; omega
    have h5 : ¬ op = HVMOP_flush_tlbs := by
      simp only [HVMOP_flush_tlbs]; omega
    rw [do_hvm_op, if_neg h0, if_neg h2, if_neg h3, if_neg h4, if_neg h5]
  · rw [do_hvm_op, if_neg (by decide), if_neg (by decide), if_neg (by decide),
      if_neg (by decide), if_pos rfl, h]
    rfl
  · rw [do_hvm_op, if_neg (by decide), if_neg (by decide), if_neg (by decide),
      if_neg (by decide), if_pos rfl, h]
    rfl

theorem domain.iorp_trace_irrelevant (d : domain) (t : List Event) (w : iorp_sel) :
    ({ d with trace := t } : domain).iorp w = d.iorp w := by
  cases w <;> rfl

theorem domain.iorp_set_iorp (d : domain) (w : iorp_sel) (p : hvm_ioreq_page) :
    (d.set_iorp w p).iorp w = p := by
  cases w <;> rfl

/-- The five ways through `hvm_set_ioreq_page`, each with its return value
and the domain it leaves. -/
theorem hvm_set_ioreq_page_cases (h : host) (d : domain) (w : iorp_sel) (gmfn : Nat)
    (mfn page va : Nat) (e1 : mfn = h.gmfn_to_mfn gmfn) (e2 : page = h.mfn_to_page mfn)
    (e3 : va = h.map_domain_page_global mfn) :
    (h.mfn_valid mfn = false ∧ hvm_set_ioreq_page h d w gmfn = (-EINVAL, d)) ∨
    (h.mfn_valid mfn = true ∧ h.get_page_and_type page = false ∧
      hvm_set_ioreq_page h d w gmfn =
        (-EINVAL, { d with trace := d.trace ++ [Event.get_page_and_type page false] })) ∨
    (h.mfn_valid mfn = true ∧ h.get_page_and_type page = true ∧ va = NULL ∧
      hvm_set_ioreq_page h d w gmfn =
        (-ENOMEM, { d with trace := d.trace ++
          [Event.get_page_and_type page true, Event.map_domain_page_global mfn va,
           Event.put_page_and_type page] })) ∨
    (h.mfn_valid mfn = true ∧ h.get_page_and_type page = true ∧ va ≠ NULL ∧
      ((d.iorp w).va ≠ NULL ∨ d.is_dying = true) ∧
      hvm_set_ioreq_page h d w gmfn =
        (-EINVAL, { d with trace := d.trace ++
          [Event.get_page_and_type page true, Event.map_domain_page_global mfn va,
           Event.spin_lock w, Event.spin_unlock w,
           Event.unmap_domain_page_global va, Event.put_page_and_type page] })) ∨
    (h.mfn_valid mfn = true ∧ h.get_page_and_type page = true ∧ va ≠ NULL ∧
      (d.iorp w).va = NULL ∧ d.is_dying = false ∧
      hvm_set_ioreq_page h d w gmfn =
        (0, { d.set_iorp w { va := va, page := page } with trace := d.trace ++
          [Event.get_page_and_type page true, Event.map_domain_page_global mfn va,
           Event.spin_lock w, Event.spin_unlock w, Event.domain_unpause] })) := by
  subst e1 e2 e3
  by_cases hv : h.mfn_valid (h.gmfn_to_mfn gmfn) = true
  · by_cases hg : h.get_page_and_type (h.mfn_to_page (h.gmfn_to_mfn gmfn)) = true
    · by_cases hm : h.map_domain_page_global (h.gmfn_to_mfn gmfn) = NULL
      · right; right; left
        refine ⟨hv, hg, hm, ?_⟩
        simp only [hvm_set_ioreq_page]
        simp [hv, hg, hm, domain.emit]
      · by_cases hb : (d.iorp w).va ≠ NULL ∨ d.is_dying = true
        · right; right; right; left
          refine ⟨hv, hg, hm, hb, ?_⟩
          simp only [hvm_set_ioreq_page]
          simp [hv, hg, hm, domain.emit, domain.iorp_trace_irrelevant, hb]
        · right; right; right; right
          have hb1 : (d.iorp w).va = NULL := by
            by_contra hc; exact hb (Or.inl hc)
          have hb2 : d.is_dying = false := by
            cases hd : d.is_dying
            · rfl
            · exact absurd (Or.inr hd) hb
          refine ⟨hv, hg, hm, hb1, hb2, ?_⟩
          simp only [hvm_set_ioreq_page]
          cases w <;>
            simp [hv, hg, hm, domain.emit, domain.iorp, domain.set_iorp, hb2] <;>
            simpa [domain.iorp] using hb1
    · right; left
      have hg' : h.get_page_and_type (h.mfn_to_page (h.gmfn_to_mfn gmfn)) = false := by simpa using hg
      refine ⟨hv, hg', ?_⟩
      simp only [hvm_set_ioreq_page]
      simp [hv, hg', domain.emit]
  · left
    have hv' : h.mfn_valid (h.gmfn_to_mfn gmfn) = false := by simpa using hv
    refine ⟨hv', ?_⟩
    simp only [hvm_set_ioreq_page]
    simp [hv']

/-- C5: when the ioreq page is already bound, or the domain is dying,
`hvm_set_ioreq_page` fails for every frame number with -EINVAL or -ENOMEM.
The domain is left as it was apart from its trace (so `va` and `page` keep
their values); the calls it adds contain no `domain_unpause`, drop every page
reference they took and remove every global mapping they created; when the
new frame was valid, pinned and mapped, the calls are exactly: pin, map,
lock, unlock, unmap of the new mapping, unpin of the new page. -/
theorem hvm_set_ioreq_page_bound_or_dying (h : host) (d : domain) (w : iorp_sel) (gmfn : Nat)
    (hb : (d.iorp w).va ≠ NULL ∨ d.is_dying = true) :
    ∃ new : List Event,
      (hvm_set_ioreq_page h d w gmfn).2 = { d with trace := d.trace ++ new } ∧
      ((hvm_set_ioreq_page h d w gmfn).2.iorp w) = d.iorp w ∧
      ((hvm_set_ioreq_page h d w gmfn).1 = -EINVAL ∨
        (hvm_set_ioreq_page h d w gmfn).1 = -ENOMEM) ∧
      (hvm_set_ioreq_page h d w gmfn).1 ≠ 0 ∧
      Event.domain_unpause ∉ new ∧
      (∀ page, refs_taken new page = refs_dropped new page) ∧
      maps_made new = maps_undone new ∧
      (h.mfn_valid (h.gmfn_to_mfn gmfn) = true →
        h.get_page_and_type (h.mfn_to_page (h.gmfn_to_mfn gmfn)) = true →
        h.map_domain_page_global (h.gmfn_to_mfn gmfn) ≠ NULL →
        new =
          [Event.get_page_and_type (h.mfn_to_page (h.gmfn_to_mfn gmfn)) true,
           Event.map_domain_page_global (h.gmfn_to_mfn gmfn)
             (h.map_domain_page_global (h.gmfn_to_mfn gmfn)),
           Event.spin_lock w, Event.spin_unlock w,
           Event.unmap_domain_page_global (h.map_domain_page_global (h.gmfn_to_mfn gmfn)),
           Event.put_page_and_type (h.mfn_to_page (h.gmfn_to_mfn gmfn))]) := by
  rcases hvm_set_ioreq_page_cases h d w gmfn _ _ _ rfl rfl rfl with
    ⟨hv, e⟩ | ⟨hv, hg, e⟩ | ⟨hv, hg, hm, e⟩ | ⟨hv, hg, hm, _, e⟩ | ⟨_, _, _, h1, h2, _⟩
  · refine ⟨[], ?_⟩
    rw [e]
    simp [EINVAL, refs_taken, refs_dropped, maps_made, maps_undone, hv]
  · refine ⟨[Event.get_page_and_type (h.mfn_to_page (h.gmfn_to_mfn gmfn)) false], ?_⟩
    rw [e]
    simp [EINVAL, refs_taken, refs_dropped, maps_made, maps_undone, hg, Event.is_map,
      Event.is_unmap, domain.iorp_trace_irrelevant, List.count_cons]
  · refine ⟨[Event.get_page_and_type (h.mfn_to_page (h.gmfn_to_mfn gmfn)) true,
      Event.map_domain_page_global (h.gmfn_to_mfn gmfn)
        (h.map_domain_page_global (h.gmfn_to_mfn gmfn)),
      Event.put_page_and_type (h.mfn_to_page (h.gmfn_to_mfn gmfn))], ?_⟩
    rw [e]
    simp only [NULL] at hm
    simp [ENOMEM, refs_taken, refs_dropped, maps_made, maps_undone, hm, Event.is_map,
      Event.is_unmap, domain.iorp_trace_irrelevant, List.count_cons, NULL]
  · refine ⟨[Event.get_page_and_type (h.mfn_to_page (h.gmfn_to_mfn gmfn)) true,
      Event.map_domain_page_global (h.gmfn_to_mfn gmfn)
        (h.map_domain_page_global (h.gmfn_to_mfn gmfn)),
      Event.spin_lock w, Event.spin_unlock w,
      Event.unmap_domain_page_global (h.map_domain_page_global (h.gmfn_to_mfn gmfn)),
      Event.put_page_and_type (h.mfn_to_page (h.gmfn_to_mfn gmfn))], ?_⟩
    rw [e]
    simp only [NULL, ne_eq] at hm
    simp [EINVAL, refs_taken, refs_dropped, maps_made, maps_undone, hm, Event.is_map,
      Event.is_unmap, domain.iorp_trace_irrelevant, List.count_cons, NULL]
  · rcases hb with hb | hb
    · exact absurd h1 hb
    · rw [h2] at hb; exact absurd hb (by decide)

theorem hvm_set_ioreq_page_bound_or_dying_witness :
    ∃ new : List Event,
      (hvm_set_ioreq_page generous_host bound_domain iorp_sel.ioreq 42).2
        = { bound_domain with trace := bound_domain.trace ++ new } ∧
      (hvm_set_ioreq_page generous_host bound_domain iorp_sel.ioreq 42).1 ≠ 0 ∧
      Event.domain_unpause ∉ new :=
  have ⟨new, h1, _, _, h4, h5, _⟩ :=
    hvm_set_ioreq_page_bound_or_dying generous_host bound_domain iorp_sel.ioreq 42
      (Or.inl (by decide))
  ⟨new, h1, h4, h5⟩

example :
    hvm_set_ioreq_page generous_host bound_domain iorp_sel.ioreq 42 =
      (-EINVAL, { bound_domain with trace :=
        [Event.get_page_and_type 1042 true, Event.map_domain_page_global 42 5042,
         Event.spin_lock iorp_sel.ioreq, Event.spin_unlock iorp_sel.ioreq,
         Event.unmap_domain_page_global 5042, Event.put_page_and_type 1042] }) := by
  decide

/-- C8: for a dying domain, one `hvm_destroy_ioreq_page` leaves `va` null, and
a second one changes nothing in the domain: it only takes and releases the
lock, with no unmap and no dropped reference.  Over both calls at most one
mapping is removed and at most one page reference is dropped. -/
theorem hvm_destroy_ioreq_page_idempotent (d : domain) (w : iorp_sel)
    (hd : d.is_dying = true) :
    ((hvm_destroy_ioreq_page d w).iorp w).va = NULL ∧
    hvm_destroy_ioreq_page (hvm_destroy_ioreq_page d w) w =
      { hvm_destroy_ioreq_page d w with
        trace := (hvm_destroy_ioreq_page d w).trace ++
          [Event.spin_lock w, Event.spin_unlock w] } ∧
    ∃ new : List Event,
      (hvm_destroy_ioreq_page (hvm_destroy_ioreq_page d w) w).trace = d.trace ++ new ∧
      maps_undone new ≤ 1 ∧ puts new ≤ 1 ∧ Event.assert_failed ∉ new := by
  by_cases hva : (d.iorp w).va = NULL
  · refine ⟨?_, ?_, [Event.spin_lock w, Event.spin_unlock w, Event.spin_lock w,
      Event.spin_unlock w], ?_, ?_⟩ <;>
    cases w <;>
      simp only [domain.iorp] at hva <;>
      simp [hvm_destroy_ioreq_page, domain.emit, domain.iorp, domain.set_iorp, hd, hva,
        maps_undone, puts, Event.is_unmap, Event.is_put]
  · refine ⟨?_, ?_, [Event.spin_lock w, Event.unmap_domain_page_global (d.iorp w).va,
      Event.put_page_and_type (d.iorp w).page, Event.spin_unlock w, Event.spin_lock w,
      Event.spin_unlock w], ?_, ?_⟩ <;>
    cases w <;>
      simp only [domain.iorp] at hva <;>
      simp [hvm_destroy_ioreq_page, domain.emit, domain.iorp, domain.set_iorp, hd, hva,
        maps_undone, puts, Event.is_unmap, Event.is_put]

theorem hvm_set_ioreq_page_summary (h : host) (d : domain) (w : iorp_sel) (gmfn : Nat) :
    ((hvm_set_ioreq_page h d w gmfn).1 = 0 ∧ (d.iorp w).va = NULL ∧ d.is_dying = false ∧
        ((hvm_set_ioreq_page h d w gmfn).2.iorp w).va ≠ NULL ∧
        unpauses (hvm_set_ioreq_page h d w gmfn).2.trace = unpauses d.trace + 1 ∨
      (hvm_set_ioreq_page h d w gmfn).1 ≠ 0 ∧
        (hvm_set_ioreq_page h d w gmfn).2.iorp w = d.iorp w ∧
        unpauses (hvm_set_ioreq_page h d w gmfn).2.trace = unpauses d.trace) ∧
    pauses (hvm_set_ioreq_page h d w gmfn).2.trace = pauses d.trace ∧
    (∀ w', w' ≠ w → (hvm_set_ioreq_page h d w gmfn).2.iorp w' = d.iorp w') := by
  rcases hvm_set_ioreq_page_cases h d w gmfn _ _ _ rfl rfl rfl with
    ⟨_, e⟩ | ⟨_, _, e⟩ | ⟨_, _, _, e⟩ | ⟨_, _, _, _, e⟩ | ⟨_, _, hm, h1, h2, e⟩
  · rw [e]; simp [EINVAL]
  · rw [e]
    simp [EINVAL, domain.iorp_trace_irrelevant, pauses, unpauses, List.count_cons]
  · rw [e]
    simp [ENOMEM, domain.iorp_trace_irrelevant, pauses, unpauses, List.count_cons]
  · rw [e]
    simp [EINVAL, domain.iorp_trace_irrelevant, pauses, unpauses, List.count_cons]
  · rw [e]
    refine ⟨Or.inl ⟨rfl, h1, h2, ?_, ?_⟩, ?_, ?_⟩
    · cases w <;> simpa [domain.iorp, domain.set_iorp] using hm
    · simp [unpauses, List.count_cons]
    · simp [pauses, List.count_cons]
    · intro w' hw
      cases w <;> cases w' <;> simp_all [domain.iorp, domain.set_iorp]

theorem hvm_destroy_ioreq_page_va (d : domain) (w : iorp_sel) :
    ((hvm_destroy_ioreq_page d w).iorp w).va = NULL := by
  by_cases hva : (d.iorp w).va = NULL <;> cases hd : d.is_dying <;> cases w <;>
    simp only [domain.iorp] at hva <;>
    simp [hvm_destroy_ioreq_page, domain.emit, domain.iorp, domain.set_iorp, hd, hva]

theorem iorp_history_dying (w : iorp_sel) (steps : List iorp_step) (d : domain)
    (hdy : ∀ s ∈ steps, s.is_dying = true) :
    (∀ r ∈ iorp_history w d steps, r.1 ≠ some 0) ∧
    ((d.iorp w).va = NULL → ∀ r ∈ iorp_history w d steps, (r.2.iorp w).va = NULL) := by
  induction steps generalizing d with
  | nil => simp [iorp_history]
  | cons s ss ih =>
    have hs : s.is_dying = true := hdy s (List.mem_cons_self _ _)
    have hss : ∀ t ∈ ss, t.is_dying = true := fun t ht => hdy t (List.mem_cons_of_mem _ ht)
    have key : (iorp_apply w d s).1 ≠ some 0 ∧
        ((d.iorp w).va = NULL → ((iorp_apply w d s).2.iorp w).va = NULL) := by
      cases hc : s.call with
      | destroy =>
        simp only [iorp_apply, hc]
        exact ⟨by simp, fun _ => hvm_destroy_ioreq_page_va _ w⟩
      | set mm gmfn =>
        simp only [iorp_apply, hc]
        rcases (hvm_set_ioreq_page_summary mm { d with is_dying := s.is_dying } w gmfn).1 with
          ⟨_, _, h2, _⟩ | ⟨h0, h1, _⟩
        · simp [hs] at h2
        · refine ⟨by simpa using h0, fun hv => ?_⟩
          rw [h1]
          cases w <;> simpa [domain.iorp] using hv
    obtain ⟨ih1, ih2⟩ := ih (iorp_apply w d s).2 hss
    constructor
    · intro r hr
      simp only [iorp_history, List.mem_cons] at hr
      rcases hr with rfl | hr
      · exact key.1
      · exact ih1 r hr
    · intro hv r hr
      simp only [iorp_history, List.mem_cons] at hr
      rcases hr with rfl | hr
      · exact key.2 hv
      · exact ih2 (key.2 hv) r hr

theorem iorp_history_count (w : iorp_sel) (steps : List iorp_step) (d : domain)
    (hmono : steps.Pairwise (fun a b => a.is_dying = true → b.is_dying = true))
    (hdestroy : ∀ s ∈ steps, s.call.is_destroy = true → s.is_dying = true) :
    (iorp_history w d steps).countP bound_ok ≤ (if (d.iorp w).va = NULL then 1 else 0) := by
  induction steps generalizing d with
  | nil => simp [iorp_history]
  | cons s ss ih =>
    rw [List.pairwise_cons] at hmono
    have hss : ∀ t ∈ ss, t.call.is_destroy = true → t.is_dying = true :=
      fun t ht => hdestroy t (List.mem_cons_of_mem _ ht)
    cases hs : s.is_dying with
    | true =>
      have hall : ∀ t ∈ s :: ss, t.is_dying = true := by
        intro t ht
        rcases List.mem_cons.mp ht with rfl | ht
        · exact hs
        · exact hmono.1 t ht hs
      have hno := (iorp_history_dying w (s :: ss) d hall).1
      have : (iorp_history w d (s :: ss)).countP bound_ok = 0 := by
        rw [List.countP_eq_zero]
        intro r hr
        simpa [bound_ok] using hno r hr
      omega
    | false =>
      have ih' := ih (iorp_apply w d s).2 hmono.2 hss
      cases hc : s.call with
      | destroy =>
        have := hdestroy s (List.mem_cons_self _ _) (by simp [hc, iorp_call.is_destroy])
        rw [hs] at this
        exact absurd this (by decide)
      | set mm gmfn =>
        simp only [iorp_history, List.countP_cons]
        simp only [iorp_apply, hc] at ih' ⊢
        rcases (hvm_set_ioreq_page_summary mm { d with is_dying := s.is_dying } w gmfn).1 with
          ⟨h0, h1, _, h3, _⟩ | ⟨h0, h1, _⟩
        · have h1' : (d.iorp w).va = NULL := by
            cases w <;> simpa [domain.iorp] using h1
          have hb : bound_ok
              (some (hvm_set_ioreq_page mm { d with is_dying := s.is_dying } w gmfn).1,
              (hvm_set_ioreq_page mm { d with is_dying := s.is_dying } w gmfn).2) = true := by
            simp [bound_ok, h0]
          rw [if_neg h3] at ih'
          rw [hb, if_pos h1']
          simp only [if_true]
          omega
        · have e : ((hvm_set_ioreq_page mm { d with is_dying := s.is_dying } w gmfn).2.iorp w).va
              = (d.iorp w).va := by
            rw [h1]; cases w <;> rfl
          rw [e] at ih'
          have : bound_ok (some (hvm_set_ioreq_page mm { d with is_dying := s.is_dying } w gmfn).1,
              (hvm_set_ioreq_page mm { d with is_dying := s.is_dying } w gmfn).2) = false := by
            simpa [bound_ok] using h0
          rw [this]
          simpa using ih'

/-- C6: after `hvm_init_ioreq_page`, over every sequence of
`hvm_set_ioreq_page` and `hvm_destroy_ioreq_page` calls on the page in which
the dying flag, once set, stays set and destroy is only called while it is
set, at most one bind returns 0, and after a destroy no later bind returns 0
and the mapping stays null. -/
theorem ioreq_page_bound_at_most_once (w : iorp_sel) (d : domain) (steps : List iorp_step)
    (hmono : steps.Pairwise (fun a b => a.is_dying = true → b.is_dying = true))
    (hdestroy : ∀ s ∈ steps, s.call.is_destroy = true → s.is_dying = true) :
    (iorp_history w (hvm_init_ioreq_page d w) steps).countP bound_ok ≤ 1 ∧
    ∀ pre s post, steps = pre ++ s :: post → s.call.is_destroy = true →
      ∀ r ∈ (iorp_history w (hvm_init_ioreq_page d w) steps).drop (pre.length + 1),
        r.1 ≠ some 0 ∧ (r.2.iorp w).va = NULL := by
  constructor
  · have := iorp_history_count w steps (hvm_init_ioreq_page d w) hmono hdestroy
    split at this <;> omega
  · intro pre
    generalize hvm_init_ioreq_page d w = d0
    induction pre generalizing d0 steps with
    | nil =>
      intro s post hsteps hd r hr
      subst hsteps
      simp only [List.nil_append] at hmono hdestroy hr
      rw [List.pairwise_cons] at hmono
      have hs : s.is_dying = true := hdestroy s (List.mem_cons_self _ _) hd
      have hall : ∀ t ∈ post, t.is_dying = true := fun t ht => hmono.1 t ht hs
      have hva : ((iorp_apply w d0 s).2.iorp w).va = NULL := by
        cases hc : s.call with
        | destroy => simp only [iorp_apply, hc]; exact hvm_destroy_ioreq_page_va _ w
        | set mm gmfn => simp [hc, iorp_call.is_destroy] at hd
      have hA := iorp_history_dying w post (iorp_apply w d0 s).2 hall
      simp only [iorp_history, List.length_nil, Nat.zero_add, List.drop_succ_cons,
        List.drop_zero] at hr
      exact ⟨hA.1 r hr, hA.2 hva r hr⟩
    | cons p pre ih =>
      intro s post hsteps hd r hr
      subst hsteps
      rw [List.cons_append, List.pairwise_cons] at hmono
      have hd' : ∀ t ∈ pre ++ s :: post, t.call.is_destroy = true → t.is_dying = true :=
        fun t ht => hdestroy t (List.mem_cons_of_mem _ ht)
      simp only [List.cons_append, iorp_history, List.length_cons, List.drop_succ_cons] at hr
      exact ih (pre ++ s :: post) hmono.2 hd' (iorp_apply w d0 p).2 s post rfl hd r hr

theorem ioreq_page_bound_at_most_once_witness :
    (iorp_history iorp_sel.ioreq (hvm_init_ioreq_page bound_domain iorp_sel.ioreq)
      sample_steps).countP bound_ok ≤ 1 ∧
    ∀ r ∈ (iorp_history iorp_sel.ioreq (hvm_init_ioreq_page bound_domain iorp_sel.ioreq)
        sample_steps).drop 3,
      r.1 ≠ some 0 ∧ (r.2.iorp iorp_sel.ioreq).va = NULL :=
  have h := ioreq_page_bound_at_most_once iorp_sel.ioreq bound_domain sample_steps
    (by simp [sample_steps]) (by simp [sample_steps, iorp_call.is_destroy])
  ⟨h.1, h.2 [⟨false, iorp_call.set generous_host 42⟩, ⟨false, iorp_call.set generous_host 43⟩]
    ⟨true, iorp_call.destroy⟩ [⟨true, iorp_call.set generous_host 44⟩] rfl rfl⟩

example :
    (iorp_history iorp_sel.ioreq (hvm_init_ioreq_page bound_domain iorp_sel.ioreq)
      sample_steps).map Prod.fst = [some 0, some (-EINVAL), none, some (-EINVAL)] := by
  decide

theorem hvm_destroy_ioreq_page_idempotent_witness :
    ((hvm_destroy_ioreq_page dying_domain iorp_sel.ioreq).iorp iorp_sel.ioreq).va = NULL ∧
    hvm_destroy_ioreq_page (hvm_destroy_ioreq_page dying_domain iorp_sel.ioreq) iorp_sel.ioreq =
      { hvm_destroy_ioreq_page dying_domain iorp_sel.ioreq with
        trace := (hvm_destroy_ioreq_page dying_domain iorp_sel.ioreq).trace ++
          [Event.spin_lock iorp_sel.ioreq, Event.spin_unlock iorp_sel.ioreq] } :=
  have h := hvm_destroy_ioreq_page_idempotent dying_domain iorp_sel.ioreq rfl
  ⟨h.1, h.2.1⟩

example :
    hvm_destroy_ioreq_page dying_domain iorp_sel.ioreq =
      { dying_domain with
        ioreq := ⟨0, 1100⟩,
        trace := [Event.spin_lock iorp_sel.ioreq, Event.unmap_domain_page_global 5100,
          Event.put_page_and_type 1100, Event.spin_unlock iorp_sel.ioreq] } := by
  decide

theorem bind_apply_accounting (d : domain) (c : bind_call) :
    pauses (bind_apply d c).2.trace = pauses d.trace ∧
    ((bind_apply d c).1 = 0 ∧
        unpauses (bind_apply d c).2.trace = unpauses d.trace + 1 ∧
        unbound_pages d = unbound_pages (bind_apply d c).2 + 1 ∨
      (bind_apply d c).1 ≠ 0 ∧
        unpauses (bind_apply d c).2.trace = unpauses d.trace ∧
        unbound_pages d = unbound_pages (bind_apply d c).2) := by
  obtain ⟨hres, hp, hother⟩ :=
    hvm_set_ioreq_page_summary c.mm { d with is_dying := c.is_dying } c.iorp c.gmfn
  refine ⟨by simpa [bind_apply] using hp, ?_⟩
  simp only [bind_apply]
  generalize hvm_set_ioreq_page c.mm { d with is_dying := c.is_dying } c.iorp c.gmfn = r
    at hres hp hother
  cases hw : c.iorp with
  | ioreq =>
    have ho := hother iorp_sel.buf_ioreq (by rw [hw]; decide)
    rw [hw] at hres
    simp only [domain.iorp] at ho hres
    rcases hres with ⟨h0, h1, _, h3, h4⟩ | ⟨h0, h1, h4⟩
    · left
      refine ⟨h0, by simpa using h4, ?_⟩
      simp [unbound_pages, h1, h3, ho]
      omega
    · right
      refine ⟨h0, by simpa using h4, ?_⟩
      simp [unbound_pages, h1, ho]
  | buf_ioreq =>
    have ho := hother iorp_sel.ioreq (by rw [hw]; decide)
    rw [hw] at hres
    simp only [domain.iorp] at ho hres
    rcases hres with ⟨h0, h1, _, h3, h4⟩ | ⟨h0, h1, h4⟩
    · left
      refine ⟨h0, by simpa using h4, ?_⟩
      simp [unbound_pages, h1, h3, ho]
    · right
      refine ⟨h0, by simpa using h4, ?_⟩
      simp [unbound_pages, h1, ho]

theorem bind_run_accounting (calls : List bind_call) (d : domain) :
    pauses (bind_run d calls).trace = pauses d.trace ∧
    unpauses (bind_run d calls).trace + unbound_pages (bind_run d calls)
      = unpauses d.trace + unbound_pages d ∧
    (bind_history d calls).countP (fun r => decide (r.1 = 0)) + unbound_pages (bind_run d calls)
      = unbound_pages d := by
  induction calls generalizing d with
  | nil => simp [bind_run, bind_history]
  | cons c cs ih =>
    obtain ⟨i1, i2, i3⟩ := ih (bind_apply d c).2
    obtain ⟨a1, a2⟩ := bind_apply_accounting d c
    simp only [bind_run, bind_history, List.countP_cons]
    refine ⟨by rw [i1, a1], ?_, ?_⟩
    · rcases a2 with ⟨_, b2, b3⟩ | ⟨_, b2, b3⟩ <;> omega
    · rcases a2 with ⟨b1, _, b3⟩ | ⟨b1, _, b3⟩
      · simp only [b1, decide_True, if_true]; omega
      · simp only [b1, decide_False]; simp; omega

theorem hvm_set_ioreq_page_trace (h : host) (d : domain) (w : iorp_sel) (gmfn : Nat) :
    ∃ new, (hvm_set_ioreq_page h d w gmfn).2.trace = d.trace ++ new := by
  rcases hvm_set_ioreq_page_cases h d w gmfn _ _ _ rfl rfl rfl with
    ⟨_, e⟩ | ⟨_, _, e⟩ | ⟨_, _, _, e⟩ | ⟨_, _, _, _, e⟩ | ⟨_, _, _, _, _, e⟩ <;>
  rw [e]
  · exact ⟨[], by simp⟩
  all_goals exact ⟨_, rfl⟩

theorem bind_run_trace (calls : List bind_call) (d : domain) :
    ∃ new, (bind_run d calls).trace = d.trace ++ new := by
  induction calls generalizing d with
  | nil => exact ⟨[], by simp [bind_run]⟩
  | cons c cs ih =>
    obtain ⟨n1, h1⟩ := hvm_set_ioreq_page_trace c.mm { d with is_dying := c.is_dying } c.iorp c.gmfn
    obtain ⟨n2, h2⟩ := ih (bind_apply d c).2
    refine ⟨n1 ++ n2, ?_⟩
    simp only [bind_run]
    rw [h2]
    simp only [bind_apply]
    rw [h1, List.append_assoc]

/-- C7: `hvm_init_ioreq_page` leaves the page unbound and calls `domain_pause`
once; `hvm_set_ioreq_page` never pauses and calls `domain_unpause` once when
it returns 0 and not at all otherwise.  After `hvm_domain_initialise` has
initialised both pages, and after any sequence of bind requests on them, the
pauses made by this code exceed its unpauses by exactly the number of pages
whose mapping is null, which is two minus the number of binds that returned
0; so while a page is still unmapped the unpauses have not caught up with
the pauses. -/
theorem ioreq_pause_accounting (d : domain) (w : iorp_sel) (h : host) (gmfn : Nat)
    (rc : Int) (calls : List bind_call) :
    ((hvm_init_ioreq_page d w).iorp w).va = NULL ∧
    (hvm_init_ioreq_page d w).trace = d.trace ++ [Event.domain_pause] ∧
    pauses (hvm_set_ioreq_page h d w gmfn).2.trace = pauses d.trace ∧
    unpauses (hvm_set_ioreq_page h d w gmfn).2.trace =
      unpauses d.trace + (if (hvm_set_ioreq_page h d w gmfn).1 = 0 then 1 else 0) ∧
    unbound_pages (hvm_domain_initialise true 0 rc d).2 = 2 ∧
    ∃ new : List Event,
      (bind_run (hvm_domain_initialise true 0 rc d).2 calls).trace = d.trace ++ new ∧
      pauses new = 2 ∧
      pauses new =
        unpauses new + unbound_pages (bind_run (hvm_domain_initialise true 0 rc d).2 calls) ∧
      (bind_history (hvm_domain_initialise true 0 rc d).2 calls).countP
          (fun r => decide (r.1 = 0))
        + unbound_pages (bind_run (hvm_domain_initialise true 0 rc d).2 calls) = 2 ∧
      (unbound_pages (bind_run (hvm_domain_initialise true 0 rc d).2 calls) ≠ 0 →
        unpauses new < pauses new) := by
  have hinit : (hvm_domain_initialise true 0 rc d).2 =
      { d with ioreq := ⟨0, 0⟩, buf_ioreq := ⟨0, 0⟩,
               trace := d.trace ++ [Event.vpic_init, Event.vioapic_init,
                 Event.domain_pause, Event.domain_pause] } := by
    simp [hvm_domain_initialise, hvm_init_ioreq_page, domain.emit, domain.set_iorp]
  have hub : unbound_pages (hvm_domain_initialise true 0 rc d).2 = 2 := by
    rw [hinit]; simp [unbound_pages, NULL]
  refine ⟨?_, ?_, ?_, ?_, hub, ?_⟩
  · cases w <;> simp [hvm_init_ioreq_page, domain.emit, domain.iorp, domain.set_iorp, NULL]
  · cases w <;> simp [hvm_init_ioreq_page, domain.emit, domain.set_iorp]
  · exact (hvm_set_ioreq_page_summary h d w gmfn).2.1
  · rcases (hvm_set_ioreq_page_summary h d w gmfn).1 with ⟨h0, _, _, _, h4⟩ | ⟨h0, _, h4⟩
    · rw [h4, if_pos h0]
    · rw [h4, if_neg h0]; rfl
  · obtain ⟨new, hnew⟩ := bind_run_trace calls (hvm_domain_initialise true 0 rc d).2
    obtain ⟨c1, c2, c3⟩ := bind_run_accounting calls (hvm_domain_initialise true 0 rc d).2
    rw [hub] at c2 c3
    rw [hnew] at c1 c2
    have t0 : (hvm_domain_initialise true 0 rc d).2.trace =
        d.trace ++ [Event.vpic_init, Event.vioapic_init,
          Event.domain_pause, Event.domain_pause] := by rw [hinit]
    rw [t0] at hnew c1 c2
    simp only [pauses, unpauses, List.count_append] at c1 c2
    have p4 : List.count Event.domain_pause [Event.vpic_init, Event.vioapic_init,
        Event.domain_pause, Event.domain_pause] = 2 := by decide
    have u4 : List.count Event.domain_unpause [Event.vpic_init, Event.vioapic_init,
        Event.domain_pause, Event.domain_pause] = 0 := by decide
    rw [p4] at c1
    rw [u4] at c2
    refine ⟨[Event.vpic_init, Event.vioapic_init, Event.domain_pause, Event.domain_pause]
      ++ new, by rw [hnew, List.append_assoc], ?_, ?_, c3, ?_⟩
    · simp only [pauses, List.count_append, p4]; omega
    · simp only [pauses, unpauses, List.count_append, p4, u4]; omega
    · intro hne
      simp only [pauses, unpauses, List.count_append, p4, u4]; omega

theorem ioreq_pause_accounting_witness :
    ∃ new : List Event,
      (bind_run (hvm_domain_initialise true 0 0 fresh_domain).2
        [⟨false, iorp_sel.ioreq, generous_host, 42⟩]).trace = fresh_domain.trace ++ new ∧
      unpauses new < pauses new :=
  have ⟨new, h1, _, _, _, h5⟩ :=
    (ioreq_pause_accounting fresh_domain iorp_sel.ioreq generous_host 42 0
      [⟨false, iorp_sel.ioreq, generous_host, 42⟩]).2.2.2.2.2
  ⟨new, h1, h5 (by decide)⟩

example :
    (bind_history (hvm_domain_initialise true 0 0 fresh_domain).2
      [⟨false, iorp_sel.ioreq, generous_host, 42⟩, ⟨false, iorp_sel.ioreq, generous_host, 43⟩,
       ⟨false, iorp_sel.buf_ioreq, generous_host, 44⟩]).map Prod.fst = [0, -EINVAL, 0] := by
  decide

/-! ## Theorems: hypercall dispatcher -/

theorem designated_isSome (inits : List (Nat × handler)) (nr : Nat) :
    (designated inits nr).isSome = decide (nr ∈ inits.map Prod.fst) := by
  simp only [designated, Option.isSome_map']
  rw [Bool.eq_iff_iff]
  simp only [List.find?_isSome, List.mem_reverse, decide_eq_true_eq, List.mem_map]

theorem hypercall_tables_same_domain (arch : Arch) (k : xen_h) (nr : Nat) :
    (hvm_hypercall64_table k nr).isSome = (hvm_hypercall32_table arch k nr).isSome := by
  simp only [hvm_hypercall64_table, hvm_hypercall32_table, designated_isSome]
  cases arch <;> simp

theorem hvm_do_hypercall_body_enosys (e : hcall_env) (eax : Nat) (s : pcpu)
    (hnr : eax ≥ e.k.NR_hypercalls ∨ hvm_hypercall32_table e.arch e.k eax = none) :
    ∃ new : List Event,
      hvm_do_hypercall_body e eax s =
        some (HVM_HCALL_completed,
          { s with regs := { s.regs with eax := to_reg e.arch.bits (-ENOSYS) },
                   trace := s.trace ++ new }) ∧
      handler_calls new = 0 := by
  by_cases hge : eax ≥ e.k.NR_hypercalls
  · exact ⟨[], by simp [hvm_do_hypercall_body, hge, hcall_fail], rfl⟩
  · have hn : hvm_hypercall32_table e.arch e.k eax = none := by
      rcases hnr with h | h
      · exact absurd h hge
      · exact h
    refine ⟨[Event.read_table hcall_table.hvm_hypercall32_table eax], ?_, rfl⟩
    simp [hvm_do_hypercall_body, hge, hn, hcall_fail, pcpu.emit]

theorem hvm_do_hypercall_body_bound (e : hcall_env) (eax : Nat) (s : pcpu)
    (hlt : eax < e.k.NR_hypercalls)
    (hb : (hvm_hypercall32_table e.arch e.k eax).isSome = true) :
    ∃ (code : Nat) (s' : pcpu) (new : List Event),
      hvm_do_hypercall_body e eax s = some (code, s') ∧
      s'.trace = s.trace ++ new ∧ handler_calls new = 1 := by
  have hge : ¬ eax ≥ e.k.NR_hypercalls := by omega
  have hb64 : (hvm_hypercall64_table e.k eax).isSome = true := by
    rw [hypercall_tables_same_domain e.arch]; exact hb
  obtain ⟨f32, hf32⟩ := Option.isSome_iff_exists.mp hb
  obtain ⟨f64, hf64⟩ := Option.isSome_iff_exists.mp hb64
  by_cases h8 : e.arch = Arch.x86_64 ∧ e.hvm_guest_x86_mode = 8
  · have hf32' := hf32
    rw [h8.1] at hf32'
    exact ⟨_, _, [Event.read_table hcall_table.hvm_hypercall32_table eax,
      Event.read_table hcall_table.hvm_hypercall64_table eax,
      Event.call_handler hcall_table.hvm_hypercall64_table eax
        [s.regs.edi, s.regs.esi, s.regs.edx, s.regs.r10, s.regs.r8]],
      (by
        simp only [hvm_do_hypercall_body, hge, if_false, hf32', Option.isNone_some, h8.1,
          h8.2, and_self, if_true, hcall_invoke, hf64, pcpu.emit, Bool.false_eq_true]
        rfl),
      (by simp), rfl⟩
  · exact ⟨_, _, [Event.read_table hcall_table.hvm_hypercall32_table eax,
      Event.read_table hcall_table.hvm_hypercall32_table eax,
      Event.call_handler hcall_table.hvm_hypercall32_table eax
        [s.regs.ebx % 2 ^ 32, s.regs.ecx % 2 ^ 32, s.regs.edx % 2 ^ 32,
         s.regs.esi % 2 ^ 32, s.regs.edi % 2 ^ 32]],
      (by
        simp only [hvm_do_hypercall_body, hge, if_false, hf32, Option.isNone_some, h8,
          hcall_invoke, pcpu.emit, Bool.false_eq_true]
        rfl),
      (by simp), rfl⟩

theorem hvm_do_hypercall_permitted (e : hcall_env) (s : pcpu)
    (hperm : e.hvm_guest_x86_mode = 0 ∨
      (((e.hvm_guest_x86_mode = 8 ∧ e.arch = Arch.x86_64) ∨ e.hvm_guest_x86_mode = 4 ∨
          e.hvm_guest_x86_mode = 2) ∧
        e.ring_3 (e.hvm_store_cpu_guest_regs s.regs) = false)) :
    ∃ (s1 : pcpu) (pre : List Event),
      hvm_do_hypercall e s = hvm_do_hypercall_body e (s.regs.eax % 2 ^ 32) s1 ∧
      s1.trace = s.trace ++ pre ∧ handler_calls pre = 0 ∧
      s1.hc_preempted = s.hc_preempted := by
  rcases hperm with h0 | ⟨hp, hr⟩
  · refine ⟨s, [], ?_, by simp, rfl, rfl⟩
    simp [hvm_do_hypercall, h0]
  · refine ⟨{ s with regs := e.hvm_store_cpu_guest_regs s.regs,
                     trace := s.trace ++ [Event.hvm_store_cpu_guest_regs] },
      [Event.hvm_store_cpu_guest_regs], ?_, rfl, rfl, rfl⟩
    simp only [hvm_do_hypercall, hp, if_true, pcpu.emit, hr, Bool.false_eq_true, if_false]

/-- C9: for a hypercall that passes the privilege check, when the call number
(low 32 bits of the call register) is at least NR_hypercalls or its entry in
the 32-bit table is null, `hvm_do_hypercall` stores -ENOSYS in the result
register, returns HVM_HCALL_completed, invokes no handler and leaves the
preemption flag as it was.  When the call number is NR_hypercalls - 1 the
function returns and a handler is invoked (once) exactly when that entry is
bound. -/
theorem hvm_do_hypercall_not_implemented (e : hcall_env) (s : pcpu)
    (hperm : e.hvm_guest_x86_mode = 0 ∨
      (((e.hvm_guest_x86_mode = 8 ∧ e.arch = Arch.x86_64) ∨ e.hvm_guest_x86_mode = 4 ∨
          e.hvm_guest_x86_mode = 2) ∧
        e.ring_3 (e.hvm_store_cpu_guest_regs s.regs) = false)) :
    (s.regs.eax % 2 ^ 32 ≥ e.k.NR_hypercalls ∨
        hvm_hypercall32_table e.arch e.k (s.regs.eax % 2 ^ 32) = none →
      ∃ (s' : pcpu) (new : List Event),
        hvm_do_hypercall e s = some (HVM_HCALL_completed, s') ∧
        s'.regs.eax = to_reg e.arch.bits (-ENOSYS) ∧
        s'.hc_preempted = s.hc_preempted ∧
        s'.trace = s.trace ++ new ∧ handler_calls new = 0) ∧
    (s.regs.eax % 2 ^ 32 + 1 = e.k.NR_hypercalls →
      ∃ (code : Nat) (s' : pcpu) (new : List Event),
        hvm_do_hypercall e s = some (code, s') ∧ s'.trace = s.trace ++ new ∧
        handler_calls new =
          if (hvm_hypercall32_table e.arch e.k (s.regs.eax % 2 ^ 32)).isSome then 1 else 0) := by
  obtain ⟨s1, pre, hrun, htr, hpre, hflag⟩ := hvm_do_hypercall_permitted e s hperm
  have hcount : ∀ new : List Event, handler_calls (pre ++ new) = handler_calls new := by
    intro new
    simp only [handler_calls, List.countP_append] at hpre ⊢
    omega
  have hfail : s.regs.eax % 2 ^ 32 ≥ e.k.NR_hypercalls ∨
        hvm_hypercall32_table e.arch e.k (s.regs.eax % 2 ^ 32) = none →
      ∃ (s' : pcpu) (new : List Event),
        hvm_do_hypercall e s = some (HVM_HCALL_completed, s') ∧
        s'.regs.eax = to_reg e.arch.bits (-ENOSYS) ∧
        s'.hc_preempted = s.hc_preempted ∧
        s'.trace = s.trace ++ new ∧ handler_calls new = 0 := by
    intro hnr
    obtain ⟨new, hbody, hnew⟩ := hvm_do_hypercall_body_enosys e (s.regs.eax % 2 ^ 32) s1 hnr
    refine ⟨_, pre ++ new, hrun.trans hbody, rfl, hflag, ?_, ?_⟩
    · simp only [htr, List.append_assoc]
    · rw [hcount]; exact hnew
  refine ⟨hfail, ?_⟩
  intro hlast
  cases hb : (hvm_hypercall32_table e.arch e.k (s.regs.eax % 2 ^ 32)).isSome with
  | true =>
    obtain ⟨code, s', new, hbody, hnew, hc⟩ :=
      hvm_do_hypercall_body_bound e (s.regs.eax % 2 ^ 32) s1 (by omega) hb
    refine ⟨code, s', pre ++ new, hrun.trans hbody, ?_, ?_⟩
    · rw [hnew, htr, List.append_assoc]
    · rw [hcount]; simpa using hc
  | false =>
    have hn : hvm_hypercall32_table e.arch e.k (s.regs.eax % 2 ^ 32) = none := by
      simpa using hb
    obtain ⟨s', new, h1, _, _, h4, h5⟩ := hfail (Or.inr hn)
    exact ⟨_, s', new, h1, h4, by simpa using h5⟩

/-- C10: a hypercall issued in mode 2, 4 or 8 from ring 3, or in a mode other
than 0, 2, 4 and 8, gets -EPERM in the result register and the disposition
HVM_HCALL_completed, whatever the call number; no table entry is read and no
handler is invoked, and the preemption flag is left as it was. -/
theorem hvm_do_hypercall_eperm (e : hcall_env) (s : pcpu)
    (h : ((e.hvm_guest_x86_mode = 2 ∨ e.hvm_guest_x86_mode = 4 ∨ e.hvm_guest_x86_mode = 8) ∧
          e.ring_3 (e.hvm_store_cpu_guest_regs s.regs) = true) ∨
        (e.hvm_guest_x86_mode ≠ 0 ∧ e.hvm_guest_x86_mode ≠ 2 ∧ e.hvm_guest_x86_mode ≠ 4 ∧
          e.hvm_guest_x86_mode ≠ 8)) :
    ∃ (s' : pcpu) (new : List Event),
      hvm_do_hypercall e s = some (HVM_HCALL_completed, s') ∧
      s'.regs.eax = to_reg e.arch.bits (-EPERM) ∧
      s'.hc_preempted = s.hc_preempted ∧
      s'.trace = s.trace ++ new ∧ table_reads new = 0 ∧ handler_calls new = 0 := by
  by_cases hp : (e.hvm_guest_x86_mode = 8 ∧ e.arch = Arch.x86_64) ∨
      e.hvm_guest_x86_mode = 4 ∨ e.hvm_guest_x86_mode = 2
  · have hr : e.ring_3 (e.hvm_store_cpu_guest_regs s.regs) = true := by
      rcases h with ⟨_, hr⟩ | ⟨_, h2, h4, h8⟩
      · exact hr
      · rcases hp with ⟨h, _⟩ | h | h
        · exact absurd h h8
        · exact absurd h h4
        · exact absurd h h2
    refine ⟨{ regs := { e.hvm_store_cpu_guest_regs s.regs with
                          eax := to_reg e.arch.bits (-EPERM) },
              hc_preempted := s.hc_preempted,
              trace := s.trace ++ [Event.hvm_store_cpu_guest_regs] },
      [Event.hvm_store_cpu_guest_regs], ?_, rfl, rfl, rfl, rfl, rfl⟩
    simp only [hvm_do_hypercall, hp, if_true, pcpu.emit, hr, hcall_fail]
  · have h0 : e.hvm_guest_x86_mode ≠ 0 := by
      rcases h with ⟨h, _⟩ | ⟨h0, _⟩
      · rcases h with h | h | h <;> rw [h] <;> decide
      · exact h0
    refine ⟨{ s with regs := { s.regs with eax := to_reg e.arch.bits (-EPERM) } },
      [], ?_, rfl, rfl, by simp, rfl, rfl⟩
    simp only [hvm_do_hypercall, hp, if_false, h0, hcall_fail]

theorem hvm_do_hypercall_not_implemented_witness :
    (∃ (s' : pcpu) (new : List Event),
      hvm_do_hypercall (sample_env xen_abi 0) ⟨sample_regs 64 0, true, []⟩
        = some (HVM_HCALL_completed, s') ∧
      s'.regs.eax = to_reg 64 (-ENOSYS) ∧ s'.hc_preempted = true ∧
      s'.trace = [] ++ new ∧ handler_calls new = 0) ∧
    (∃ (code : Nat) (s' : pcpu) (new : List Event),
      hvm_do_hypercall (sample_env tight_abi 4) ⟨sample_regs 34 0, false, []⟩
        = some (code, s') ∧
      s'.trace = [] ++ new ∧ handler_calls new = 1) :=
  ⟨(hvm_do_hypercall_not_implemented (sample_env xen_abi 0) ⟨sample_regs 64 0, true, []⟩
      (Or.inl rfl)).1 (Or.inl (by decide)),
   have ⟨code, s', new, h1, h2, h3⟩ :=
     (hvm_do_hypercall_not_implemented (sample_env tight_abi 4) ⟨sample_regs 34 0, false, []⟩
       (Or.inr ⟨Or.inr (Or.inl rfl), by decide⟩)).2 (by decide)
   ⟨code, s', new, h1, h2, h3.trans (by decide)⟩⟩

example :
    hvm_do_hypercall (sample_env xen_abi 0) ⟨sample_regs 64 0, true, []⟩ =
      some (HVM_HCALL_completed,
        ⟨{ sample_regs 64 0 with eax := 2 ^ 64 - 38 }, true, []⟩) := by
  decide

example :
    hvm_do_hypercall (sample_env xen_abi 8) ⟨sample_regs 63 0, true, []⟩ =
      some (HVM_HCALL_completed,
        ⟨{ sample_regs 63 0 with eax := 2 ^ 64 - 38 }, true,
         [Event.hvm_store_cpu_guest_regs,
          Event.read_table hcall_table.hvm_hypercall32_table 63]⟩) := by
  decide

example :
    hvm_do_hypercall (sample_env xen_abi 8) ⟨sample_regs 12 0, true, []⟩ =
      some (HVM_HCALL_invalidate,
        ⟨{ sample_regs 12 0 with eax := 0 }, false,
         [Event.hvm_store_cpu_guest_regs,
          Event.read_table hcall_table.hvm_hypercall32_table 12,
          Event.read_table hcall_table.hvm_hypercall64_table 12,
          Event.call_handler hcall_table.hvm_hypercall64_table 12 [5, 4, 3, 7, 6]]⟩) := by
  decide

theorem hvm_do_hypercall_eperm_witness :
    ∃ (s' : pcpu) (new : List Event),
      hvm_do_hypercall (sample_env xen_abi 4) ⟨sample_regs 12 3, true, []⟩
        = some (HVM_HCALL_completed, s') ∧
      s'.regs.eax = to_reg 64 (-EPERM) ∧ s'.hc_preempted = true ∧
      s'.trace = [] ++ new ∧ table_reads new = 0 ∧ handler_calls new = 0 :=
  hvm_do_hypercall_eperm (sample_env xen_abi 4) ⟨sample_regs 12 3, true, []⟩
    (Or.inl ⟨Or.inr (Or.inl rfl), by decide⟩)

example :
    hvm_do_hypercall (sample_env xen_abi 4) ⟨sample_regs 12 3, true, []⟩ =
      some (HVM_HCALL_completed,
        ⟨{ sample_regs 12 3 with eax := 2 ^ 64 - 1 }, true,
         [Event.hvm_store_cpu_guest_regs]⟩) := by
  decide

example :
    hvm_do_hypercall (sample_env xen_abi 16) ⟨sample_regs 12 0, true, []⟩ =
      some (HVM_HCALL_completed,
        ⟨{ sample_regs 12 0 with eax := 2 ^ 64 - 1 }, true, []⟩) := by
  decide

theorem hvm_do_hypercall_body_run64 (e : hcall_env) (eax : Nat) (s : pcpu) (f : handler)
    (hlt : eax < e.k.NR_hypercalls)
    (hb : (hvm_hypercall32_table e.arch e.k eax).isSome = true)
    (h8 : e.arch = Arch.x86_64 ∧ e.hvm_guest_x86_mode = 8)
    (hf : hvm_hypercall64_table e.k eax = some f) :
    hvm_do_hypercall_body e eax s =
      some (hcall_disposition e.k
              (e.run f [s.regs.edi, s.regs.esi, s.regs.edx, s.regs.r10, s.regs.r8]).2 eax,
        { regs := { s.regs with eax :=
            (e.run f [s.regs.edi, s.regs.esi, s.regs.edx, s.regs.r10, s.regs.r8]).1
              % 2 ^ e.arch.bits },
          hc_preempted :=
            (e.run f [s.regs.edi, s.regs.esi, s.regs.edx, s.regs.r10, s.regs.r8]).2,
          trace := s.trace ++
            [Event.read_table hcall_table.hvm_hypercall32_table eax,
             Event.read_table hcall_table.hvm_hypercall64_table eax,
             Event.call_handler hcall_table.hvm_hypercall64_table eax
               [s.regs.edi, s.regs.esi, s.regs.edx, s.regs.r10, s.regs.r8]] }) := by
  have hge : ¬ eax ≥ e.k.NR_hypercalls := by omega
  obtain ⟨f32, hf32⟩ := Option.isSome_iff_exists.mp hb
  rw [h8.1] at hf32
  simp [hvm_do_hypercall_body, hge, hf32, h8.1, h8.2, hcall_invoke, hf, pcpu.emit,
    hcall_disposition]

theorem hvm_do_hypercall_body_run32 (e : hcall_env) (eax : Nat) (s : pcpu) (f : handler)
    (hlt : eax < e.k.NR_hypercalls)
    (h8 : ¬ (e.arch = Arch.x86_64 ∧ e.hvm_guest_x86_mode = 8))
    (hf : hvm_hypercall32_table e.arch e.k eax = some f) :
    hvm_do_hypercall_body e eax s =
      some (hcall_disposition e.k
              (e.run f [s.regs.ebx % 2 ^ 32, s.regs.ecx % 2 ^ 32, s.regs.edx % 2 ^ 32,
                s.regs.esi % 2 ^ 32, s.regs.edi % 2 ^ 32]).2 eax,
        { regs := { s.regs with eax :=
            (e.run f [s.regs.ebx % 2 ^ 32, s.regs.ecx % 2 ^ 32, s.regs.edx % 2 ^ 32,
              s.regs.esi % 2 ^ 32, s.regs.edi % 2 ^ 32]).1 % 2 ^ e.arch.bits },
          hc_preempted :=
            (e.run f [s.regs.ebx % 2 ^ 32, s.regs.ecx % 2 ^ 32, s.regs.edx % 2 ^ 32,
              s.regs.esi % 2 ^ 32, s.regs.edi % 2 ^ 32]).2,
          trace := s.trace ++
            [Event.read_table hcall_table.hvm_hypercall32_table eax,
             Event.read_table hcall_table.hvm_hypercall32_table eax,
             Event.call_handler hcall_table.hvm_hypercall32_table eax
               [s.regs.ebx % 2 ^ 32, s.regs.ecx % 2 ^ 32, s.regs.edx % 2 ^ 32,
                s.regs.esi % 2 ^ 32, s.regs.edi % 2 ^ 32]] }) := by
  have hge : ¬ eax ≥ e.k.NR_hypercalls := by omega
  simp [hvm_do_hypercall_body, hge, hf, h8, hcall_invoke, pcpu.emit, hcall_disposition]

theorem hvm_do_hypercall_enters (e : hcall_env) (s : pcpu)
    (hperm : e.hvm_guest_x86_mode = 0 ∨
      (((e.hvm_guest_x86_mode = 8 ∧ e.arch = Arch.x86_64) ∨ e.hvm_guest_x86_mode = 4 ∨
          e.hvm_guest_x86_mode = 2) ∧
        e.ring_3 (e.hvm_store_cpu_guest_regs s.regs) = false)) :
    ∃ pre : List Event,
      hvm_do_hypercall e s =
        hvm_do_hypercall_body e (s.regs.eax % 2 ^ 32)
          { regs := hcall_regs e s, hc_preempted := s.hc_preempted,
            trace := s.trace ++ pre } ∧
      handler_calls pre = 0 := by
  rcases hperm with h0 | ⟨hp, hr⟩
  · refine ⟨[], ?_, rfl⟩
    simp [hvm_do_hypercall, h0, hcall_regs]
  · have h0 : e.hvm_guest_x86_mode ≠ 0 := by
      rcases hp with ⟨h, _⟩ | h | h <;> rw [h] <;> decide
    refine ⟨[Event.hvm_store_cpu_guest_regs], ?_, rfl⟩
    simp only [hvm_do_hypercall, hp, if_true, pcpu.emit, hr, Bool.false_eq_true, if_false,
      hcall_regs, h0]

/-- C11: for a permitted hypercall whose 32-bit table entry is bound,
`hvm_do_hypercall` returns after invoking exactly one handler, once, as its
last effect: the entry of the 64-bit table in mode 8 on x86_64, the entry of
the 32-bit table otherwise.  The handler's return value is stored in the
call register.  The preemption flag afterwards is exactly what the handler
made of it, whatever it was before the call, so it was cleared before the
handler ran.  The disposition is HVM_HCALL_preempted when the handler set the
flag, otherwise HVM_HCALL_invalidate when the call number is memory_op or
grant_table_op, otherwise HVM_HCALL_completed. -/
theorem hvm_do_hypercall_dispatch (e : hcall_env) (s : pcpu)
    (hperm : e.hvm_guest_x86_mode = 0 ∨
      (((e.hvm_guest_x86_mode = 8 ∧ e.arch = Arch.x86_64) ∨ e.hvm_guest_x86_mode = 4 ∨
          e.hvm_guest_x86_mode = 2) ∧
        e.ring_3 (e.hvm_store_cpu_guest_regs s.regs) = false))
    (hlt : s.regs.eax % 2 ^ 32 < e.k.NR_hypercalls)
    (hb : (hvm_hypercall32_table e.arch e.k (s.regs.eax % 2 ^ 32)).isSome = true) :
    ∃ (t : hcall_table) (f : handler) (args : List Nat) (s' : pcpu) (pre : List Event),
      (e.arch = Arch.x86_64 ∧ e.hvm_guest_x86_mode = 8 →
        t = hcall_table.hvm_hypercall64_table ∧
        hvm_hypercall64_table e.k (s.regs.eax % 2 ^ 32) = some f ∧
        args = [(hcall_regs e s).edi, (hcall_regs e s).esi, (hcall_regs e s).edx,
                (hcall_regs e s).r10, (hcall_regs e s).r8]) ∧
      (¬ (e.arch = Arch.x86_64 ∧ e.hvm_guest_x86_mode = 8) →
        t = hcall_table.hvm_hypercall32_table ∧
        hvm_hypercall32_table e.arch e.k (s.regs.eax % 2 ^ 32) = some f ∧
        args = [(hcall_regs e s).ebx % 2 ^ 32, (hcall_regs e s).ecx % 2 ^ 32,
                (hcall_regs e s).edx % 2 ^ 32, (hcall_regs e s).esi % 2 ^ 32,
                (hcall_regs e s).edi % 2 ^ 32]) ∧
      hvm_do_hypercall e s =
        some (hcall_disposition e.k (e.run f args).2 (s.regs.eax % 2 ^ 32), s') ∧
      s'.regs.eax = (e.run f args).1 % 2 ^ e.arch.bits ∧
      s'.hc_preempted = (e.run f args).2 ∧
      s'.trace = s.trace ++ pre ++ [Event.call_handler t (s.regs.eax % 2 ^ 32) args] ∧
      handler_calls pre = 0 := by
  obtain ⟨pre, hrun, hpre⟩ := hvm_do_hypercall_enters e s hperm
  by_cases h8 : e.arch = Arch.x86_64 ∧ e.hvm_guest_x86_mode = 8
  · have hb64 : (hvm_hypercall64_table e.k (s.regs.eax % 2 ^ 32)).isSome = true := by
      rw [hypercall_tables_same_domain e.arch]; exact hb
    obtain ⟨f, hf⟩ := Option.isSome_iff_exists.mp hb64
    refine ⟨hcall_table.hvm_hypercall64_table, f, _, _,
      pre ++ [Event.read_table hcall_table.hvm_hypercall32_table (s.regs.eax % 2 ^ 32),
        Event.read_table hcall_table.hvm_hypercall64_table (s.regs.eax % 2 ^ 32)],
      fun _ => ⟨rfl, hf, rfl⟩, fun h => absurd h8 h,
      hrun.trans (hvm_do_hypercall_body_run64 e _ _ f hlt hb h8 hf), rfl, rfl, ?_, ?_⟩
    · simp
    · simp only [handler_calls, List.countP_append] at hpre ⊢
      simp [hpre, Event.is_call]
  · obtain ⟨f, hf⟩ := Option.isSome_iff_exists.mp hb
    refine ⟨hcall_table.hvm_hypercall32_table, f, _, _,
      pre ++ [Event.read_table hcall_table.hvm_hypercall32_table (s.regs.eax % 2 ^ 32),
        Event.read_table hcall_table.hvm_hypercall32_table (s.regs.eax % 2 ^ 32)],
      fun h => absurd h h8, fun _ => ⟨rfl, hf, rfl⟩,
      hrun.trans (hvm_do_hypercall_body_run32 e _ _ f hlt h8 hf), rfl, rfl, ?_, ?_⟩
    · simp
    · simp only [handler_calls, List.countP_append] at hpre ⊢
      simp [hpre, Event.is_call]

theorem hvm_do_hypercall_dispatch_witness :
    ∃ (f : handler) (args : List Nat) (s' : pcpu),
      hvm_do_hypercall (sample_env xen_abi 8) ⟨sample_regs 12 0, true, []⟩ =
        some (hcall_disposition xen_abi ((sample_env xen_abi 8).run f args).2 (12 % 2 ^ 32), s') ∧
      s'.hc_preempted = ((sample_env xen_abi 8).run f args).2 :=
  have ⟨_, f, args, s', _, _, _, h3, _, h5, _⟩ :=
    hvm_do_hypercall_dispatch (sample_env xen_abi 8) ⟨sample_regs 12 0, true, []⟩
      (Or.inr ⟨Or.inl ⟨rfl, rfl⟩, by decide⟩) (by decide) (by decide)
  ⟨f, args, s', h3, h5⟩

example :
    hvm_do_hypercall { sample_env xen_abi 4 with run := fun _ _ => (7, true) }
        ⟨sample_regs 34 0, false, []⟩ =
      some (HVM_HCALL_preempted,
        ⟨{ sample_regs 34 0 with eax := 7 }, true,
         [Event.hvm_store_cpu_guest_regs,
          Event.read_table hcall_table.hvm_hypercall32_table 34,
          Event.read_table hcall_table.hvm_hypercall32_table 34,
          Event.call_handler hcall_table.hvm_hypercall32_table 34 [1, 2, 3, 4, 5]]⟩) := by
  decide

/-! ## Theorems: interrupt-level operations -/

/-- C12: when an index of the request is out of range, each of the three
interrupt operations returns an error without resolving a domain (so no
assert, deassert or route-setting call is made on any domain): -EINVAL for a
privileged caller, -EPERM otherwise. -/
theorem hvmop_out_of_range (e : irq_op_env) :
    (∀ op : xen_hvm_set_pci_intx_level,
      op.domain > 0 ∨ op.bus > 0 ∨ op.device > 31 ∨ op.intx > 3 →
      hvmop_set_pci_intx_level e (some op) =
        (if e.is_priv then -EINVAL else -EPERM, none)) ∧
    (∀ op : xen_hvm_set_isa_irq_level, op.isa_irq > 15 →
      hvmop_set_isa_irq_level e (some op) =
        (if e.is_priv then -EINVAL else -EPERM, none)) ∧
    (∀ op : xen_hvm_set_pci_link_route, op.link > 3 ∨ op.isa_irq > 15 →
      hvmop_set_pci_link_route e (some op) =
        (if e.is_priv then -EINVAL else -EPERM, none)) ∧
    (if e.is_priv then -EINVAL else -EPERM) ≠ 0 := by
  refine ⟨?_, ?_, ?_, ?_⟩
  · intro op h
    cases hp : e.is_priv <;> simp [hvmop_set_pci_intx_level, hp, h]
  · intro op h
    cases hp : e.is_priv <;> simp [hvmop_set_isa_irq_level, hp, h]
  · intro op h
    cases hp : e.is_priv <;> simp [hvmop_set_pci_link_route, hp, h]
  · cases e.is_priv <;> simp [EINVAL, EPERM]

theorem hvmop_out_of_range_witness :
    hvmop_set_pci_intx_level ⟨true, fun _ => some bound_domain, 0⟩ (some ⟨1, 0, 0, 32, 0, 1⟩)
      = (-EINVAL, none) ∧
    hvmop_set_isa_irq_level ⟨true, fun _ => some bound_domain, 0⟩ (some ⟨1, 16, 1⟩)
      = (-EINVAL, none) ∧
    hvmop_set_pci_link_route ⟨true, fun _ => some bound_domain, 0⟩ (some ⟨1, 4, 5⟩)
      = (-EINVAL, none) :=
  ⟨(hvmop_out_of_range ⟨true, fun _ => some bound_domain, 0⟩).1 ⟨1, 0, 0, 32, 0, 1⟩
      (by decide),
   (hvmop_out_of_range ⟨true, fun _ => some bound_domain, 0⟩).2.1 ⟨1, 16, 1⟩ (by decide),
   (hvmop_out_of_range ⟨true, fun _ => some bound_domain, 0⟩).2.2.1 ⟨1, 4, 5⟩ (by decide)⟩

/-- C13: for an in-range request from a privileged caller on a resolvable HVM
domain that the security hook permits, `hvmop_set_pci_intx_level` and
`hvmop_set_isa_irq_level` act on the level: 1 calls the assert function once
with the requested line and returns 0, 0 calls the deassert function once
with the same line and returns 0, any other level returns -EINVAL and calls
neither.  The only other call made on the domain is `rcu_unlock_domain`. -/
theorem hvmop_set_level (e : irq_op_env) (d : domain) (hp : e.is_priv = true)
    (hx : e.xsm = 0) (hh : d.is_hvm = true) :
    (∀ op : xen_hvm_set_pci_intx_level,
      op.domain = 0 → op.bus = 0 → op.device ≤ 31 → op.intx ≤ 3 →
      e.rcu_lock_domain_by_id op.domid = some d →
      hvmop_set_pci_intx_level e (some op) =
        if op.level = 1 then
          (0, some { d with trace := d.trace ++
            [Event.hvm_pci_intx_assert op.device op.intx, Event.rcu_unlock_domain] })
        else if op.level = 0 then
          (0, some { d with trace := d.trace ++
            [Event.hvm_pci_intx_deassert op.device op.intx, Event.rcu_unlock_domain] })
        else (-EINVAL, some { d with trace := d.trace ++ [Event.rcu_unlock_domain] })) ∧
    (∀ op : xen_hvm_set_isa_irq_level,
      op.isa_irq ≤ 15 → e.rcu_lock_domain_by_id op.domid = some d →
      hvmop_set_isa_irq_level e (some op) =
        if op.level = 1 then
          (0, some { d with trace := d.trace ++
            [Event.hvm_isa_irq_assert op.isa_irq, Event.rcu_unlock_domain] })
        else if op.level = 0 then
          (0, some { d with trace := d.trace ++
            [Event.hvm_isa_irq_deassert op.isa_irq, Event.rcu_unlock_domain] })
        else (-EINVAL, some { d with trace := d.trace ++ [Event.rcu_unlock_domain] })) := by
  constructor
  · intro op h1 h2 h3 h4 hd
    have hr : ¬ (op.domain > 0 ∨ op.bus > 0 ∨ op.device > 31 ∨ op.intx > 3) := by omega
    by_cases l1 : op.level = 1
    · simp [hvmop_set_pci_intx_level, hp, hr, hd, hh, hx, l1, domain.emit]
    · by_cases l0 : op.level = 0
      · simp [hvmop_set_pci_intx_level, hp, hr, hd, hh, hx, l0, domain.emit]
      · simp [hvmop_set_pci_intx_level, hp, hr, hd, hh, hx, l0, l1, domain.emit]
  · intro op h1 hd
    have hr : ¬ op.isa_irq > 15 := by omega
    by_cases l1 : op.level = 1
    · simp [hvmop_set_isa_irq_level, hp, hr, hd, hh, hx, l1, domain.emit]
    · by_cases l0 : op.level = 0
      · simp [hvmop_set_isa_irq_level, hp, hr, hd, hh, hx, l0, domain.emit]
      · simp [hvmop_set_isa_irq_level, hp, hr, hd, hh, hx, l0, l1, domain.emit]

theorem hvmop_set_level_witness :
    hvmop_set_pci_intx_level ⟨true, fun _ => some fresh_domain, 0⟩ (some ⟨1, 0, 0, 2, 1, 1⟩)
      = (0, some { fresh_domain with trace :=
          [Event.hvm_pci_intx_assert 2 1, Event.rcu_unlock_domain] }) ∧
    hvmop_set_isa_irq_level ⟨true, fun _ => some fresh_domain, 0⟩ (some ⟨1, 15, 0⟩)
      = (0, some { fresh_domain with trace :=
          [Event.hvm_isa_irq_deassert 15, Event.rcu_unlock_domain] }) :=
  ⟨(hvmop_set_level ⟨true, fun _ => some fresh_domain, 0⟩ fresh_domain rfl rfl rfl).1
      ⟨1, 0, 0, 2, 1, 1⟩ rfl rfl (by decide) (by decide) rfl,
   (hvmop_set_level ⟨true, fun _ => some fresh_domain, 0⟩ fresh_domain rfl rfl rfl).2
      ⟨1, 15, 0⟩ (by decide) rfl⟩

example :
    hvmop_set_pci_intx_level ⟨true, fun _ => some fresh_domain, 0⟩ (some ⟨1, 0, 0, 2, 1, 2⟩)
      = (-EINVAL, some { fresh_domain with trace := [Event.rcu_unlock_domain] }) := by
  decide

/-! ## Theorems: control registers -/

/-- What the transition step of `hvm_set_cr0` leaves behind when it returns
early (fault or domain crash) and when it goes on. -/
theorem hvm_set_cr0_transition_spec (e : cr_env) (value old : Nat) (v : hvm_vcpu) :
    (∀ r, hvm_set_cr0_transition e value old v = Except.error r →
      r.1 = 0 ∧ r.2.guest_cr0 = v.guest_cr0 ∧ r.2.guest_cr3 = v.guest_cr3 ∧
      r.2.guest_cr4 = v.guest_cr4 ∧ r.2.guest_table = v.guest_table ∧
      (((value &&& X86_CR0_PG ≠ 0 ∧ old &&& X86_CR0_PG = 0 ∧
          v.guest_efer &&& EFER_LME ≠ 0 ∧ v.guest_cr4 &&& X86_CR4_PAE = 0) ∧
          r = inject_gp v) ∨
        (¬ (value &&& X86_CR0_PG ≠ 0 ∧ old &&& X86_CR0_PG = 0 ∧
          v.guest_efer &&& EFER_LME ≠ 0 ∧ v.guest_cr4 &&& X86_CR4_PAE = 0) ∧
          faults r.2.trace = faults v.trace ∧ crashes r.2.trace = crashes v.trace + 1 ∧
          r.2.trace.countP Event.is_ref_change = v.trace.countP Event.is_ref_change ∧
          r.2.guest_efer =
            (if v.guest_efer &&& EFER_LME ≠ 0 then v.guest_efer ||| EFER_LMA
             else v.guest_efer)))) ∧
    (∀ w, hvm_set_cr0_transition e value old v = Except.ok w →
      ¬ (value &&& X86_CR0_PG ≠ 0 ∧ old &&& X86_CR0_PG = 0 ∧
          v.guest_efer &&& EFER_LME ≠ 0 ∧ v.guest_cr4 &&& X86_CR4_PAE = 0) ∧
      w.guest_cr0 = v.guest_cr0 ∧ w.guest_cr3 = v.guest_cr3 ∧ w.guest_cr4 = v.guest_cr4 ∧
      faults w.trace = faults v.trace ∧ crashes w.trace = crashes v.trace) := by
  by_cases hon : value &&& X86_CR0_PG ≠ 0 ∧ old &&& X86_CR0_PG = 0
  · by_cases hlme : v.guest_efer &&& EFER_LME ≠ 0
    · by_cases hpae : v.guest_cr4 &&& X86_CR4_PAE = 0
      · refine ⟨fun r h => ?_, fun w h => ?_⟩
        · simp [hvm_set_cr0_transition, inject_gp, crash_domain, hvm_vcpu.emit,
            hon, hlme, hpae] at h
          subst h
          simp [inject_gp, crash_domain, hvm_vcpu.emit, faults, crashes, Event.is_fault,
            Event.is_ref_change, List.countP_append, List.count_append, hon, hlme, hpae]
        · simp [hvm_set_cr0_transition, inject_gp, crash_domain, hvm_vcpu.emit,
            hon, hlme, hpae] at h
      · cases hhap : e.paging_mode_hap
        · cases hval : e.mfn_valid (e.get_mfn_from_gpfn (v.guest_cr3 >>> PAGE_SHIFT))
          · refine ⟨fun r h => ?_, fun w h => ?_⟩
            · simp [hvm_set_cr0_transition, inject_gp, crash_domain, hvm_vcpu.emit,
                hon, hlme, hpae, hhap, hval] at h
              subst h
              simp [inject_gp, crash_domain, hvm_vcpu.emit, faults, crashes, Event.is_fault,
                Event.is_ref_change, List.countP_append, List.count_append, hon, hlme, hpae, hhap, hval]
            · simp [hvm_set_cr0_transition, inject_gp, crash_domain, hvm_vcpu.emit,
                hon, hlme, hpae, hhap, hval] at h
          · cases hok : e.get_page (e.get_mfn_from_gpfn (v.guest_cr3 >>> PAGE_SHIFT))
            · refine ⟨fun r h => ?_, fun w h => ?_⟩
              · simp [hvm_set_cr0_transition, inject_gp, crash_domain, hvm_vcpu.emit,
                  hon, hlme, hpae, hhap, hval, hok] at h
                subst h
                simp [inject_gp, crash_domain, hvm_vcpu.emit, faults, crashes, Event.is_fault,
                  Event.is_ref_change, List.countP_append, List.count_append, hon, hlme, hpae, hhap, hval, hok]
              · simp [hvm_set_cr0_transition, inject_gp, crash_domain, hvm_vcpu.emit,
                  hon, hlme, hpae, hhap, hval, hok] at h
            · refine ⟨fun r h => ?_, fun w h => ?_⟩
              · simp [hvm_set_cr0_transition, inject_gp, crash_domain, hvm_vcpu.emit,
                  hon, hlme, hpae, hhap, hval, hok] at h
              · simp [hvm_set_cr0_transition, inject_gp, crash_domain, hvm_vcpu.emit,
                  hon, hlme, hpae, hhap, hval, hok] at h
                subst h
                simp [inject_gp, crash_domain, hvm_vcpu.emit, faults, crashes, Event.is_fault,
                  Event.is_ref_change, List.countP_append, List.count_append, hon, hlme, hpae, hhap, hval, hok]
        · refine ⟨fun r h => ?_, fun w h => ?_⟩
          · simp [hvm_set_cr0_transition, inject_gp, crash_domain, hvm_vcpu.emit,
              hon, hlme, hpae, hhap] at h
          · simp [hvm_set_cr0_transition, inject_gp, crash_domain, hvm_vcpu.emit,
              hon, hlme, hpae, hhap] at h
            subst h
            simp [inject_gp, crash_domain, hvm_vcpu.emit, faults, crashes, Event.is_fault,
              Event.is_ref_change, List.countP_append, List.count_append, hon, hlme, hpae, hhap]
    · cases hhap : e.paging_mode_hap
      · cases hval : e.mfn_valid (e.get_mfn_from_gpfn (v.guest_cr3 >>> PAGE_SHIFT))
        · refine ⟨fun r h => ?_, fun w h => ?_⟩
          · simp [hvm_set_cr0_transition, inject_gp, crash_domain, hvm_vcpu.emit,
              hon, hlme, hhap, hval] at h
            subst h
            simp [inject_gp, crash_domain, hvm_vcpu.emit, faults, crashes, Event.is_fault,
              Event.is_ref_change, List.countP_append, List.count_append, hon, hlme, hhap, hval]
          · simp [hvm_set_cr0_transition, inject_gp, crash_domain, hvm_vcpu.emit,
              hon, hlme, hhap, hval] at h
        · cases hok : e.get_page (e.get_mfn_from_gpfn (v.guest_cr3 >>> PAGE_SHIFT))
          · refine ⟨fun r h => ?_, fun w h => ?_⟩
            · simp [hvm_set_cr0_transition, inject_gp, crash_domain, hvm_vcpu.emit,
                hon, hlme, hhap, hval, hok] at h
              subst h
              simp [inject_gp, crash_domain, hvm_vcpu.emit, faults, crashes, Event.is_fault,
                Event.is_ref_change, List.countP_append, List.count_append, hon, hlme, hhap, hval, hok]
            · simp [hvm_set_cr0_transition, inject_gp, crash_domain, hvm_vcpu.emit,
                hon, hlme, hhap, hval, hok] at h
          · refine ⟨fun r h => ?_, fun w h => ?_⟩
            · simp [hvm_set_cr0_transition, inject_gp, crash_domain, hvm_vcpu.emit,
                hon, hlme, hhap, hval, hok] at h
            · simp [hvm_set_cr0_transition, inject_gp, crash_domain, hvm_vcpu.emit,
                hon, hlme, hhap, hval, hok] at h
              subst h
              simp [inject_gp, crash_domain, hvm_vcpu.emit, faults, crashes, Event.is_fault,
                Event.is_ref_change, List.countP_append, List.count_append, hon, hlme, hhap, hval, hok]
      · refine ⟨fun r h => ?_, fun w h => ?_⟩
        · simp [hvm_set_cr0_transition, inject_gp, crash_domain, hvm_vcpu.emit,
            hon, hlme, hhap] at h
        · simp [hvm_set_cr0_transition, inject_gp, crash_domain, hvm_vcpu.emit,
            hon, hlme, hhap] at h
          subst h
          simp [inject_gp, crash_domain, hvm_vcpu.emit, faults, crashes, Event.is_fault,
            Event.is_ref_change, List.countP_append, List.count_append, hon, hlme, hhap]
  · by_cases hoff : value &&& X86_CR0_PG = 0 ∧ old &&& X86_CR0_PG ≠ 0
    · cases hlm : hvm_long_mode_enabled v <;> cases hhap : e.paging_mode_hap
      · refine ⟨fun r h => ?_, fun w h => ?_⟩
        · simp [hvm_set_cr0_transition, inject_gp, crash_domain, hvm_vcpu.emit,
            hon, hoff, hlm, hhap] at h
        · simp [hvm_set_cr0_transition, inject_gp, crash_domain, hvm_vcpu.emit,
            hon, hoff, hlm, hhap] at h
          subst h
          simp [inject_gp, crash_domain, hvm_vcpu.emit, faults, crashes, Event.is_fault,
            Event.is_ref_change, List.countP_append, List.count_append, hon, hoff, hlm, hhap]
      · refine ⟨fun r h => ?_, fun w h => ?_⟩
        · simp [hvm_set_cr0_transition, inject_gp, crash_domain, hvm_vcpu.emit,
            hon, hoff, hlm, hhap] at h
        · simp [hvm_set_cr0_transition, inject_gp, crash_domain, hvm_vcpu.emit,
            hon, hoff, hlm, hhap] at h
          subst h
          simp [inject_gp, crash_domain, hvm_vcpu.emit, faults, crashes, Event.is_fault,
            Event.is_ref_change, List.countP_append, List.count_append, hon, hoff, hlm, hhap]
      · refine ⟨fun r h => ?_, fun w h => ?_⟩
        · simp [hvm_set_cr0_transition, inject_gp, crash_domain, hvm_vcpu.emit,
            hon, hoff, hlm, hhap] at h
        · simp [hvm_set_cr0_transition, inject_gp, crash_domain, hvm_vcpu.emit,
            hon, hoff, hlm, hhap] at h
          subst h
          simp [inject_gp, crash_domain, hvm_vcpu.emit, faults, crashes, Event.is_fault,
            Event.is_ref_change, List.countP_append, List.count_append, hon, hoff, hlm, hhap]
      · refine ⟨fun r h => ?_, fun w h => ?_⟩
        · simp [hvm_set_cr0_transition, inject_gp, crash_domain, hvm_vcpu.emit,
            hon, hoff, hlm, hhap] at h
        · simp [hvm_set_cr0_transition, inject_gp, crash_domain, hvm_vcpu.emit,
            hon, hoff, hlm, hhap] at h
          subst h
          simp [inject_gp, crash_domain, hvm_vcpu.emit, faults, crashes, Event.is_fault,
            Event.is_ref_change, List.countP_append, List.count_append, hon, hoff, hlm, hhap]
    · refine ⟨fun r h => ?_, fun w h => ?_⟩
      · simp [hvm_set_cr0_transition, inject_gp, crash_domain, hvm_vcpu.emit,
          hon, hoff] at h
      · simp [hvm_set_cr0_transition, inject_gp, crash_domain, hvm_vcpu.emit,
          hon, hoff] at h
        subst h
        simp [inject_gp, crash_domain, hvm_vcpu.emit, faults, crashes, Event.is_fault,
          Event.is_ref_change, List.countP_append, List.count_append, hon, hoff]
        intro a b _ _; exact absurd ⟨a, b⟩ hon

/-- A CR0 write that meets one of the three fault conditions injects the
fault, returns 0 and changes nothing else. -/
theorem hvm_set_cr0_of_fault (e : cr_env) (value : Nat) (v : hvm_vcpu)
    (hf : cr0_faults e value v) :
    hvm_set_cr0 e value v =
      (0, { v with trace := v.trace ++ [Event.hvm_inject_exception TRAP_gp_fault 0 0] }) := by
  obtain ⟨herr, hok⟩ := hvm_set_cr0_transition_spec e (cr0_masked e value) v.guest_cr0 v
  by_cases h1 : value % 2 ^ 32 ≠ value
  · simp only [hvm_set_cr0, if_pos h1, inject_gp, hvm_vcpu.emit]
  by_cases h2 : cr0_masked e value &&& (X86_CR0_PE ||| X86_CR0_PG) = X86_CR0_PG
  · simp only [hvm_set_cr0, if_neg h1, if_pos h2, inject_gp, hvm_vcpu.emit]
  have h3 : cr0_long_mode_without_pae e value v := by
    rcases hf with h | h | h
    · exact absurd h h1
    · exact absurd h h2
    · exact h
  cases ht : hvm_set_cr0_transition e (cr0_masked e value) v.guest_cr0 v with
  | error r =>
    obtain ⟨_, _, _, _, _, hcase⟩ := herr r ht
    have hr : hvm_set_cr0 e value v = r := by
      simp only [hvm_set_cr0, if_neg h1, if_neg h2, ht]
    rw [hr]
    rcases hcase with ⟨_, rfl⟩ | ⟨hn, _⟩
    · simp only [inject_gp, hvm_vcpu.emit]
    · exact absurd h3 hn
  | ok w => exact absurd h3 (hok w ht).1

/-- C14: `hvm_set_cr0` injects a general-protection fault, returns 0 and
changes nothing else in each of three cases: the value has a bit above bit
31; the masked value has paging without protected mode; the masked value
turns paging on while EFER.LME is set and CR4.PAE is clear.  In every other
case no fault is injected. -/
theorem hvm_set_cr0_fault_cases (e : cr_env) (value : Nat) (v : hvm_vcpu) :
    (cr0_faults e value v →
      hvm_set_cr0 e value v =
        (0, { v with trace := v.trace ++ [Event.hvm_inject_exception TRAP_gp_fault 0 0] })) ∧
    (¬ cr0_faults e value v →
      faults (hvm_set_cr0 e value v).2.trace = faults v.trace) := by
  refine ⟨hvm_set_cr0_of_fault e value v, fun hf => ?_⟩
  have h1 : ¬ value % 2 ^ 32 ≠ value := fun h => hf (Or.inl h)
  have h2 : ¬ cr0_masked e value &&& (X86_CR0_PE ||| X86_CR0_PG) = X86_CR0_PG :=
    fun h => hf (Or.inr (Or.inl h))
  obtain ⟨herr, hok⟩ := hvm_set_cr0_transition_spec e (cr0_masked e value) v.guest_cr0 v
  cases ht : hvm_set_cr0_transition e (cr0_masked e value) v.guest_cr0 v with
  | error r =>
    obtain ⟨_, _, _, _, _, hcase⟩ := herr r ht
    have hr : hvm_set_cr0 e value v = r := by
      simp only [hvm_set_cr0, if_neg h1, if_neg h2, ht]
    rw [hr]
    rcases hcase with ⟨hc, _⟩ | ⟨_, q, _⟩
    · exact absurd (Or.inr (Or.inr hc)) hf
    · exact q
  | ok w =>
    obtain ⟨_, _, _, _, q, _⟩ := hok w ht
    simp only [hvm_set_cr0, if_neg h1, if_neg h2, ht]
    split <;>
      simp [hvm_vcpu.emit, faults, List.countP_append, Event.is_fault] <;>
      simpa [faults] using q

theorem hvm_set_cr0_fault_cases_witness :
    hvm_set_cr0 hap_env (2 ^ 32) long_mode_vcpu =
      (0, { long_mode_vcpu with trace := [Event.hvm_inject_exception TRAP_gp_fault 0 0] }) ∧
    hvm_set_cr0 broken_shadow_env 0x80000011 { long_mode_request_vcpu with guest_cr4 := 0 } =
      (0, { long_mode_request_vcpu with
            guest_cr4 := 0, trace := [Event.hvm_inject_exception TRAP_gp_fault 0 0] }) ∧
    faults (hvm_set_cr0 hap_env 0x11 long_mode_vcpu).2.trace = faults long_mode_vcpu.trace :=
  ⟨(hvm_set_cr0_fault_cases hap_env (2 ^ 32) long_mode_vcpu).1 (Or.inl (by decide)),
   (hvm_set_cr0_fault_cases broken_shadow_env 0x80000011
      { long_mode_request_vcpu with guest_cr4 := 0 }).1
      (Or.inr (Or.inr (by unfold cr0_long_mode_without_pae; decide))),
   (hvm_set_cr0_fault_cases hap_env 0x11 long_mode_vcpu).2
      (by unfold cr0_faults cr0_long_mode_without_pae; decide)⟩

example :
    hvm_set_cr0 hap_env 0x11 long_mode_vcpu =
      (1, { long_mode_vcpu with
            guest_cr0 := 0x11, guest_efer := 0x100,
            trace := [Event.hvm_update_guest_efer, Event.hvm_update_guest_cr 0,
                      Event.paging_update_paging_modes] }) := by
  decide

example :
    hvm_set_cr0 broken_shadow_env 0x80000010 long_mode_request_vcpu =
      (0, { long_mode_request_vcpu with
            trace := [Event.hvm_inject_exception TRAP_gp_fault 0 0] }) := by
  decide

/-- C15: `hvm_set_cr4` injects a general-protection fault and returns 0
exactly when the value has a guest-reserved CR4 bit, or has PAE clear while
EFER.LMA is set; then nothing else happens (CR4 keeps its value and
`paging_update_paging_modes` is not called).  Otherwise it returns 1, the
mirrored CR4 is the value, no fault is injected, and
`paging_update_paging_modes` is called exactly when PSE, PGE or PAE
changed. -/
theorem hvm_set_cr4_cases (e : cr_env) (value : Nat) (v : hvm_vcpu) :
    (value &&& e.HVM_CR4_GUEST_RESERVED_BITS ≠ 0 ∨
        (value &&& X86_CR4_PAE = 0 ∧ v.guest_efer &&& EFER_LMA ≠ 0) →
      hvm_set_cr4 e value v =
        (0, { v with trace := v.trace ++ [Event.hvm_inject_exception TRAP_gp_fault 0 0] })) ∧
    (¬ (value &&& e.HVM_CR4_GUEST_RESERVED_BITS ≠ 0 ∨
        (value &&& X86_CR4_PAE = 0 ∧ v.guest_efer &&& EFER_LMA ≠ 0)) →
      hvm_set_cr4 e value v =
        (1, { v with
              guest_cr4 := value,
              trace := v.trace ++ [Event.hvm_update_guest_cr 4] ++
                (if (v.guest_cr4 ^^^ value) &&& (X86_CR4_PSE ||| X86_CR4_PGE ||| X86_CR4_PAE) ≠ 0
                 then [Event.paging_update_paging_modes] else []) })) ∧
    ((hvm_set_cr4 e value v).1 = 0 ∧
        faults (hvm_set_cr4 e value v).2.trace = faults v.trace + 1 ↔
      value &&& e.HVM_CR4_GUEST_RESERVED_BITS ≠ 0 ∨
        (value &&& X86_CR4_PAE = 0 ∧ v.guest_efer &&& EFER_LMA ≠ 0)) := by
  have hA : value &&& e.HVM_CR4_GUEST_RESERVED_BITS ≠ 0 ∨
        (value &&& X86_CR4_PAE = 0 ∧ v.guest_efer &&& EFER_LMA ≠ 0) →
      hvm_set_cr4 e value v =
        (0, { v with trace := v.trace ++ [Event.hvm_inject_exception TRAP_gp_fault 0 0] }) := by
    intro h
    by_cases hr : value &&& e.HVM_CR4_GUEST_RESERVED_BITS ≠ 0
    · simp only [hvm_set_cr4, if_pos hr, inject_gp, hvm_vcpu.emit]
    · have hl : value &&& X86_CR4_PAE = 0 ∧ hvm_long_mode_enabled v = true := by
        rcases h with h | h
        · exact absurd h hr
        · exact ⟨h.1, by simpa [hvm_long_mode_enabled] using h.2⟩
      simp only [hvm_set_cr4, if_neg hr, if_pos hl, inject_gp, hvm_vcpu.emit]
  have hB : ¬ (value &&& e.HVM_CR4_GUEST_RESERVED_BITS ≠ 0 ∨
        (value &&& X86_CR4_PAE = 0 ∧ v.guest_efer &&& EFER_LMA ≠ 0)) →
      hvm_set_cr4 e value v =
        (1, { v with
              guest_cr4 := value,
              trace := v.trace ++ [Event.hvm_update_guest_cr 4] ++
                (if (v.guest_cr4 ^^^ value) &&& (X86_CR4_PSE ||| X86_CR4_PGE ||| X86_CR4_PAE) ≠ 0
                 then [Event.paging_update_paging_modes] else []) }) := by
    intro h
    have hr : ¬ value &&& e.HVM_CR4_GUEST_RESERVED_BITS ≠ 0 := fun hr => h (Or.inl hr)
    have hl : ¬ (value &&& X86_CR4_PAE = 0 ∧ hvm_long_mode_enabled v = true) := by
      intro hl
      exact h (Or.inr ⟨hl.1, by simpa [hvm_long_mode_enabled] using hl.2⟩)
    simp only [hvm_set_cr4, if_neg hr, if_neg hl, hvm_vcpu.emit]
    split <;> simp
  refine ⟨hA, hB, ?_⟩
  constructor
  · intro h
    by_contra hn
    rw [hB hn] at h
    exact absurd h.1 (by simp)
  · intro h
    rw [hA h]
    simp [faults, List.countP_append, Event.is_fault]

theorem hvm_set_cr4_cases_witness :
    hvm_set_cr4 hap_env 0x10 long_mode_vcpu =
      (0, { long_mode_vcpu with trace := [Event.hvm_inject_exception TRAP_gp_fault 0 0] }) ∧
    hvm_set_cr4 hap_env 0xb0 long_mode_vcpu =
      (1, { long_mode_vcpu with
            guest_cr4 := 0xb0,
            trace := [Event.hvm_update_guest_cr 4, Event.paging_update_paging_modes] }) :=
  ⟨(hvm_set_cr4_cases hap_env 0x10 long_mode_vcpu).1 (Or.inr (by decide)),
   (hvm_set_cr4_cases hap_env 0xb0 long_mode_vcpu).2.1 (by decide)⟩

/-- C16 (counterexample): with shadow paging, EFER.LME and CR4.PAE set and a
CR3 whose frame is invalid, a write that turns paging on returns 0 after
crashing the domain, and the guest EFER has changed: EFER.LMA is now set. -/
theorem hvm_set_cr0_crash_after_lma :
    (hvm_set_cr0 broken_shadow_env 0x80000011 long_mode_request_vcpu).1 = 0 ∧
    crashes (hvm_set_cr0 broken_shadow_env 0x80000011 long_mode_request_vcpu).2.trace = 1 ∧
    long_mode_request_vcpu.guest_efer = 0x100 ∧
    (hvm_set_cr0 broken_shadow_env 0x80000011 long_mode_request_vcpu).2.guest_efer = 0x500 := by
  decide

/-- C16 (amended): when `hvm_set_cr0` returns 0, the mirrored CR0, CR3 and
CR4, the page-table root and the page references are as before the call.
Either a fault was injected, and then nothing at all changed; or the domain
was crashed because the root frame is invalid or cannot be pinned, and then
the guest EFER is as before when EFER.LME is clear and has EFER.LMA set in
addition when EFER.LME is set. -/
theorem hvm_set_cr0_failure_frame (e : cr_env) (value : Nat) (v : hvm_vcpu)
    (h0 : (hvm_set_cr0 e value v).1 = 0) :
    (hvm_set_cr0 e value v).2.guest_cr0 = v.guest_cr0 ∧
    (hvm_set_cr0 e value v).2.guest_cr3 = v.guest_cr3 ∧
    (hvm_set_cr0 e value v).2.guest_cr4 = v.guest_cr4 ∧
    (hvm_set_cr0 e value v).2.guest_table = v.guest_table ∧
    (hvm_set_cr0 e value v).2.trace.countP Event.is_ref_change
      = v.trace.countP Event.is_ref_change ∧
    ((cr0_faults e value v ∧
        (hvm_set_cr0 e value v).2 =
          { v with trace := v.trace ++ [Event.hvm_inject_exception TRAP_gp_fault 0 0] }) ∨
      (¬ cr0_faults e value v ∧
        faults (hvm_set_cr0 e value v).2.trace = faults v.trace ∧
        crashes (hvm_set_cr0 e value v).2.trace = crashes v.trace + 1 ∧
        (hvm_set_cr0 e value v).2.guest_efer =
          (if v.guest_efer &&& EFER_LME ≠ 0 then v.guest_efer ||| EFER_LMA
           else v.guest_efer))) := by
  have hfault : cr0_faults e value v →
      (hvm_set_cr0 e value v).2.guest_cr0 = v.guest_cr0 ∧
      (hvm_set_cr0 e value v).2.guest_cr3 = v.guest_cr3 ∧
      (hvm_set_cr0 e value v).2.guest_cr4 = v.guest_cr4 ∧
      (hvm_set_cr0 e value v).2.guest_table = v.guest_table ∧
      (hvm_set_cr0 e value v).2.trace.countP Event.is_ref_change
        = v.trace.countP Event.is_ref_change ∧
      (hvm_set_cr0 e value v).2 =
        { v with trace := v.trace ++ [Event.hvm_inject_exception TRAP_gp_fault 0 0] } := by
    intro hf
    rw [hvm_set_cr0_of_fault e value v hf]
    simp [List.countP_append, Event.is_ref_change]
  by_cases hf : cr0_faults e value v
  · obtain ⟨a, b, c, d, r, q⟩ := hfault hf
    exact ⟨a, b, c, d, r, Or.inl ⟨hf, q⟩⟩
  · have h1 : ¬ value % 2 ^ 32 ≠ value := fun h => hf (Or.inl h)
    have h2 : ¬ cr0_masked e value &&& (X86_CR0_PE ||| X86_CR0_PG) = X86_CR0_PG :=
      fun h => hf (Or.inr (Or.inl h))
    obtain ⟨herr, _⟩ := hvm_set_cr0_transition_spec e (cr0_masked e value) v.guest_cr0 v
    cases ht : hvm_set_cr0_transition e (cr0_masked e value) v.guest_cr0 v with
    | error r =>
      have hr : hvm_set_cr0 e value v = r := by
        simp only [hvm_set_cr0, if_neg h1, if_neg h2, ht]
      obtain ⟨_, a, b, c, d, hcase⟩ := herr r ht
      rw [hr]
      rcases hcase with ⟨hc, _⟩ | ⟨_, q1, q2, q3, q4⟩
      · exact absurd (Or.inr (Or.inr hc)) hf
      · exact ⟨a, b, c, d, q3, Or.inr ⟨hf, q1, q2, q4⟩⟩
    | ok w =>
      have hr : (hvm_set_cr0 e value v).1 = 1 := by
        simp only [hvm_set_cr0, if_neg h1, if_neg h2, ht]
      rw [hr] at h0
      exact absurd h0 (by decide)

theorem hvm_set_cr0_failure_frame_witness :
    (hvm_set_cr0 broken_shadow_env 0x80000011 long_mode_request_vcpu).2.guest_cr0
      = long_mode_request_vcpu.guest_cr0 ∧
    (hvm_set_cr0 broken_shadow_env 0x80000011 long_mode_request_vcpu).2.guest_table
      = long_mode_request_vcpu.guest_table :=
  have h := hvm_set_cr0_failure_frame broken_shadow_env 0x80000011 long_mode_request_vcpu
    (by decide)
  ⟨h.1, h.2.2.2.1⟩

/-- C17: under shadow paging with guest paging enabled, a CR3 write with a
new value whose frame is invalid or cannot be pinned crashes the domain and
returns 0.  No fault is injected, no page reference is taken or dropped, and
the vCPU is unchanged apart from its trace (mirrored CR3 and page-table root
included). -/
theorem hvm_set_cr3_bad_frame (e : cr_env) (value : Nat) (v : hvm_vcpu)
    (hhap : e.paging_mode_hap = false) (hpg : hvm_paging_enabled v = true)
    (hne : value ≠ v.guest_cr3)
    (hbad : e.mfn_valid (e.get_mfn_from_gpfn (value >>> PAGE_SHIFT)) = false ∨
      e.get_page (e.get_mfn_from_gpfn (value >>> PAGE_SHIFT)) = false) :
    hvm_set_cr3 e value v =
      (0, { v with trace := v.trace ++
        (if e.mfn_valid (e.get_mfn_from_gpfn (value >>> PAGE_SHIFT)) then
          [Event.get_page (e.get_mfn_from_gpfn (value >>> PAGE_SHIFT)) false] else []) ++
        [Event.domain_crash] }) ∧
    faults (hvm_set_cr3 e value v).2.trace = faults v.trace ∧
    crashes (hvm_set_cr3 e value v).2.trace = crashes v.trace + 1 ∧
    (hvm_set_cr3 e value v).2.trace.countP Event.is_ref_change
      = v.trace.countP Event.is_ref_change := by
  have hc : ¬ (e.paging_mode_hap = true ∨ (!hvm_paging_enabled v) = true) := by
    simp [hhap, hpg]
  cases hval : e.mfn_valid (e.get_mfn_from_gpfn (value >>> PAGE_SHIFT))
  · have hres : hvm_set_cr3 e value v =
        (0, { v with trace := v.trace ++ [Event.domain_crash] }) := by
      simp [hvm_set_cr3, hhap, hpg, hne, hval, crash_domain, hvm_vcpu.emit]
    rw [hres]
    simp [faults, crashes, List.countP_append, List.count_append, Event.is_fault,
      Event.is_ref_change]
  · have hok : e.get_page (e.get_mfn_from_gpfn (value >>> PAGE_SHIFT)) = false := by
      rcases hbad with h | h
      · rw [hval] at h; exact absurd h (by decide)
      · exact h
    have hres : hvm_set_cr3 e value v =
        (0, { v with trace := v.trace ++
          [Event.get_page (e.get_mfn_from_gpfn (value >>> PAGE_SHIFT)) false,
           Event.domain_crash] }) := by
      simp [hvm_set_cr3, hhap, hpg, hne, hval, hok, crash_domain, hvm_vcpu.emit]
    rw [hres]
    simp [faults, crashes, List.countP_append, List.count_append, Event.is_fault,
      Event.is_ref_change]

theorem hvm_set_cr3_bad_frame_witness :
    hvm_set_cr3 broken_shadow_env 0x2000 long_mode_vcpu =
      (0, { long_mode_vcpu with trace := [Event.domain_crash] }) :=
  (hvm_set_cr3_bad_frame broken_shadow_env 0x2000 long_mode_vcpu rfl (by decide) (by decide)
    (Or.inl rfl)).1

example :
    hvm_set_cr3 { broken_shadow_env with mfn_valid := fun _ => true } 0x2000 long_mode_vcpu =
      (0, { long_mode_vcpu with trace := [Event.get_page 2 false, Event.domain_crash] }) := by
  decide

/-- C18 (counterexample): with hardware-assisted paging a CR3 write is not a
no-op: the mirrored CR3 takes the written value. -/
theorem hvm_set_cr3_hap_records :
    long_mode_vcpu.guest_cr3 = 0x1000 ∧
    (hvm_set_cr3 hap_env 0x2000 long_mode_vcpu).2.guest_cr3 = 0x2000 := by
  decide

/-- C18 (amended): when hardware-assisted paging is active or guest paging is
disabled, `hvm_set_cr3` validates, pins and releases no frame and leaves the
page-table root unchanged; it records the value as the mirrored CR3, calls
`paging_update_cr3` and returns 1. -/
theorem hvm_set_cr3_no_shadow (e : cr_env) (value : Nat) (v : hvm_vcpu)
    (h : e.paging_mode_hap = true ∨ hvm_paging_enabled v = false) :
    hvm_set_cr3 e value v =
      (1, { v with guest_cr3 := value, trace := v.trace ++ [Event.paging_update_cr3] }) := by
  have hc : e.paging_mode_hap = true ∨ (!hvm_paging_enabled v) = true := by
    rcases h with h | h
    · exact Or.inl h
    · exact Or.inr (by simp [h])
  simp only [hvm_set_cr3, if_pos hc, hvm_set_cr3_done, hvm_vcpu.emit]

theorem hvm_set_cr3_no_shadow_witness :
    hvm_set_cr3 hap_env 0x2000 long_mode_vcpu =
      (1, { long_mode_vcpu with guest_cr3 := 0x2000, trace := [Event.paging_update_cr3] }) :=
  hvm_set_cr3_no_shadow hap_env 0x2000 long_mode_vcpu (Or.inl rfl)

/-! ## Theorems: VMX interrupt assist -/

theorem lor_land_self_ne_zero (x c : Nat) (hc : c ≠ 0) : (x ||| c) &&& c ≠ 0 := by
  have h : (x ||| c) &&& c = c := by
    apply Nat.eq_of_testBit_eq
    intro i
    simp only [Nat.testBit_and, Nat.testBit_or]
    cases x.testBit i <;> cases c.testBit i <;> rfl
  rw [h]; exact hc

theorem window_bit_ne_zero (e : vmx_env) (s : hvm_intack) : window_bit e s ≠ 0 := by
  unfold window_bit
  split <;> decide

/-- What `enable_intr_window` does for a pending source: the window bit of
the source is set afterwards, the entry interruption information is not
touched, and nothing is injected or acknowledged. -/
theorem enable_intr_window_spec (e : vmx_env) (s : hvm_intack) (v : vmx_vcpu)
    (hs : s ≠ hvm_intack.hvm_intack_none) :
    (enable_intr_window e s v).exec_control &&& window_bit e s ≠ 0 ∧
    injections (enable_intr_window e s v).trace = injections v.trace ∧
    (enable_intr_window e s v).trace.countP Event.is_ack_call
      = v.trace.countP Event.is_ack_call ∧
    (enable_intr_window e s v).trace.countP Event.is_acked
      = v.trace.countP Event.is_acked := by
  have hb := window_bit_ne_zero e s
  by_cases hn : s = hvm_intack.hvm_intack_nmi ∧ e.cpu_has_vmx_vnmi = true
  · have hw : window_bit e s = CPU_BASED_VIRTUAL_NMI_PENDING := by
      simp [window_bit, hn]
    rw [hw] at hb ⊢
    by_cases hsti : v.GUEST_INTERRUPTIBILITY_INFO &&& VMX_INTR_SHADOW_STI ≠ 0 <;>
    by_cases hx : v.exec_control &&& CPU_BASED_VIRTUAL_NMI_PENDING = 0 <;>
    simp [enable_intr_window, hs, hn, hsti, hx, __vmread, __vmwrite, vmx_vcpu.emit,
      injections, List.countP_append, Event.is_inject, Event.is_ack_call, Event.is_acked,
      lor_land_self_ne_zero _ _ hb]
  · have hw : window_bit e s = CPU_BASED_VIRTUAL_INTR_PENDING := by
      simp [window_bit, hn]
    rw [hw] at hb ⊢
    by_cases hx : v.exec_control &&& CPU_BASED_VIRTUAL_INTR_PENDING = 0 <;>
    simp [enable_intr_window, hs, hn, hx, __vmwrite, vmx_vcpu.emit,
      injections, List.countP_append, Event.is_inject, Event.is_ack_call, Event.is_acked,
      lor_land_self_ne_zero _ _ hb]

/-- The call `update_tpr_threshold` touches neither the execution control
nor its VMCS copy, and injects and acknowledges nothing. -/
theorem update_tpr_threshold_frame (e : vmx_env) (s : hvm_intack) (v : vmx_vcpu) :
    (update_tpr_threshold e s v).exec_control = v.exec_control ∧
    (update_tpr_threshold e s v).CPU_BASED_VM_EXEC_CONTROL = v.CPU_BASED_VM_EXEC_CONTROL ∧
    injections (update_tpr_threshold e s v).trace = injections v.trace ∧
    (update_tpr_threshold e s v).trace.countP Event.is_ack_call
      = v.trace.countP Event.is_ack_call ∧
    (update_tpr_threshold e s v).trace.countP Event.is_acked
      = v.trace.countP Event.is_acked := by
  cases ht : e.cpu_has_vmx_tpr_shadow <;>
    simp [update_tpr_threshold, ht, __vmwrite, vmx_vcpu.emit, injections,
      List.countP_append, Event.is_inject, Event.is_ack_call, Event.is_acked]

/-- The statements before the loop touch neither the execution control nor
the VMCS fields, and inject and acknowledge nothing. -/
theorem vmx_intr_assist_prologue_frame (e : vmx_env) (v : vmx_vcpu) :
    (vmx_intr_assist_prologue e v).exec_control = v.exec_control ∧
    (vmx_intr_assist_prologue e v).CPU_BASED_VM_EXEC_CONTROL = v.CPU_BASED_VM_EXEC_CONTROL ∧
    (vmx_intr_assist_prologue e v).VM_ENTRY_INTR_INFO = v.VM_ENTRY_INTR_INFO ∧
    injections (vmx_intr_assist_prologue e v).trace = injections v.trace ∧
    (vmx_intr_assist_prologue e v).trace.countP Event.is_ack_call
      = v.trace.countP Event.is_ack_call ∧
    (vmx_intr_assist_prologue e v).trace.countP Event.is_acked
      = v.trace.countP Event.is_acked := by
  have hmap : ∀ (p : Event → Bool) (l : List Nat),
      (∀ d i, p (Event.hvm_pci_intx_assert d i) = false) →
      (l.map (fun irq => Event.hvm_pci_intx_assert (e.mirq irq).1 (e.mirq irq).2)).countP p
        = 0 := by
    intro p l hp
    rw [List.countP_eq_zero]
    intro a ha
    obtain ⟨irq, _, rfl⟩ := List.mem_map.mp ha
    simp [hp]
  by_cases hd : e.vtd_enabled = true ∧ v.vcpu_id = 0
  · simp [vmx_intr_assist_prologue, vmx_vcpu.emit, hd, vmx_dirq_assist, injections,
      List.countP_append, Event.is_inject, Event.is_ack_call, Event.is_acked,
      hmap Event.is_inject v.dirq_mask (fun _ _ => rfl),
      hmap Event.is_ack_call v.dirq_mask (fun _ _ => rfl),
      hmap Event.is_acked v.dirq_mask (fun _ _ => rfl)]
  · simp [vmx_intr_assist_prologue, vmx_vcpu.emit, hd, injections,
      List.countP_append, Event.is_inject, Event.is_ack_call, Event.is_acked]

theorem failed_passes_counts (pre : List intr_obs) :
    injections (failed_passes pre) = 0 ∧
    (failed_passes pre).countP Event.is_acked = 0 ∧
    (failed_passes pre).countP Event.is_ack_call = pre.length := by
  induction pre with
  | nil => simp [failed_passes, injections]
  | cons o os ih =>
    obtain ⟨i1, i2, i3⟩ := ih
    simp only [injections] at i1
    simp [failed_passes, injections, List.countP_cons, Event.is_inject, Event.is_acked,
      Event.is_ack_call, i1, i2, i3]

theorem vmx_intr_assist_loop_blocked (e : vmx_env) (src : hvm_intack) (a : Option Nat)
    (rest : List intr_obs) (hsrc : src ≠ hvm_intack.hvm_intack_none)
    (pre : List intr_obs) (w : vmx_vcpu)
    (hpre : ∀ o ∈ pre, o.1 ≠ hvm_intack.hvm_intack_none ∧ ¬ intr_blocked e w o.1 ∧ o.2 = none)
    (hb : intr_blocked e w src) :
    vmx_intr_assist_loop e (pre ++ (src, a) :: rest) w =
      intr_loop_exit.out src
        (enable_intr_window e src
          { w with trace := w.trace ++ failed_passes pre ++
              [Event.vmread vmcs_field.VM_ENTRY_INTR_INFO] }) := by
  induction pre generalizing w with
  | nil =>
    have hc : w.VM_ENTRY_INTR_INFO &&& INTR_INFO_VALID_MASK ≠ 0 ∨
        (!e.hvm_interrupts_enabled src) = true := by
      rcases hb with h | h
      · exact Or.inl h
      · exact Or.inr (by simp [h])
    simp only [List.nil_append, vmx_intr_assist_loop, if_neg hsrc, __vmread, vmx_vcpu.emit,
      if_pos hc, failed_passes, List.append_nil]
  | cons o os ih =>
    obtain ⟨s, k⟩ := o
    obtain ⟨h1, h2, h3⟩ := hpre (s, k) (List.mem_cons_self _ _)
    simp only at h1 h2 h3
    subst h3
    have hc : ¬ (w.VM_ENTRY_INTR_INFO &&& INTR_INFO_VALID_MASK ≠ 0 ∨
        (!e.hvm_interrupts_enabled s) = true) := by
      intro h
      apply h2
      rcases h with h | h
      · exact Or.inl h
      · exact Or.inr (by simpa using h)
    have hrest : ∀ o ∈ os, o.1 ≠ hvm_intack.hvm_intack_none ∧
        ¬ intr_blocked e
          { w with trace := w.trace ++ [Event.vmread vmcs_field.VM_ENTRY_INTR_INFO] ++
              [Event.hvm_vcpu_ack_pending_irq s none] } o.1 ∧ o.2 = none :=
      fun o ho => hpre o (List.mem_cons_of_mem _ ho)
    have := ih { w with trace := w.trace ++ [Event.vmread vmcs_field.VM_ENTRY_INTR_INFO] ++
              [Event.hvm_vcpu_ack_pending_irq s none] } hrest hb
    have step : vmx_intr_assist_loop e ((s, none) :: os ++ (src, a) :: rest) w =
        vmx_intr_assist_loop e (os ++ (src, a) :: rest)
          { w with trace := w.trace ++ [Event.vmread vmcs_field.VM_ENTRY_INTR_INFO] ++
              [Event.hvm_vcpu_ack_pending_irq s none] } := by
      simp only [List.cons_append, vmx_intr_assist_loop, if_neg h1, __vmread, vmx_vcpu.emit,
        if_neg hc]
      rfl
    rw [step, this]
    simp [failed_passes]

/-- C19 (counterexample): an NMI is pending and deliverable, and behind it
the LAPIC is pending while interrupts are not enabled for it.  The call
acknowledges the NMI and injects it, then requests the interrupt window for
the LAPIC: a source is pending and blocked, its window is requested, and an
injection is made on the same call. -/
theorem vmx_intr_assist_injects_then_window :
    extint_masked_vmx_env.hvm_interrupts_enabled hvm_intack.hvm_intack_lapic = false ∧
    vmx_intr_assist extint_masked_vmx_env
        [(hvm_intack.hvm_intack_nmi, some 2), (hvm_intack.hvm_intack_lapic, none)]
        idle_vmx_vcpu =
      { idle_vmx_vcpu with
        exec_control := 0x4, CPU_BASED_VM_EXEC_CONTROL := 0x4,
        trace := [Event.pt_update_irq, Event.hvm_set_callback_irq_level,
          Event.vmread vmcs_field.VM_ENTRY_INTR_INFO,
          Event.hvm_vcpu_ack_pending_irq hvm_intack.hvm_intack_nmi (some 2),
          Event.vmx_inject_nmi,
          Event.vmwrite vmcs_field.CPU_BASED_VM_EXEC_CONTROL 0x4,
          Event.vmwrite vmcs_field.TPR_THRESHOLD 0] } ∧
    (vmx_intr_assist extint_masked_vmx_env
        [(hvm_intack.hvm_intack_nmi, some 2), (hvm_intack.hvm_intack_lapic, none)]
        idle_vmx_vcpu).exec_control
      &&& window_bit extint_masked_vmx_env hvm_intack.hvm_intack_lapic ≠ 0 ∧
    injections idle_vmx_vcpu.trace = 0 ∧
    injections (vmx_intr_assist extint_masked_vmx_env
        [(hvm_intack.hvm_intack_nmi, some 2), (hvm_intack.hvm_intack_lapic, none)]
        idle_vmx_vcpu).trace = 1 := by
  decide

/-- C19 (amended): when the loop of `vmx_intr_assist` comes to a pending
source whose injection is blocked (the entry interruption information read
at that point has its valid bit set, or interrupts are not enabled for the
source), every earlier pass of the loop on that call having examined a
pending source that is not blocked and whose acknowledgement failed, the
function requests the window for that source and goes straight to the
threshold update: the window bit of the source is set in the execution
control afterwards, nothing is injected and no acknowledgement hands back a
vector.  The only calls of `hvm_vcpu_ack_pending_irq` are those of the
earlier passes; when the blocked source is the first one examined, it is not
called at all. -/
theorem vmx_intr_assist_blocked (e : vmx_env) (v : vmx_vcpu) (pre : List intr_obs)
    (src : hvm_intack) (a : Option Nat) (rest : List intr_obs)
    (hpre : ∀ o ∈ pre, o.1 ≠ hvm_intack.hvm_intack_none ∧ ¬ intr_blocked e v o.1 ∧ o.2 = none)
    (hsrc : src ≠ hvm_intack.hvm_intack_none) (hb : intr_blocked e v src) :
    vmx_intr_assist e (pre ++ (src, a) :: rest) v =
      update_tpr_threshold e src
        (enable_intr_window e src
          { vmx_intr_assist_prologue e v with
            trace := (vmx_intr_assist_prologue e v).trace ++ failed_passes pre ++
              [Event.vmread vmcs_field.VM_ENTRY_INTR_INFO] }) ∧
    (vmx_intr_assist e (pre ++ (src, a) :: rest) v).exec_control &&& window_bit e src ≠ 0 ∧
    injections (vmx_intr_assist e (pre ++ (src, a) :: rest) v).trace = injections v.trace ∧
    (vmx_intr_assist e (pre ++ (src, a) :: rest) v).trace.countP Event.is_acked
      = v.trace.countP Event.is_acked ∧
    (vmx_intr_assist e (pre ++ (src, a) :: rest) v).trace.countP Event.is_ack_call
      = v.trace.countP Event.is_ack_call + pre.length := by
  obtain ⟨_, _, p3, p4, p5, p6⟩ := vmx_intr_assist_prologue_frame e v
  have hblk : ∀ s, intr_blocked e (vmx_intr_assist_prologue e v) s ↔ intr_blocked e v s := by
    intro s; simp only [intr_blocked, p3]
  have hpre' : ∀ o ∈ pre, o.1 ≠ hvm_intack.hvm_intack_none ∧
      ¬ intr_blocked e (vmx_intr_assist_prologue e v) o.1 ∧ o.2 = none := by
    intro o ho
    obtain ⟨a1, a2, a3⟩ := hpre o ho
    exact ⟨a1, fun h => a2 ((hblk _).mp h), a3⟩
  have hloop := vmx_intr_assist_loop_blocked e src a rest hsrc pre
    (vmx_intr_assist_prologue e v) hpre' ((hblk src).mpr hb)
  have hres : vmx_intr_assist e (pre ++ (src, a) :: rest) v =
      update_tpr_threshold e src
        (enable_intr_window e src
          { vmx_intr_assist_prologue e v with
            trace := (vmx_intr_assist_prologue e v).trace ++ failed_passes pre ++
              [Event.vmread vmcs_field.VM_ENTRY_INTR_INFO] }) := by
    simp only [vmx_intr_assist, hloop]
  obtain ⟨f1, f2, f3⟩ := failed_passes_counts pre
  obtain ⟨t1, _, t3, t4, t5⟩ := update_tpr_threshold_frame e src
    (enable_intr_window e src
      { vmx_intr_assist_prologue e v with
        trace := (vmx_intr_assist_prologue e v).trace ++ failed_passes pre ++
          [Event.vmread vmcs_field.VM_ENTRY_INTR_INFO] })
  obtain ⟨w1, w2, w3, w4⟩ := enable_intr_window_spec e src
    { vmx_intr_assist_prologue e v with
      trace := (vmx_intr_assist_prologue e v).trace ++ failed_passes pre ++
        [Event.vmread vmcs_field.VM_ENTRY_INTR_INFO] } hsrc
  refine ⟨hres, ?_, ?_, ?_, ?_⟩
  · rw [hres, t1]; exact w1
  · rw [hres, t3, w2]
    simp only [injections, List.countP_append] at p4 f1 ⊢
    simp [p4, f1, Event.is_inject]
  · rw [hres, t5, w4]
    simp only [List.countP_append]
    simp [p6, f2, Event.is_acked]
  · rw [hres, t4, w3]
    simp only [List.countP_append]
    simp [p5, f3, Event.is_ack_call]

theorem vmx_intr_assist_blocked_witness :
    (vmx_intr_assist sample_vmx_env
        [(hvm_intack.hvm_intack_lapic, none), (hvm_intack.hvm_intack_nmi, some 2)]
        sti_blocked_vcpu).exec_control
      &&& window_bit sample_vmx_env hvm_intack.hvm_intack_nmi ≠ 0 ∧
    injections (vmx_intr_assist sample_vmx_env
        [(hvm_intack.hvm_intack_lapic, none), (hvm_intack.hvm_intack_nmi, some 2)]
        sti_blocked_vcpu).trace = injections sti_blocked_vcpu.trace :=
  have h := vmx_intr_assist_blocked sample_vmx_env sti_blocked_vcpu
    [(hvm_intack.hvm_intack_lapic, none)] hvm_intack.hvm_intack_nmi (some 2) []
    (by unfold intr_blocked; decide) (by decide) (Or.inr rfl)
  ⟨h.2.1, h.2.2.1⟩

example :
    vmx_intr_assist sample_vmx_env
        [(hvm_intack.hvm_intack_lapic, none), (hvm_intack.hvm_intack_nmi, some 2)]
        sti_blocked_vcpu =
      { sti_blocked_vcpu with
        exec_control := 0x400000, CPU_BASED_VM_EXEC_CONTROL := 0x400000,
        GUEST_INTERRUPTIBILITY_INFO := 0x2,
        trace := [Event.pt_update_irq, Event.hvm_set_callback_irq_level,
          Event.vmread vmcs_field.VM_ENTRY_INTR_INFO,
          Event.hvm_vcpu_ack_pending_irq hvm_intack.hvm_intack_lapic none,
          Event.vmread vmcs_field.VM_ENTRY_INTR_INFO,
          Event.vmread vmcs_field.GUEST_INTERRUPTIBILITY_INFO,
          Event.vmwrite vmcs_field.GUEST_INTERRUPTIBILITY_INFO 0x2,
          Event.vmwrite vmcs_field.CPU_BASED_VM_EXEC_CONTROL 0x400000,
          Event.vmwrite vmcs_field.TPR_THRESHOLD 0] } := by
  decide

example :
    vmx_intr_assist sample_vmx_env
        [(hvm_intack.hvm_intack_lapic, some 0x31), (hvm_intack.hvm_intack_pic, none)]
        sti_blocked_vcpu =
      { sti_blocked_vcpu with
        exec_control := 0x4, CPU_BASED_VM_EXEC_CONTROL := 0x4,
        trace := [Event.pt_update_irq, Event.hvm_set_callback_irq_level,
          Event.vmread vmcs_field.VM_ENTRY_INTR_INFO,
          Event.hvm_vcpu_ack_pending_irq hvm_intack.hvm_intack_lapic (some 0x31),
          Event.vmx_inject_extint 0x31,
          Event.pt_intr_post 0x31 hvm_intack.hvm_intack_lapic,
          Event.vmwrite vmcs_field.CPU_BASED_VM_EXEC_CONTROL 0x4,
          Event.vmwrite vmcs_field.TPR_THRESHOLD 0] } := by
  decide

/-- C20 (counterexample): with no source pending, a window requested earlier
is still requested after `vmx_intr_assist`: the virtual-interrupt-pending
bit of the execution control stays set. -/
theorem vmx_intr_assist_keeps_window :
    window_open_vcpu.exec_control &&& CPU_BASED_VIRTUAL_INTR_PENDING ≠ 0 ∧
    (vmx_intr_assist sample_vmx_env [] window_open_vcpu).exec_control
      &&& CPU_BASED_VIRTUAL_INTR_PENDING ≠ 0 ∧
    (vmx_intr_assist sample_vmx_env [] window_open_vcpu).CPU_BASED_VM_EXEC_CONTROL
      &&& CPU_BASED_VIRTUAL_INTR_PENDING ≠ 0 := by
  decide

/-- C20 (amended): on a call of `vmx_intr_assist` with no source pending,
nothing is injected or acknowledged, no window is requested, and the
execution control and its VMCS copy are left exactly as they were (a window
requested earlier is not cleared by this function); the function only runs
its prologue and the threshold update. -/
theorem vmx_intr_assist_idle (e : vmx_env) (obs : List intr_obs) (v : vmx_vcpu)
    (hnone : next_source obs = hvm_intack.hvm_intack_none) :
    vmx_intr_assist e obs v =
      update_tpr_threshold e hvm_intack.hvm_intack_none (vmx_intr_assist_prologue e v) ∧
    (vmx_intr_assist e obs v).exec_control = v.exec_control ∧
    (vmx_intr_assist e obs v).CPU_BASED_VM_EXEC_CONTROL = v.CPU_BASED_VM_EXEC_CONTROL ∧
    injections (vmx_intr_assist e obs v).trace = injections v.trace ∧
    (vmx_intr_assist e obs v).trace.countP Event.is_ack_call
      = v.trace.countP Event.is_ack_call := by
  have hres : vmx_intr_assist e obs v =
      update_tpr_threshold e hvm_intack.hvm_intack_none (vmx_intr_assist_prologue e v) := by
    cases obs with
    | nil => simp only [vmx_intr_assist, vmx_intr_assist_loop]
    | cons o os =>
      obtain ⟨s, k⟩ := o
      simp only [next_source] at hnone
      subst hnone
      simp only [vmx_intr_assist, vmx_intr_assist_loop, if_true]
  obtain ⟨p1, p2, _, p4, p5, _⟩ := vmx_intr_assist_prologue_frame e v
  obtain ⟨t1, t2, t3, t4, _⟩ :=
    update_tpr_threshold_frame e hvm_intack.hvm_intack_none (vmx_intr_assist_prologue e v)
  refine ⟨hres, ?_, ?_, ?_, ?_⟩
  · rw [hres, t1, p1]
  · rw [hres, t2, p2]
  · rw [hres, t3, p4]
  · rw [hres, t4, p5]

theorem vmx_intr_assist_idle_witness :
    (vmx_intr_assist sample_vmx_env [] window_open_vcpu).exec_control
      = window_open_vcpu.exec_control ∧
    injections (vmx_intr_assist sample_vmx_env [] window_open_vcpu).trace
      = injections window_open_vcpu.trace :=
  have h := vmx_intr_assist_idle sample_vmx_env [] window_open_vcpu rfl
  ⟨h.2.1, h.2.2.2.1⟩

/-- Bits of `a & ~b`. -/
theorem and_not_testBit (a b i : Nat) :
    (and_not a b).testBit i = (a.testBit i && !b.testBit i) := by
  simp only [and_not, Nat.testBit_xor, Nat.testBit_and]
  cases a.testBit i <;> cases b.testBit i <;> rfl

/-- Clearing STI and setting MOV-SS leaves STI clear. -/
theorem sti_cleared (x : Nat) :
    (and_not x VMX_INTR_SHADOW_STI ||| VMX_INTR_SHADOW_MOV_SS) &&& VMX_INTR_SHADOW_STI = 0 := by
  apply Nat.eq_of_testBit_eq
  intro i
  simp only [Nat.testBit_and, Nat.testBit_or, and_not_testBit, VMX_INTR_SHADOW_STI,
    VMX_INTR_SHADOW_MOV_SS, Nat.zero_testBit]
  rcases i with _ | _ | i <;> simp [Nat.testBit_succ] 

/-- Bits 2 and up survive the replacement of STI by MOV-SS. -/
theorem shadow_other_bits (x i : Nat) (hi : 2 ≤ i) :
    (and_not x VMX_INTR_SHADOW_STI ||| VMX_INTR_SHADOW_MOV_SS).testBit i = x.testBit i := by
  have hp : 2 ^ 2 ≤ 2 ^ i := Nat.pow_le_pow_right (by norm_num) hi
  have h1 : Nat.testBit 1 i = false := Nat.testBit_eq_false_of_lt (by omega)
  have h2 : Nat.testBit 2 i = false := Nat.testBit_eq_false_of_lt (by omega)
  simp only [Nat.testBit_or, and_not_testBit, VMX_INTR_SHADOW_STI, VMX_INTR_SHADOW_MOV_SS,
    h1, h2]
  simp

/-- The replacement sets MOV-SS. -/
theorem mov_ss_set (x : Nat) :
    (and_not x VMX_INTR_SHADOW_STI ||| VMX_INTR_SHADOW_MOV_SS) &&& VMX_INTR_SHADOW_MOV_SS ≠ 0 :=
  lor_land_self_ne_zero _ _ (by decide)

/-- C21: after `enable_intr_window` for the NMI source on a CPU with virtual
NMIs the interruptibility word never has blocking-by-STI set, so never
together with blocking-by-MOV-SS; a set STI flag has been replaced by the
MOV-SS flag with every other bit kept, and a word without the STI flag is
left as it was. -/
theorem enable_intr_window_nmi_shadow (e : vmx_env) (v : vmx_vcpu)
    (hv : e.cpu_has_vmx_vnmi = true) :
    (enable_intr_window e hvm_intack.hvm_intack_nmi v).GUEST_INTERRUPTIBILITY_INFO
        &&& VMX_INTR_SHADOW_STI = 0 ∧
    ¬ ((enable_intr_window e hvm_intack.hvm_intack_nmi v).GUEST_INTERRUPTIBILITY_INFO
          &&& VMX_INTR_SHADOW_STI ≠ 0 ∧
       (enable_intr_window e hvm_intack.hvm_intack_nmi v).GUEST_INTERRUPTIBILITY_INFO
          &&& VMX_INTR_SHADOW_MOV_SS ≠ 0) ∧
    (v.GUEST_INTERRUPTIBILITY_INFO &&& VMX_INTR_SHADOW_STI ≠ 0 →
      (enable_intr_window e hvm_intack.hvm_intack_nmi v).GUEST_INTERRUPTIBILITY_INFO
          = and_not v.GUEST_INTERRUPTIBILITY_INFO VMX_INTR_SHADOW_STI
              ||| VMX_INTR_SHADOW_MOV_SS ∧
      (enable_intr_window e hvm_intack.hvm_intack_nmi v).GUEST_INTERRUPTIBILITY_INFO
          &&& VMX_INTR_SHADOW_MOV_SS ≠ 0) ∧
    (v.GUEST_INTERRUPTIBILITY_INFO &&& VMX_INTR_SHADOW_STI = 0 →
      (enable_intr_window e hvm_intack.hvm_intack_nmi v).GUEST_INTERRUPTIBILITY_INFO
          = v.GUEST_INTERRUPTIBILITY_INFO) ∧
    (∀ i, 2 ≤ i →
      ((enable_intr_window e hvm_intack.hvm_intack_nmi v).GUEST_INTERRUPTIBILITY_INFO).testBit i
          = v.GUEST_INTERRUPTIBILITY_INFO.testBit i) := by
  have key :
      (enable_intr_window e hvm_intack.hvm_intack_nmi v).GUEST_INTERRUPTIBILITY_INFO
        = if v.GUEST_INTERRUPTIBILITY_INFO &&& VMX_INTR_SHADOW_STI ≠ 0 then
            and_not v.GUEST_INTERRUPTIBILITY_INFO VMX_INTR_SHADOW_STI
              ||| VMX_INTR_SHADOW_MOV_SS
          else v.GUEST_INTERRUPTIBILITY_INFO := by
    by_cases hsti : v.GUEST_INTERRUPTIBILITY_INFO &&& VMX_INTR_SHADOW_STI ≠ 0 <;>
    by_cases hx : v.exec_control &&& CPU_BASED_VIRTUAL_NMI_PENDING = 0 <;>
    simp [enable_intr_window, hv, hsti, hx, __vmread, __vmwrite, vmx_vcpu.emit]
  rw [key]
  by_cases hsti : v.GUEST_INTERRUPTIBILITY_INFO &&& VMX_INTR_SHADOW_STI ≠ 0
  · rw [if_pos hsti]
    have h0 := sti_cleared v.GUEST_INTERRUPTIBILITY_INFO
    exact ⟨h0, fun h => h.1 h0, fun _ => ⟨rfl, mov_ss_set _⟩, fun h => absurd h hsti,
      fun i hi => shadow_other_bits _ i hi⟩
  · rw [if_neg hsti]
    have h0 : v.GUEST_INTERRUPTIBILITY_INFO &&& VMX_INTR_SHADOW_STI = 0 := not_not.mp hsti
    exact ⟨h0, fun h => h.1 h0, fun h => absurd h hsti, fun _ => rfl, fun _ _ => rfl⟩

theorem enable_intr_window_nmi_shadow_witness :
    sample_vmx_env.cpu_has_vmx_vnmi = true ∧
    (enable_intr_window sample_vmx_env hvm_intack.hvm_intack_nmi
        sti_blocked_vcpu).GUEST_INTERRUPTIBILITY_INFO = 0x2 :=
  ⟨rfl, ((enable_intr_window_nmi_shadow sample_vmx_env sti_blocked_vcpu rfl).2.2.1
    (by decide)).1.trans (by decide)⟩

/-- C26 (counterexample): with a TPR shadow, no blocked source and vector
0x31 pending at the enabled LAPIC while the task priority is 0, the value
published to the threshold register is 0, not the priority class 3. -/
theorem update_tpr_threshold_unmasked_vector :
    pending_vmx_env.cpu_has_vmx_tpr_shadow = true ∧
    pending_vmx_env.vlapic_enabled = true ∧
    pending_vmx_env.vlapic_find_highest_irr = 0x31 ∧
    (0x31 : Nat) / 16 = 3 ∧
    (update_tpr_threshold pending_vmx_env hvm_intack.hvm_intack_none
        window_open_vcpu).TPR_THRESHOLD = 0 ∧
    (update_tpr_threshold pending_vmx_env hvm_intack.hvm_intack_none
        window_open_vcpu).trace = [Event.vmwrite vmcs_field.TPR_THRESHOLD 0] := by
  decide

/-- C26 (amended): on a CPU with a TPR shadow `update_tpr_threshold` writes
the threshold register exactly once.  The value is 0 when the blocked source
is the LAPIC or the PIC, when the LAPIC is disabled and when no vector is
pending; with another source and a highest pending vector `m` at the enabled
LAPIC it is the priority class `m / 16` if the class of the task priority
(bits 4-7 of the register) is at least that class, and 0 otherwise. -/
theorem update_tpr_threshold_published (e : vmx_env) (s : hvm_intack) (v : vmx_vcpu) (m : Nat)
    (ht : e.cpu_has_vmx_tpr_shadow = true) :
    (update_tpr_threshold e s v).trace
      = v.trace ++ [Event.vmwrite vmcs_field.TPR_THRESHOLD
          (update_tpr_threshold e s v).TPR_THRESHOLD] ∧
    (s = hvm_intack.hvm_intack_lapic ∨ s = hvm_intack.hvm_intack_pic ∨
        e.vlapic_enabled = false ∨ e.vlapic_find_highest_irr = -1 →
      (update_tpr_threshold e s v).TPR_THRESHOLD = 0) ∧
    (s ≠ hvm_intack.hvm_intack_lapic → s ≠ hvm_intack.hvm_intack_pic →
        e.vlapic_enabled = true → e.vlapic_find_highest_irr = (m : Int) →
      (update_tpr_threshold e s v).TPR_THRESHOLD
        = if m / 16 ≤ (e.vlapic_taskpri &&& 0xF0) / 16 then m / 16 else 0) := by
  refine ⟨?_, ?_, ?_⟩
  · simp [update_tpr_threshold, ht, __vmwrite, vmx_vcpu.emit]
  · intro h
    by_cases h1 : s = hvm_intack.hvm_intack_lapic ∨ s = hvm_intack.hvm_intack_pic
    · simp [update_tpr_threshold, ht, __vmwrite, vmx_vcpu.emit, h1]
    · have h2 : e.vlapic_enabled = false ∨ e.vlapic_find_highest_irr = -1 := by tauto
      simp [update_tpr_threshold, ht, __vmwrite, vmx_vcpu.emit, h1]
      intro h3 h4
      rcases h2 with h2 | h2
      · rw [h2] at h3; exact absurd h3 (by simp)
      · exact absurd h2 h4
  · intro h1 h2 h3 h4
    have hm : ¬ ((m : Int) = -1) := by omega
    have hs : ((m : Int) >>> 4) = ((m / 16 : Nat) : Int) := by
      have h0 : ((m : Int) >>> 4) = ((m >>> 4 : Nat) : Int) := rfl
      rw [h0, Nat.shiftRight_eq_div_pow]
    have hq : (e.vlapic_taskpri &&& 240) >>> 4 = (e.vlapic_taskpri &&& 240) / 16 := by
      rw [Nat.shiftRight_eq_div_pow]
    simp only [update_tpr_threshold, ht, __vmwrite, vmx_vcpu.emit, h1, h2, h3, h4, hm, hs, hq]
    simp
    split_ifs <;> omega

theorem update_tpr_threshold_published_witness :
    masked_vmx_env.cpu_has_vmx_tpr_shadow = true ∧
    (update_tpr_threshold masked_vmx_env hvm_intack.hvm_intack_nmi
        window_open_vcpu).TPR_THRESHOLD = 3 :=
  ⟨rfl, ((update_tpr_threshold_published masked_vmx_env hvm_intack.hvm_intack_nmi
    window_open_vcpu 0x31 rfl).2.2 (by decide) (by decide) rfl rfl).trans (by decide)⟩


/-! ## Theorems: control registers, successful writes -/

/-- A masked bit that is not zero is the whole single-bit mask. -/
theorem land_two_pow_of_ne_zero (x k : Nat) (h : x &&& 2 ^ k ≠ 0) : x &&& 2 ^ k = 2 ^ k := by
  rw [Nat.and_two_pow] at h ⊢
  cases hb : x.testBit k
  · rw [hb] at h; simp at h
  · simp

/-- Paging without protected mode is what the second check of `hvm_set_cr0`
rejects. -/
theorem pg_without_pe (x : Nat) (hpg : x &&& X86_CR0_PG ≠ 0) (hpe : x &&& X86_CR0_PE = 0) :
    x &&& (X86_CR0_PE ||| X86_CR0_PG) = X86_CR0_PG := by
  have h : x &&& X86_CR0_PG = X86_CR0_PG := land_two_pow_of_ne_zero x 31 hpg
  rw [Nat.and_or_distrib_left, hpe, h]
  simp

/-- No bit of the mask survives `a & ~mask`, and a bit outside the mask that
is or-ed in stays outside. -/
theorem and_not_lor_land (a r t : Nat) (h : r &&& t = 0) : (and_not a r ||| t) &&& r = 0 := by
  apply Nat.eq_of_testBit_eq
  intro i
  have hi : (r &&& t).testBit i = false := by rw [h]; simp
  simp only [Nat.testBit_and] at hi
  simp only [Nat.testBit_and, Nat.testBit_or, and_not_testBit, Nat.zero_testBit]
  cases a.testBit i <;> cases hr : r.testBit i <;> cases ht : t.testBit i <;> simp_all

/-- C24: whenever `hvm_set_cr0` returns 1 the mirrored CR0 is
`(value & ~HVM_CR0_GUEST_RESERVED_BITS) | X86_CR0_ET`; the extension-type bit
is set in it, no guest-reserved bit is set in it (the extension-type bit not
being one of them), and it does not have paging on with protected mode
off. -/
theorem hvm_set_cr0_result (e : cr_env) (value : Nat) (v : hvm_vcpu)
    (h : (hvm_set_cr0 e value v).1 = 1) :
    (hvm_set_cr0 e value v).2.guest_cr0
      = and_not value e.HVM_CR0_GUEST_RESERVED_BITS ||| X86_CR0_ET ∧
    (hvm_set_cr0 e value v).2.guest_cr0 &&& X86_CR0_ET ≠ 0 ∧
    (e.HVM_CR0_GUEST_RESERVED_BITS &&& X86_CR0_ET = 0 →
      (hvm_set_cr0 e value v).2.guest_cr0 &&& e.HVM_CR0_GUEST_RESERVED_BITS = 0) ∧
    ¬ ((hvm_set_cr0 e value v).2.guest_cr0 &&& X86_CR0_PG ≠ 0 ∧
       (hvm_set_cr0 e value v).2.guest_cr0 &&& X86_CR0_PE = 0) := by
  have key : (hvm_set_cr0 e value v).2.guest_cr0 = cr0_masked e value ∧
      ¬ cr0_masked e value &&& (X86_CR0_PE ||| X86_CR0_PG) = X86_CR0_PG := by
    by_cases h1 : value % 2 ^ 32 ≠ value
    · simp only [hvm_set_cr0, if_pos h1, inject_gp] at h
      exact absurd h (by decide)
    by_cases h2 : cr0_masked e value &&& (X86_CR0_PE ||| X86_CR0_PG) = X86_CR0_PG
    · simp only [hvm_set_cr0, if_neg h1, if_pos h2, inject_gp] at h
      exact absurd h (by decide)
    refine ⟨?_, h2⟩
    obtain ⟨herr, -⟩ := hvm_set_cr0_transition_spec e (cr0_masked e value) v.guest_cr0 v
    cases ht : hvm_set_cr0_transition e (cr0_masked e value) v.guest_cr0 v with
    | error r =>
      have hr : hvm_set_cr0 e value v = r := by
        simp only [hvm_set_cr0, if_neg h1, if_neg h2, ht]
      rw [hr, (herr r ht).1] at h
      exact absurd h (by decide)
    | ok w =>
      simp only [hvm_set_cr0, if_neg h1, if_neg h2, ht]
      split <;> simp [hvm_vcpu.emit]
  obtain ⟨k1, k2⟩ := key
  rw [k1]
  refine ⟨rfl, lor_land_self_ne_zero _ _ (by decide), fun hr => and_not_lor_land _ _ _ hr,
    fun hp => k2 (pg_without_pe _ hp.1 hp.2)⟩

theorem hvm_set_cr0_result_witness :
    (hvm_set_cr0 hap_env 0x80000001 long_mode_request_vcpu).1 = 1 ∧
    (hvm_set_cr0 hap_env 0x80000001 long_mode_request_vcpu).2.guest_cr0 = 0x80000011 :=
  ⟨by decide, (hvm_set_cr0_result hap_env 0x80000001 long_mode_request_vcpu
    (by decide)).1.trans (by decide)⟩


/-- C25: under shadow paging with guest paging enabled, a successful
`hvm_set_cr3(value)` with a value other than the current CR3 takes exactly
one reference, on the frame of `value`, drops exactly one, on the previously
pinned root, when that root is not null (and none otherwise), makes the new
frame the page-table root and records `value` as CR3; a call with the current
CR3 whose frame is the pinned root changes no reference and no root. -/
theorem hvm_set_cr3_shadow (e : cr_env) (value : Nat) (v : hvm_vcpu)
    (hhap : e.paging_mode_hap = false) (hpg : hvm_paging_enabled v = true) :
    (value ≠ v.guest_cr3 → (hvm_set_cr3 e value v).1 = 1 →
      hvm_set_cr3 e value v =
        (1, { v with
              guest_cr3 := value,
              guest_table := e.get_mfn_from_gpfn (value >>> PAGE_SHIFT),
              trace := v.trace ++
                [Event.get_page (e.get_mfn_from_gpfn (value >>> PAGE_SHIFT)) true] ++
                (if v.guest_table ≠ 0 then [Event.put_page v.guest_table] else []) ++
                [Event.paging_update_cr3] }) ∧
      (∀ m, (hvm_set_cr3 e value v).2.trace.count (Event.get_page m true)
          = v.trace.count (Event.get_page m true)
            + (if m = e.get_mfn_from_gpfn (value >>> PAGE_SHIFT) then 1 else 0)) ∧
      (∀ m, (hvm_set_cr3 e value v).2.trace.count (Event.put_page m)
          = v.trace.count (Event.put_page m)
            + (if m = v.guest_table ∧ v.guest_table ≠ 0 then 1 else 0))) ∧
    (value = v.guest_cr3 → e.get_mfn_from_gpfn (value >>> PAGE_SHIFT) = v.guest_table →
      hvm_set_cr3 e value v =
        (1, { v with guest_cr3 := value, trace := v.trace ++ [Event.paging_update_cr3] })) := by
  refine ⟨fun hne hok => ?_, fun heq hm => ?_⟩
  · have hres : hvm_set_cr3 e value v =
        (1, { v with
              guest_cr3 := value,
              guest_table := e.get_mfn_from_gpfn (value >>> PAGE_SHIFT),
              trace := v.trace ++
                [Event.get_page (e.get_mfn_from_gpfn (value >>> PAGE_SHIFT)) true] ++
                (if v.guest_table ≠ 0 then [Event.put_page v.guest_table] else []) ++
                [Event.paging_update_cr3] }) := by
      cases hval : e.mfn_valid (e.get_mfn_from_gpfn (value >>> PAGE_SHIFT))
      · simp [hvm_set_cr3, hhap, hpg, hne, hval, crash_domain] at hok
      · cases hget : e.get_page (e.get_mfn_from_gpfn (value >>> PAGE_SHIFT))
        · simp [hvm_set_cr3, hhap, hpg, hne, hval, hget, crash_domain] at hok
        · by_cases hold : v.guest_table ≠ 0 <;>
            simp [hvm_set_cr3, hhap, hpg, hne, hval, hget, hold, hvm_set_cr3_done,
              hvm_vcpu.emit]
    refine ⟨hres, fun m => ?_, fun m => ?_⟩
    · rw [hres]
      by_cases hold : v.guest_table ≠ 0 <;> by_cases hmm : m = e.get_mfn_from_gpfn (value >>> PAGE_SHIFT) <;>
        simp [List.count_append, List.count_cons, hold, hmm]
    · rw [hres]
      by_cases hold : v.guest_table ≠ 0 <;> by_cases hmm : m = v.guest_table <;>
        simp [List.count_append, List.count_cons, hold, hmm]
  · have hne : ¬ (e.get_mfn_from_gpfn (value >>> PAGE_SHIFT) ≠ v.guest_table) := not_not.mpr hm
    simp only [hvm_set_cr3, hhap, hpg, heq, hvm_set_cr3_done, hvm_vcpu.emit]
    rw [heq] at hne
    simp [hne]

theorem hvm_set_cr3_shadow_witness :
    shadow_env.paging_mode_hap = false ∧ hvm_paging_enabled long_mode_vcpu = true ∧
    0x2000 ≠ long_mode_vcpu.guest_cr3 ∧
    hvm_set_cr3 shadow_env 0x2000 long_mode_vcpu =
      (1, { long_mode_vcpu with
            guest_cr3 := 0x2000, guest_table := 2,
            trace := [Event.get_page 2 true, Event.put_page 1, Event.paging_update_cr3] }) ∧
    hvm_set_cr3 shadow_env 0x1000 long_mode_vcpu =
      (1, { long_mode_vcpu with trace := [Event.paging_update_cr3] }) :=
  ⟨rfl, by decide, by decide,
   ((hvm_set_cr3_shadow shadow_env 0x2000 long_mode_vcpu rfl (by decide)).1
      (by decide) (by decide)).1.trans (by decide),
   ((hvm_set_cr3_shadow shadow_env 0x1000 long_mode_vcpu rfl (by decide)).2
      (by decide) (by decide)).trans (by decide)⟩


/-! ## Theorems: ioreq channel, skipped responses -/

/-- A vCPU parked on READY or INPROCESS sleeps through further READY and
INPROCESS stores and wakes on a store of NONE. -/
theorem park_skip (rest : device_model) (pre : device_model) (w : vcpu)
    (hw : w.ioreq_state = STATE_IOREQ_READY ∨ w.ioreq_state = STATE_IOREQ_INPROCESS)
    (hpre : ∀ s ∈ pre, s = STATE_IOREQ_READY ∨ s = STATE_IOREQ_INPROCESS) :
    park resume_cond (pre ++ STATE_IOREQ_NONE :: rest) w
      = (true, rest, { w with ioreq_state := STATE_IOREQ_NONE }) := by
  have hc : ∀ s, s = STATE_IOREQ_READY ∨ s = STATE_IOREQ_INPROCESS → resume_cond s = false := by
    intro s hs
    rcases hs with hs | hs <;> rw [hs] <;> decide
  induction pre generalizing w with
  | nil =>
    rw [List.nil_append, park]
    simp only [hc _ hw]
    cases rest with
    | nil => simp [park, resume_cond, STATE_IOREQ_NONE, STATE_IOREQ_READY, STATE_IOREQ_INPROCESS]
    | cons s r => simp [park, resume_cond, STATE_IOREQ_NONE, STATE_IOREQ_READY, STATE_IOREQ_INPROCESS]
  | cons s pre ih =>
    rw [List.cons_append, park]
    simp only [hc _ hw]
    have hs := hpre s (List.mem_cons_self _ _)
    have := ih { w with ioreq_state := s } hs (fun t ht => hpre t (List.mem_cons_of_mem _ ht))
    simpa using this

/-- The loop of `hvm_do_resume` ends in a crash only on a state that is none
of the four protocol values. -/
theorem hvm_do_resume_loop_crash (fuel : Nat) (dm : device_model) (v : vcpu)
    (h : (hvm_do_resume_loop fuel dm v).1 = Exit.crashed) :
    (hvm_do_resume_loop fuel dm v).2.ioreq_state ≠ STATE_IOREQ_NONE ∧
    (hvm_do_resume_loop fuel dm v).2.ioreq_state ≠ STATE_IOREQ_READY ∧
    (hvm_do_resume_loop fuel dm v).2.ioreq_state ≠ STATE_IOREQ_INPROCESS ∧
    (hvm_do_resume_loop fuel dm v).2.ioreq_state ≠ STATE_IORESP_READY := by
  induction fuel generalizing dm v with
  | zero => simp [hvm_do_resume_loop] at h
  | succ n ih =>
    rw [hvm_do_resume_loop] at h ⊢
    by_cases h0 : v.ioreq_state = STATE_IOREQ_NONE
    · simp [hvm_do_resume_step, h0] at h
    by_cases h3 : v.ioreq_state = STATE_IORESP_READY
    · simp only [hvm_do_resume_step, h0, h3, if_false, if_true] at h ⊢
      exact ih _ _ h
    by_cases h12 : v.ioreq_state = STATE_IOREQ_READY ∨ v.ioreq_state = STATE_IOREQ_INPROCESS
    · simp only [hvm_do_resume_step, h0, h3, h12, if_false, if_true] at h ⊢
      cases hw : (wait_on_xen_event_channel v.xen_port resume_cond dm v).1
      · simp [hw] at h
      · simp only [hw, if_true] at h ⊢
        exact ih _ _ h
    · simp only [hvm_do_resume_step, h0, h3, h12, if_false, domain_crash_synchronous,
        vcpu.emit]
      exact ⟨h0, fun h => h12 (Or.inl h), fun h => h12 (Or.inr h), h3⟩

/-- C23 (counterexample): a vCPU whose request is READY and whose device
model stores NONE next, without a response, leaves `hvm_do_resume` by a
normal return; the domain is not crashed. -/
theorem hvm_do_resume_skipped_response :
    hvm_do_resume 3 [STATE_IOREQ_NONE] ⟨true, 4, STATE_IOREQ_READY, []⟩
      = (Exit.returned,
         ⟨true, 4, STATE_IOREQ_NONE,
          [Event.pt_thaw_time, Event.wait_on_xen_event_channel 4]⟩) := by
  decide

/-- C23 (amended): for every vCPU, every device model and every bound on the
number of loop passes, whenever `hvm_do_resume` crashes the domain the state
it examined last is none of the four protocol values; and when
`hvm_do_resume` finds the state READY or INPROCESS and the device model,
after any further READY and INPROCESS stores, stores NONE, the drain waits
once and returns normally, with no call of `hvm_io_assist` and no crash. -/
theorem hvm_do_resume_skip_returns (fuel : Nat) (pre rest : device_model) (v : vcpu) :
    (∀ (n : Nat) (dm : device_model),
      (hvm_do_resume n dm v).1 = Exit.crashed →
      (hvm_do_resume n dm v).2.ioreq_state ≠ STATE_IOREQ_NONE ∧
      (hvm_do_resume n dm v).2.ioreq_state ≠ STATE_IOREQ_READY ∧
      (hvm_do_resume n dm v).2.ioreq_state ≠ STATE_IOREQ_INPROCESS ∧
      (hvm_do_resume n dm v).2.ioreq_state ≠ STATE_IORESP_READY) ∧
    ((v.ioreq_state = STATE_IOREQ_READY ∨ v.ioreq_state = STATE_IOREQ_INPROCESS) →
     (∀ s ∈ pre, s = STATE_IOREQ_READY ∨ s = STATE_IOREQ_INPROCESS) →
      hvm_do_resume (fuel + 2) (pre ++ STATE_IOREQ_NONE :: rest) v
        = (Exit.returned,
           { v with
             ioreq_state := STATE_IOREQ_NONE,
             trace := v.trace ++ (if v.fpu_dirtied then [] else [Event.stts])
               ++ [Event.pt_thaw_time, Event.wait_on_xen_event_channel v.xen_port] })) := by
  refine ⟨fun n dm h => hvm_do_resume_loop_crash n dm _ h, fun hv hpre => ?_⟩
  have key : ∀ w : vcpu,
      (w.ioreq_state = STATE_IOREQ_READY ∨ w.ioreq_state = STATE_IOREQ_INPROCESS) →
      hvm_do_resume_loop (fuel + 2) (pre ++ STATE_IOREQ_NONE :: rest) w
        = (Exit.returned,
           { w with ioreq_state := STATE_IOREQ_NONE,
                    trace := w.trace ++ [Event.wait_on_xen_event_channel w.xen_port] }) := by
    intro w hw
    have g0 : w.ioreq_state ≠ STATE_IOREQ_NONE := by
      rcases hw with h | h <;> rw [h] <;> decide
    have g3 : w.ioreq_state ≠ STATE_IORESP_READY := by
      rcases hw with h | h <;> rw [h] <;> decide
    have hp := park_skip rest pre (w.emit (Event.wait_on_xen_event_channel w.xen_port)) hw hpre
    rw [hvm_do_resume_loop]
    simp only [hvm_do_resume_step, g0, g3, hw, if_false, if_true, wait_on_xen_event_channel, hp]
    rw [hvm_do_resume_loop]
    simp [hvm_do_resume_step, vcpu.emit]
  cases hf : v.fpu_dirtied
  · have e1 : hvm_do_resume (fuel + 2) (pre ++ STATE_IOREQ_NONE :: rest) v
        = hvm_do_resume_loop (fuel + 2) (pre ++ STATE_IOREQ_NONE :: rest)
            ((v.emit Event.stts).emit Event.pt_thaw_time) := by
      simp [hvm_do_resume, hf]
    rw [e1, key ((v.emit Event.stts).emit Event.pt_thaw_time) hv]
    simp [vcpu.emit, hf]
  · have e1 : hvm_do_resume (fuel + 2) (pre ++ STATE_IOREQ_NONE :: rest) v
        = hvm_do_resume_loop (fuel + 2) (pre ++ STATE_IOREQ_NONE :: rest)
            (v.emit Event.pt_thaw_time) := by
      simp [hvm_do_resume, hf]
    rw [e1, key (v.emit Event.pt_thaw_time) hv]
    simp [vcpu.emit, hf]

theorem hvm_do_resume_skip_returns_witness :
    ((hvm_do_resume 1 [] ⟨true, 4, 7, []⟩).1 = Exit.crashed ∧
     (hvm_do_resume 1 [] ⟨true, 4, 7, []⟩).2.ioreq_state ≠ STATE_IOREQ_NONE ∧
     (hvm_do_resume 1 [] ⟨true, 4, 7, []⟩).2.ioreq_state ≠ STATE_IOREQ_READY ∧
     (hvm_do_resume 1 [] ⟨true, 4, 7, []⟩).2.ioreq_state ≠ STATE_IOREQ_INPROCESS ∧
     (hvm_do_resume 1 [] ⟨true, 4, 7, []⟩).2.ioreq_state ≠ STATE_IORESP_READY) ∧
    hvm_do_resume 2 [STATE_IOREQ_INPROCESS, STATE_IOREQ_NONE, 7]
        ⟨false, 4, STATE_IOREQ_READY, []⟩
      = (Exit.returned,
         ⟨false, 4, STATE_IOREQ_NONE,
          [Event.stts, Event.pt_thaw_time, Event.wait_on_xen_event_channel 4]⟩) :=
  ⟨⟨by decide, (hvm_do_resume_skip_returns 0 [] [] ⟨true, 4, 7, []⟩).1 1 [] (by decide)⟩,
   (hvm_do_resume_skip_returns 0 [STATE_IOREQ_INPROCESS] [7]
      ⟨false, 4, STATE_IOREQ_READY, []⟩).2 (Or.inl rfl) (by decide)⟩


/-! ## Theorems: hypercall tables -/

/-- C27: in both tables of both builds the entry of
`__HYPERVISOR_grant_table_op` is `do_grant_table_op`, the initialiser
`HYPERCALL(grant_table_op)` coming after the one that names the wrapper.  A
guest call with command 0, for which the wrapper returns -ENOSYS, therefore
reaches `do_grant_table_op` and gets its result (0 here) in 64-bit and in
32-bit mode. -/
theorem grant_table_op_bypasses_wrapper :
    hvm_hypercall32_table Arch.i386 xen_abi xen_abi.__HYPERVISOR_grant_table_op
      = some handler.do_grant_table_op ∧
    hvm_hypercall32_table Arch.x86_64 xen_abi xen_abi.__HYPERVISOR_grant_table_op
      = some handler.do_grant_table_op ∧
    hvm_hypercall64_table xen_abi xen_abi.__HYPERVISOR_grant_table_op
      = some handler.do_grant_table_op ∧
    grant_regs.eax = xen_abi.__HYPERVISOR_grant_table_op ∧
    grant_regs.ebx ≠ GNTTABOP_query_size ∧ grant_regs.edi ≠ GNTTABOP_query_size ∧
    hvm_grant_table_op (fun _ _ _ => 0) 0 0x1000 1 = -ENOSYS ∧
    to_reg 64 (-ENOSYS) ≠ 0 ∧ to_reg 32 (-ENOSYS) ≠ 0 ∧
    (hvm_do_hypercall (grant_env Arch.x86_64 8) ⟨grant_regs, false, []⟩).map
      (fun r => r.2.regs.eax) = some 0 ∧
    (hvm_do_hypercall (grant_env Arch.x86_64 4) ⟨grant_regs, false, []⟩).map
      (fun r => r.2.regs.eax) = some 0 ∧
    (hvm_do_hypercall (grant_env Arch.i386 4) ⟨grant_regs, false, []⟩).map
      (fun r => r.2.regs.eax) = some 0 := by
  decide

/-- C28: the two hypercall tables bind the same call numbers, so the check
of the 32-bit entry covers the 64-bit table as well: for a call number that
passes the check, in every mode and on every build, the entry of the table
that is invoked is bound, the call is made (exactly once) and
`hvm_do_hypercall` never calls through a null entry. -/
theorem hypercall_check_sound (e : hcall_env) (s : pcpu) :
    (∀ nr, (hvm_hypercall64_table e.k nr).isSome = (hvm_hypercall32_table e.arch e.k nr).isSome) ∧
    (∀ eax, eax < e.k.NR_hypercalls → (hvm_hypercall32_table e.arch e.k eax).isSome = true →
      (hvm_hypercall64_table e.k eax).isSome = true ∧
      ∃ (code : Nat) (s' : pcpu) (new : List Event),
        hvm_do_hypercall_body e eax s = some (code, s') ∧
        s'.trace = s.trace ++ new ∧ handler_calls new = 1) ∧
    (hvm_do_hypercall e s).isSome = true := by
  have hbody : ∀ (eax : Nat) (t : pcpu), (hvm_do_hypercall_body e eax t).isSome = true := by
    intro eax t
    by_cases hnr : eax ≥ e.k.NR_hypercalls ∨ hvm_hypercall32_table e.arch e.k eax = none
    · obtain ⟨new, h, _⟩ := hvm_do_hypercall_body_enosys e eax t hnr
      rw [h]; rfl
    · have hlt : eax < e.k.NR_hypercalls := by
        by_contra hc; exact hnr (Or.inl (by omega))
      have hb : (hvm_hypercall32_table e.arch e.k eax).isSome = true := by
        cases hx : hvm_hypercall32_table e.arch e.k eax with
        | none => exact absurd (Or.inr hx) hnr
        | some f => rfl
      obtain ⟨code, s', new, h, _⟩ := hvm_do_hypercall_body_bound e eax t hlt hb
      rw [h]; rfl
  refine ⟨fun nr => hypercall_tables_same_domain e.arch e.k nr, fun eax hlt hb => ⟨?_, ?_⟩, ?_⟩
  · rw [hypercall_tables_same_domain e.arch]; exact hb
  · exact hvm_do_hypercall_body_bound e eax s hlt hb
  · unfold hvm_do_hypercall
    simp only []
    split
    · split
      · rfl
      · exact hbody _ _
    · split
      · exact hbody _ _
      · rfl

theorem hypercall_check_sound_witness :
    (20 : Nat) < (sample_env xen_abi 8).k.NR_hypercalls ∧
    (hvm_hypercall64_table (sample_env xen_abi 8).k 20).isSome = true :=
  ⟨by decide,
   ((hypercall_check_sound (sample_env xen_abi 8) ⟨sample_regs 20 0, false, []⟩).2.1 20
      (by decide) (by decide)).1⟩


/-! ## Theorems: restore of the CPU state -/

/-- C29: an instance id equal to MAX_VIRT_CPUS passes the range check of
`hvm_load_cpu_ctxt`, which is `vcpuid > MAX_VIRT_CPUS`, and the function
reads `d->vcpu[MAX_VIRT_CPUS]`, one element past the end of the array,
instead of returning -EINVAL; only ids above MAX_VIRT_CPUS are rejected
before the read. -/
theorem hvm_load_cpu_ctxt_reads_past_end (e : load_env) (d : restore_domain) :
    hvm_load_cpu_ctxt { e with hvm_load_instance := e.MAX_VIRT_CPUS } d
      = Except.error ((e.MAX_VIRT_CPUS : Int),
          { d with trace := d.trace ++ [restore_event.read_vcpu_slot e.MAX_VIRT_CPUS] }) ∧
    (∀ n : Nat,
      hvm_load_cpu_ctxt { e with hvm_load_instance := e.MAX_VIRT_CPUS + 1 + n } d
        = Except.ok (-EINVAL, d)) ∧
    hvm_load_cpu_ctxt (sample_load_env 4) empty_restore_domain
      = Except.error (4, { empty_restore_domain with trace := [restore_event.read_vcpu_slot 4] }) := by
  refine ⟨?_, fun n => ?_, rfl⟩
  · simp [hvm_load_cpu_ctxt, restore_domain.emit]
  · have h : ((e.MAX_VIRT_CPUS : Int) + 1 + n) > e.MAX_VIRT_CPUS := by omega
    simp only [hvm_load_cpu_ctxt, h, if_true]

example :
    hvm_load_cpu_ctxt (sample_load_env 3) empty_restore_domain
      = Except.ok (-EINVAL, { empty_restore_domain with trace := [restore_event.read_vcpu_slot 3] }) :=
  rfl


/-! ## Theorems: guest memory copy -/

/-- The offset `addr & ~PAGE_MASK` of an address in its page. -/
theorem land_page_mask (addr : Nat) : addr &&& (PAGE_SIZE - 1) = addr % PAGE_SIZE := by
  have h : PAGE_SIZE - 1 = 2 ^ 12 - 1 := rfl
  rw [h, Nat.and_pow_two_sub_one_eq_mod]
  rfl

/-- The calls one pass of the loop of `__hvm_copy` makes for a chunk of
`count` bytes through frame `mfn`. -/
theorem hvm_copy_loop_step (e : copy_env) (dir virt : Bool) (fuel n buf addr : Nat)
    (t : List copy_event) (hn : 0 < n)
    (hv : hvm_copy_mfn e virt addr ≠ e.INVALID_MFN) :
    hvm_copy_loop e dir virt (fuel + 1) buf addr (n : Int) t =
      hvm_copy_loop e dir virt fuel (buf + min (PAGE_SIZE - addr % PAGE_SIZE) n)
        ((addr + min (PAGE_SIZE - addr % PAGE_SIZE) n) % 2 ^ e.paddr_bits)
        ((n - min (PAGE_SIZE - addr % PAGE_SIZE) n : Nat) : Int)
        (t ++ ([copy_event.map_domain_page (hvm_copy_mfn e virt addr),
                copy_event.memcpy dir (hvm_copy_mfn e virt addr) (addr % PAGE_SIZE) buf
                  (min (PAGE_SIZE - addr % PAGE_SIZE) n)] ++
               (if dir then [copy_event.paging_mark_dirty (hvm_copy_mfn e virt addr)] else []) ++
               [copy_event.unmap_domain_page (hvm_copy_mfn e virt addr)])) := by
  have hpos : (n : Int) > 0 := by omega
  have hc : min ((PAGE_SIZE - (addr &&& (PAGE_SIZE - 1)) : Nat) : Int) (n : Int)
      = ((min (PAGE_SIZE - addr % PAGE_SIZE) n : Nat) : Int) := by
    rw [land_page_mask]; omega
  have hs : (n : Int) - ((min (PAGE_SIZE - addr % PAGE_SIZE) n : Nat) : Int)
      = ((n - min (PAGE_SIZE - addr % PAGE_SIZE) n : Nat) : Int) := by omega
  have hc2 : (min ((PAGE_SIZE - addr % PAGE_SIZE : Nat) : Int) (n : Int)).toNat
      = min (PAGE_SIZE - addr % PAGE_SIZE) n := by omega
  rw [hvm_copy_loop]
  simp only [hpos, if_true, hv, if_false, land_page_mask]
  rw [hc2]
  cases dir <;> simp

/-- The loop of `__hvm_copy` started with `n` bytes to go and at least `n`
passes allowed: it ends, having copied the first `k` bytes chunk by chunk in
order; every chunk start before offset `k` translates, and when `k < n` the
chunk that would start at offset `k` does not, and `n - k` is returned. -/
theorem hvm_copy_loop_spec (e : copy_env) (dir virt : Bool) (hp : PAGE_SIZE ∣ 2 ^ e.paddr_bits)
    (fuel : Nat) :
    ∀ (n buf addr : Nat) (t : List copy_event), n ≤ fuel → addr < 2 ^ e.paddr_bits →
    ∃ (k : Nat) (new : List copy_event), k ≤ n ∧
      hvm_copy_loop e dir virt fuel buf addr (n : Int) t = some (((n - k : Nat) : Int), t ++ new) ∧
      bytes_copied new = k ∧
      chunks_in_order e.paddr_bits (hvm_copy_mfn e virt) dir buf addr
        (new.filter copy_event.is_memcpy) = true ∧
      (∀ j, j < k → chunk_start addr j →
        hvm_copy_mfn e virt ((addr + j) % 2 ^ e.paddr_bits) ≠ e.INVALID_MFN) ∧
      (k < n → chunk_start addr k ∧
        hvm_copy_mfn e virt ((addr + k) % 2 ^ e.paddr_bits) = e.INVALID_MFN) := by
  induction fuel with
  | zero =>
    intro n buf addr t hn _
    have h0 : n = 0 := by omega
    subst h0
    exact ⟨0, [], le_refl _, by simp [hvm_copy_loop], rfl, rfl,
      fun j hj => absurd hj (by omega), fun h => absurd h (by omega)⟩
  | succ fuel ih =>
    intro n buf addr t hn ha
    have hmod0 : (addr + 0) % 2 ^ e.paddr_bits = addr := by
      rw [Nat.add_zero]; exact Nat.mod_eq_of_lt ha
    by_cases hz : n = 0
    · subst hz
      exact ⟨0, [], le_refl _, by simp [hvm_copy_loop], rfl, rfl,
        fun j hj => absurd hj (by omega), fun h => absurd h (by omega)⟩
    have hpos : 0 < n := Nat.pos_of_ne_zero hz
    by_cases hv : hvm_copy_mfn e virt addr = e.INVALID_MFN
    · refine ⟨0, [], Nat.zero_le _, ?_, rfl, rfl, fun j hj => absurd hj (by omega),
        fun _ => ⟨Or.inl rfl, by rw [hmod0]; exact hv⟩⟩
      have hpos2 : (n : Int) > 0 := by omega
      rw [hvm_copy_loop]
      simp [hpos2, hv]
    · have hoff : addr % PAGE_SIZE < PAGE_SIZE := Nat.mod_lt _ (by decide)
      have hstep := hvm_copy_loop_step e dir virt fuel n buf addr t hpos hv
      generalize hcdef : min (PAGE_SIZE - addr % PAGE_SIZE) n = c at hstep
      have hc1 : 1 ≤ c := by omega
      have hc2 : c ≤ n := by omega
      have hc3 : addr % PAGE_SIZE + c ≤ PAGE_SIZE := by omega
      have hc4 : c < n → (addr + c) % PAGE_SIZE = 0 := by
        intro h
        have : c = PAGE_SIZE - addr % PAGE_SIZE := by omega
        have hP : PAGE_SIZE = 4096 := rfl
        rw [hP] at this hoff ⊢
        omega
      obtain ⟨k, new, hk, hrun, hbytes, hord, hval, hfail⟩ :=
        ih (n - c) (buf + c) ((addr + c) % 2 ^ e.paddr_bits)
          (t ++ ([copy_event.map_domain_page (hvm_copy_mfn e virt addr),
                copy_event.memcpy dir (hvm_copy_mfn e virt addr) (addr % PAGE_SIZE) buf c] ++
               (if dir then [copy_event.paging_mark_dirty (hvm_copy_mfn e virt addr)] else []) ++
               [copy_event.unmap_domain_page (hvm_copy_mfn e virt addr)]))
          (by omega) (Nat.mod_lt _ (by positivity))
      have hm1 : ∀ j, ((addr + c) % 2 ^ e.paddr_bits + j) % 2 ^ e.paddr_bits
          = (addr + (c + j)) % 2 ^ e.paddr_bits := by
        intro j; rw [Nat.mod_add_mod, Nat.add_assoc]
      have hm2 : ∀ j, ((addr + c) % 2 ^ e.paddr_bits + j) % PAGE_SIZE
          = (addr + (c + j)) % PAGE_SIZE := by
        intro j
        rw [Nat.add_mod, Nat.mod_mod_of_dvd _ hp, ← Nat.add_mod, Nat.add_assoc]
      have hP : PAGE_SIZE = 4096 := rfl
      refine ⟨c + k, ([copy_event.map_domain_page (hvm_copy_mfn e virt addr),
                copy_event.memcpy dir (hvm_copy_mfn e virt addr) (addr % PAGE_SIZE) buf c] ++
               (if dir then [copy_event.paging_mark_dirty (hvm_copy_mfn e virt addr)] else []) ++
               [copy_event.unmap_domain_page (hvm_copy_mfn e virt addr)]) ++ new,
        by omega, ?_, ?_, ?_, ?_, ?_⟩
      · rw [hstep, hrun, Nat.sub_sub, List.append_assoc]
      · rw [← hbytes]
        cases dir <;> simp [bytes_copied, copy_event.bytes]
      · have hf : (([copy_event.map_domain_page (hvm_copy_mfn e virt addr),
                copy_event.memcpy dir (hvm_copy_mfn e virt addr) (addr % PAGE_SIZE) buf c] ++
               (if dir then [copy_event.paging_mark_dirty (hvm_copy_mfn e virt addr)] else []) ++
               [copy_event.unmap_domain_page (hvm_copy_mfn e virt addr)]) ++ new).filter
              copy_event.is_memcpy
            = copy_event.memcpy dir (hvm_copy_mfn e virt addr) (addr % PAGE_SIZE) buf c ::
                new.filter copy_event.is_memcpy := by
          cases dir <;> simp [List.filter_cons, copy_event.is_memcpy]
        rw [hf, chunks_in_order, hord]
        simp [hc1, hc3]
      · intro j hj hs
        by_cases hj0 : j = 0
        · subst hj0; rw [hmod0]; exact hv
        · have hjm : (addr + j) % PAGE_SIZE = 0 := by
            rcases hs with h | h
            · exact absurd h hj0
            · exact h
          have hjc : c ≤ j := by
            by_contra hlt
            rw [hP] at hjm hc3 hoff
            omega
          have h1 := hval (j - c) (by omega) (Or.inr (by
            rw [hm2, Nat.add_sub_cancel' hjc]; exact hjm))
          rw [hm1, Nat.add_sub_cancel' hjc] at h1
          exact h1
      · intro hlt
        obtain ⟨f1, f2⟩ := hfail (by omega)
        rw [hm1] at f2
        refine ⟨Or.inr ?_, f2⟩
        rcases f1 with h | h
        · subst h
          exact hc4 (by omega)
        · rw [hm2] at h; exact h

/-- With nothing to copy the loop of `__hvm_copy` makes no pass. -/
theorem hvm_copy_loop_nothing (e : copy_env) (dir virt : Bool) (fuel buf addr : Nat)
    (todo : Int) (t : List copy_event) (h : todo ≤ 0) :
    hvm_copy_loop e dir virt fuel buf addr todo t = some (0, t) := by
  have hn : ¬ todo > 0 := by omega
  cases fuel <;> simp [hvm_copy_loop, hn]

/-- C22: `__hvm_copy` returns the number of bytes it failed to copy.  It
always returns; a size of 0 or less copies nothing and returns 0; for a
size of 0 or more the result `r` lies between 0 and the size, the `memcpy`
calls made copy the first `size - r` bytes, chunk by chunk in address order,
each chunk inside one page; `r` is 0 exactly when every chunk start of the
range (its first byte and each byte at a page boundary) translates to a
valid frame, and a non-zero `r` counts the bytes from the first chunk start
that does not translate. -/
theorem hvm_copy_result (e : copy_env) (buf addr : Nat) (size : Int) (dir virt : Bool)
    (t : List copy_event) (hb : 12 ≤ e.paddr_bits) (ha : addr < 2 ^ e.paddr_bits) :
    ∃ (r : Int) (new : List copy_event),
      __hvm_copy e buf addr size dir virt t = some (r, t ++ new) ∧
      (size ≤ 0 → r = 0 ∧ new = []) ∧
      0 ≤ r ∧
      (0 ≤ size → r ≤ size ∧ (bytes_copied new : Int) = size - r) ∧
      chunks_in_order e.paddr_bits (hvm_copy_mfn e virt) dir buf addr
        (new.filter copy_event.is_memcpy) = true ∧
      (r = 0 ↔ ∀ j : Nat, (j : Int) < size → chunk_start addr j →
        hvm_copy_mfn e virt ((addr + j) % 2 ^ e.paddr_bits) ≠ e.INVALID_MFN) ∧
      (r ≠ 0 → ∃ k : Nat, (k : Int) = size - r ∧ chunk_start addr k ∧
        hvm_copy_mfn e virt ((addr + k) % 2 ^ e.paddr_bits) = e.INVALID_MFN ∧
        ∀ j, j < k → chunk_start addr j →
          hvm_copy_mfn e virt ((addr + j) % 2 ^ e.paddr_bits) ≠ e.INVALID_MFN) := by
  by_cases hs : size ≤ 0
  · refine ⟨0, [], ?_, fun _ => ⟨rfl, rfl⟩, le_refl _, fun h0 => ⟨h0, ?_⟩, rfl, ?_, ?_⟩
    · rw [__hvm_copy, hvm_copy_loop_nothing _ _ _ _ _ _ _ _ hs, List.append_nil]
    · have : size = 0 := by omega
      rw [this]; rfl
    · exact ⟨fun _ j hj => absurd hj (by omega), fun _ => rfl⟩
    · intro h; exact absurd rfl h
  · have hp : PAGE_SIZE ∣ 2 ^ e.paddr_bits := by
      have h12 : PAGE_SIZE = 2 ^ 12 := rfl
      rw [h12]
      exact pow_dvd_pow 2 hb
    obtain ⟨n, hn⟩ : ∃ n : Nat, size = (n : Int) := ⟨size.toNat, by omega⟩
    subst hn
    obtain ⟨k, new, hk, hrun, hbytes, hord, hval, hfail⟩ :=
      hvm_copy_loop_spec e dir virt hp n n buf addr t (le_refl _) ha
    refine ⟨((n - k : Nat) : Int), new, ?_, fun h => absurd h hs, by omega,
      fun _ => ⟨by omega, by rw [hbytes]; omega⟩, hord, ?_, ?_⟩
    · rw [__hvm_copy, Int.toNat_ofNat]; exact hrun
    · constructor
      · intro hr j hj
        exact hval j (by omega)
      · intro hall
        by_contra hr
        obtain ⟨f1, f2⟩ := hfail (by omega)
        exact hall k (by omega) f1 f2
    · intro hr
      obtain ⟨f1, f2⟩ := hfail (by omega)
      exact ⟨k, by omega, f1, f2, hval⟩

theorem hvm_copy_result_witness :
    12 ≤ sample_copy_env.paddr_bits ∧ 0x2ff0 < 2 ^ sample_copy_env.paddr_bits ∧
    ∃ (r : Int) (new : List copy_event),
      __hvm_copy sample_copy_env 0x100 0x2ff0 0x2000 true false [] = some (r, [] ++ new) ∧
      0 ≤ r := by
  obtain ⟨r, new, h1, _, h2, _⟩ :=
    hvm_copy_result sample_copy_env 0x100 0x2ff0 0x2000 true false [] (by decide) (by decide)
  exact ⟨by decide, by decide, r, new, h1, h2⟩

example :
    hvm_copy_to_guest_phys sample_copy_env 0x2ff0 0x100 0x2000 [] =
      some (0x0ff0,
        [copy_event.map_domain_page 2, copy_event.memcpy true 2 0xff0 0x100 0x10,
         copy_event.paging_mark_dirty 2, copy_event.unmap_domain_page 2,
         copy_event.map_domain_page 3, copy_event.memcpy true 3 0 0x110 0x1000,
         copy_event.paging_mark_dirty 3, copy_event.unmap_domain_page 3]) := by
  decide

example :
    hvm_copy_from_guest_virt sample_copy_env 0x100 0x1ffe 4 [] =
      some (0,
        [copy_event.map_domain_page 1, copy_event.memcpy false 1 0xffe 0x100 2,
         copy_event.unmap_domain_page 1,
         copy_event.map_domain_page 2, copy_event.memcpy false 2 0 0x102 2,
         copy_event.unmap_domain_page 2]) := by
  decide

example : __hvm_copy sample_copy_env 0x100 0x1ffe (-3) true false [] = some (0, []) := by
  decide


/-! ## Theorems: print buffer -/

/-- The result of one call of `hvm_print_line` on a buffer of at least 3
bytes whose index is below `sizeof(pbuf) - 2`, path by path. -/
theorem hvm_print_line_eq (c : Nat) (hd : hvm_domain)
    (hs : 3 ≤ hd.pbuf.length) (hi : hd.pbuf_idx < hd.pbuf.length - 2) :
    hvm_print_line c hd = Except.ok
      (if c = 10 then
        { pbuf := (hd.pbuf.set hd.pbuf_idx 10).set (hd.pbuf_idx + 1) 0,
          pbuf_idx := 0,
          trace := hd.trace ++ [print_event.spin_lock,
            print_event.printk ((hd.pbuf.set hd.pbuf_idx 10).set (hd.pbuf_idx + 1) 0),
            print_event.spin_unlock] }
      else if hd.pbuf_idx + 1 = hd.pbuf.length - 2 then
        { pbuf := ((hd.pbuf.set hd.pbuf_idx c).set (hd.pbuf_idx + 1) 10).set
            (hd.pbuf_idx + 2) 0,
          pbuf_idx := 0,
          trace := hd.trace ++ [print_event.spin_lock,
            print_event.printk (((hd.pbuf.set hd.pbuf_idx c).set (hd.pbuf_idx + 1) 10).set
              (hd.pbuf_idx + 2) 0),
            print_event.spin_unlock] }
      else
        { pbuf := hd.pbuf.set hd.pbuf_idx c,
          pbuf_idx := hd.pbuf_idx + 1,
          trace := hd.trace ++ [print_event.spin_lock, print_event.spin_unlock] }) := by
  have h1 : hd.pbuf_idx < hd.pbuf.length := by omega
  have h2 : hd.pbuf_idx + 1 < hd.pbuf.length := by omega
  by_cases hc : c = 10
  · subst hc
    simp [hvm_print_line, hvm_print_line_flush, pbuf_store, hvm_domain.emit, h1, h2]
  · by_cases he : hd.pbuf_idx + 1 = hd.pbuf.length - 2
    · have h3 : hd.pbuf_idx + 2 < hd.pbuf.length := by omega
      have he' : hd.pbuf.length - 2 = hd.pbuf_idx + 1 := he.symm
      simp [hvm_print_line, hvm_print_line_flush, pbuf_store, hvm_domain.emit, h1, h2, h3,
        hc, he']
    · simp [hvm_print_line, hvm_print_line_flush, pbuf_store, hvm_domain.emit, h1, hc, he]

/-- The buffer keeps its size and the index stays below `sizeof(pbuf) - 2`
over any sequence of calls, none of which stores outside the buffer. -/
theorem hvm_print_lines_inv (cs : List Nat) (hd : hvm_domain)
    (hs : 3 ≤ hd.pbuf.length) (hi : hd.pbuf_idx < hd.pbuf.length - 2) :
    ∃ hd', hvm_print_lines cs hd = Except.ok hd' ∧
      hd'.pbuf.length = hd.pbuf.length ∧ hd'.pbuf_idx < hd.pbuf.length - 2 := by
  induction cs generalizing hd with
  | nil => exact ⟨hd, rfl, rfl, hi⟩
  | cons c cs ih =>
    have hl : ∀ x : hvm_domain, hvm_print_line c hd = Except.ok x →
        x.pbuf.length = hd.pbuf.length ∧ x.pbuf_idx < hd.pbuf.length - 2 := by
      intro x hx
      rw [hvm_print_line_eq c hd hs hi] at hx
      injection hx with hx
      subst hx
      by_cases hc : c = 10
      · rw [if_pos hc]
        exact ⟨by simp, by show 0 < hd.pbuf.length - 2; omega⟩
      · by_cases he : hd.pbuf_idx + 1 = hd.pbuf.length - 2
        · rw [if_neg hc, if_pos he]
          exact ⟨by simp, by show 0 < hd.pbuf.length - 2; omega⟩
        · rw [if_neg hc, if_neg he]
          exact ⟨by simp, by show hd.pbuf_idx + 1 < hd.pbuf.length - 2; omega⟩
    rw [hvm_print_lines, hvm_print_line_eq c hd hs hi]
    obtain ⟨h1, h2⟩ := hl _ (hvm_print_line_eq c hd hs hi)
    obtain ⟨hd', r1, r2, r3⟩ := ih _ (by rw [h1]; exact hs) (by rw [h1]; exact h2)
    exact ⟨hd', r1, by rw [r2, h1], by rw [← h1]; exact r3⟩

/-- Calls made one after the other. -/
theorem hvm_print_lines_append (cs ds : List Nat) (hd : hvm_domain) :
    hvm_print_lines (cs ++ ds) hd =
      match hvm_print_lines cs hd with
      | Except.error x => Except.error x
      | Except.ok hd' => hvm_print_lines ds hd' := by
  induction cs generalizing hd with
  | nil => rfl
  | cons c cs ih =>
    rw [List.cons_append, hvm_print_lines, hvm_print_lines]
    cases hvm_print_line c hd with
    | error x => rfl
    | ok y => exact ih y

/-- A buffer whose first NUL is at position `n` prints as its first `n`
bytes. -/
theorem c_string_eq_take (l : List Nat) (n : Nat) (hn : l[n]? = some 0)
    (hj : ∀ j, j < n → l[j]? ≠ some 0) : c_string l = l.take n := by
  induction l generalizing n with
  | nil => simp at hn
  | cons a l ih =>
    cases n with
    | zero =>
      simp at hn
      simp [c_string, hn]
    | succ n =>
      have ha : a ≠ 0 := by
        have := hj 0 (Nat.succ_pos n)
        simpa using this
      have := ih n (by simpa using hn) (fun j hjn => by
        have := hj (j + 1) (Nat.succ_lt_succ hjn)
        simpa using this)
      simp only [c_string] at this ⊢
      simp [List.takeWhile_cons, ha, this]

/-- A buffer with a NUL at position `n` prints as at most `n` bytes. -/
theorem c_string_length_le (l : List Nat) (n : Nat) (hn : l[n]? = some 0) :
    (c_string l).length ≤ n := by
  induction l generalizing n with
  | nil => simp at hn
  | cons a l ih =>
    cases n with
    | zero =>
      simp at hn
      simp [c_string, hn]
    | succ n =>
      have := ih n (by simpa using hn)
      simp only [c_string] at this ⊢
      rw [List.takeWhile_cons]
      split
      · simp only [List.length_cons]; omega
      · simp

/-- The last of the first `n` elements of a list is its element `n - 1`. -/
theorem getLast?_take_eq (l : List Nat) (n : Nat) (h0 : 0 < n) (hn : n ≤ l.length) :
    (l.take n).getLast? = l[n - 1]? := by
  rw [List.getLast?_eq_getElem?, List.length_take, Nat.min_eq_left hn, List.getElem?_take]
  simp; omega

/-- One call of `hvm_print_line` on a buffer of at least 3 bytes whose index
is below `sizeof(pbuf) - 2`: the bytes below the index are kept, the
character is stored at the index, and the call either moves the index on
without printing or prints the buffer, in which the character is followed
by a newline (unless it is one) and a NUL, resets the index to 0 and ends
the line within `sizeof(pbuf) - 1` characters. -/
theorem hvm_print_line_step (c : Nat) (hd : hvm_domain)
    (hs : 3 ≤ hd.pbuf.length) (hi : hd.pbuf_idx < hd.pbuf.length - 2)
    (x : hvm_domain) (hx : hvm_print_line c hd = Except.ok x) :
    (∀ j, j < hd.pbuf_idx → x.pbuf[j]? = hd.pbuf[j]?) ∧
    x.pbuf[hd.pbuf_idx]? = some c ∧
    ((c ≠ 10 ∧ hd.pbuf_idx + 1 ≠ hd.pbuf.length - 2 ∧
        x.pbuf_idx = hd.pbuf_idx + 1 ∧
        x.trace = hd.trace ++ [print_event.spin_lock, print_event.spin_unlock]) ∨
     ((c = 10 ∨ hd.pbuf_idx + 1 = hd.pbuf.length - 2) ∧
        x.pbuf_idx = 0 ∧
        x.trace = hd.trace ++
          [print_event.spin_lock, print_event.printk x.pbuf, print_event.spin_unlock] ∧
        hd.pbuf_idx + (if c = 10 then 1 else 2) ≤ hd.pbuf.length - 1 ∧
        x.pbuf[hd.pbuf_idx + (if c = 10 then 1 else 2)]? = some 0 ∧
        x.pbuf[hd.pbuf_idx + (if c = 10 then 1 else 2) - 1]? = some 10)) := by
  have h1 : hd.pbuf_idx < hd.pbuf.length := by omega
  rw [hvm_print_line_eq c hd hs hi] at hx
  injection hx with hx
  subst hx
  by_cases hc : c = 10
  · subst hc
    rw [if_pos rfl]
    refine ⟨fun j hj => ?_, ?_, Or.inr ⟨Or.inl rfl, rfl, rfl, ?_, ?_, ?_⟩⟩
    · have : ¬ hd.pbuf_idx = j := by omega
      have : ¬ hd.pbuf_idx + 1 = j := by omega
      simp [List.getElem?_set, *]
    · simp [List.getElem?_set, h1]
    · simp; omega
    · have : hd.pbuf_idx + 1 < hd.pbuf.length := by omega
      simp [List.getElem?_set, *]
    · simp [List.getElem?_set, h1]
  · by_cases he : hd.pbuf_idx + 1 = hd.pbuf.length - 2
    · rw [if_neg hc, if_pos he]
      have h2 : hd.pbuf_idx + 1 < hd.pbuf.length := by omega
      have h3 : hd.pbuf_idx + 2 < hd.pbuf.length := by omega
      refine ⟨fun j hj => ?_, ?_, Or.inr ⟨Or.inr he, rfl, rfl, ?_, ?_, ?_⟩⟩
      · have g1 : ¬ hd.pbuf_idx = j := by omega
        have g2 : ¬ hd.pbuf_idx + 1 = j := by omega
        have g3 : ¬ hd.pbuf_idx + 2 = j := by omega
        simp [List.getElem?_set, g1, g2, g3]
      · simp [List.getElem?_set, h1]
      · simp [hc]; omega
      · simp [List.getElem?_set, hc, h3]
      · simp [List.getElem?_set, hc, h2]
    · rw [if_neg hc, if_neg he]
      refine ⟨fun j hj => ?_, ?_, Or.inl ⟨hc, he, rfl, rfl⟩⟩
      · have : ¬ hd.pbuf_idx = j := by omega
        simp [List.getElem?_set, *]
      · simp [List.getElem?_set, h1]

/-- C30 (counterexample): from an empty buffer of 6 bytes the characters
`'a'`, NUL, newline make the third call hand `printk` a buffer whose string
is `"a"`: the printed line does not end with a newline. -/
theorem hvm_print_line_embedded_nul :
    small_pbuf.pbuf_idx = 0 ∧ 3 ≤ small_pbuf.pbuf.length ∧
    (hvm_print_lines [97, 0, 10] small_pbuf).toOption = some
      { pbuf := [97, 0, 10, 0, 0, 0], pbuf_idx := 0,
        trace := [print_event.spin_lock, print_event.spin_unlock,
                  print_event.spin_lock, print_event.spin_unlock,
                  print_event.spin_lock, print_event.printk [97, 0, 10, 0, 0, 0],
                  print_event.spin_unlock] } ∧
    c_string [97, 0, 10, 0, 0, 0] = [97] ∧
    (c_string [97, 0, 10, 0, 0, 0]).getLast? ≠ some 10 := by
  decide

/-- C30 (amended): starting from an empty buffer of at least 3 bytes, after
any sequence of characters `cs` the next call, for any character `c`, stores
only inside the buffer and leaves `pbuf_idx` below `sizeof(pbuf) - 2`, as it
was before the call; the bytes kept so far stay, the character is stored
behind them, and either nothing is printed and the index moves on by one,
or the buffer is printed and `pbuf_idx` is reset to 0.  The buffer printed
holds `n <= sizeof(pbuf) - 1` bytes, the last of them a newline, followed by
a NUL at position `n`, so the string printed has at most `n` characters.
When none of the `n` bytes is a NUL the string printed is exactly these `n`
bytes and ends with a newline. -/
theorem hvm_print_line_bounded (cs : List Nat) (c : Nat) (hd : hvm_domain)
    (h0 : hd.pbuf_idx = 0) (hs : 3 ≤ hd.pbuf.length) :
    ∃ hd1 hd2 : hvm_domain,
      hvm_print_lines cs hd = Except.ok hd1 ∧
      hvm_print_line c hd1 = Except.ok hd2 ∧
      hvm_print_lines (cs ++ [c]) hd = Except.ok hd2 ∧
      hd1.pbuf.length = hd.pbuf.length ∧ hd2.pbuf.length = hd.pbuf.length ∧
      hd1.pbuf_idx < hd.pbuf.length - 2 ∧ hd2.pbuf_idx < hd.pbuf.length - 2 ∧
      (∀ j, j < hd1.pbuf_idx → hd2.pbuf[j]? = hd1.pbuf[j]?) ∧
      hd2.pbuf[hd1.pbuf_idx]? = some c ∧
      ((c ≠ 10 ∧ hd1.pbuf_idx + 1 ≠ hd.pbuf.length - 2 ∧
          hd2.pbuf_idx = hd1.pbuf_idx + 1 ∧
          hd2.trace = hd1.trace ++ [print_event.spin_lock, print_event.spin_unlock]) ∨
       ((c = 10 ∨ hd1.pbuf_idx + 1 = hd.pbuf.length - 2) ∧
          hd2.pbuf_idx = 0 ∧
          hd2.trace = hd1.trace ++
            [print_event.spin_lock, print_event.printk hd2.pbuf, print_event.spin_unlock] ∧
          ∃ n, n = hd1.pbuf_idx + (if c = 10 then 1 else 2) ∧
            n ≤ hd.pbuf.length - 1 ∧
            hd2.pbuf[n]? = some 0 ∧ hd2.pbuf[n - 1]? = some 10 ∧
            (c_string hd2.pbuf).length ≤ n ∧
            ((∀ j, j < n → hd2.pbuf[j]? ≠ some 0) →
              c_string hd2.pbuf = hd2.pbuf.take n ∧
              (c_string hd2.pbuf).getLast? = some 10))) := by
  obtain ⟨hd1, r1, r2, r3⟩ := hvm_print_lines_inv cs hd hs (by omega)
  have hs1 : 3 ≤ hd1.pbuf.length := by omega
  have hi1 : hd1.pbuf_idx < hd1.pbuf.length - 2 := by omega
  obtain ⟨hd2, q1, q2, q3⟩ := hvm_print_lines_inv [c] hd1 hs1 hi1
  have e2 : hvm_print_line c hd1 = Except.ok hd2 := by
    rw [hvm_print_lines] at q1
    cases h : hvm_print_line c hd1 with
    | error y => rw [h] at q1; cases q1
    | ok y =>
      rw [h] at q1
      simp only [hvm_print_lines] at q1
      exact q1
  have e3 : hvm_print_lines (cs ++ [c]) hd = Except.ok hd2 := by
    rw [hvm_print_lines_append, r1]
    exact q1
  obtain ⟨p1, p2, p3⟩ := hvm_print_line_step c hd1 hs1 hi1 hd2 e2
  refine ⟨hd1, hd2, r1, e2, e3, r2, by omega, r3, by omega, p1, p2, ?_⟩
  rcases p3 with ⟨a1, a2, a3, a4⟩ | ⟨b1, b2, b3, b4, b5, b6⟩
  · exact Or.inl ⟨a1, by omega, a3, a4⟩
  · have hn0 : 0 < hd1.pbuf_idx + (if c = 10 then 1 else 2) := by split <;> omega
    have hnl : hd1.pbuf_idx + (if c = 10 then 1 else 2) ≤ hd2.pbuf.length := by omega
    refine Or.inr ⟨?_, b2, b3, _, rfl, by omega, b5, b6, c_string_length_le _ _ b5,
      fun hj => ⟨c_string_eq_take _ _ b5 hj, ?_⟩⟩
    · rcases b1 with h | h
      · exact Or.inl h
      · exact Or.inr (by omega)
    · rw [c_string_eq_take _ _ b5 hj, getLast?_take_eq _ _ hn0 hnl]
      exact b6

theorem hvm_print_line_bounded_witness :
    small_pbuf.pbuf_idx = 0 ∧ 3 ≤ small_pbuf.pbuf.length ∧
    ∃ hd1 hd2 : hvm_domain,
      hvm_print_lines [104, 105] small_pbuf = Except.ok hd1 ∧
      hvm_print_line 10 hd1 = Except.ok hd2 ∧
      hd2.pbuf_idx < small_pbuf.pbuf.length - 2 ∧
      hd2.pbuf_idx = 0 ∧
      hd2.trace = hd1.trace ++
        [print_event.spin_lock, print_event.printk hd2.pbuf, print_event.spin_unlock] ∧
      (c_string hd2.pbuf).length ≤ hd1.pbuf_idx + 1 := by
  obtain ⟨hd1, hd2, r1, r2, _, _, _, _, r3, _, _, h⟩ :=
    hvm_print_line_bounded [104, 105] 10 small_pbuf rfl (by decide)
  rcases h with ⟨hc, _⟩ | ⟨_, i0, tr, n, hn, _, _, _, hlen, _⟩
  · exact absurd rfl hc
  · subst hn
    exact ⟨rfl, by decide, hd1, hd2, r1, r2, r3, i0, tr, hlen⟩

example :
    (hvm_print_lines [104, 105, 33, 63, 10, 0, 10] small_pbuf).toOption = some
      { pbuf := [0, 10, 0, 63, 10, 0], pbuf_idx := 0,
        trace := [print_event.spin_lock, print_event.spin_unlock,
                  print_event.spin_lock, print_event.spin_unlock,
                  print_event.spin_lock, print_event.spin_unlock,
                  print_event.spin_lock, print_event.printk [104, 105, 33, 63, 10, 0],
                  print_event.spin_unlock,
                  print_event.spin_lock, print_event.printk [10, 0, 33, 63, 10, 0],
                  print_event.spin_unlock,
                  print_event.spin_lock, print_event.spin_unlock,
                  print_event.spin_lock, print_event.printk [0, 10, 0, 63, 10, 0],
                  print_event.spin_unlock] } := by
  decide

end Xen
